import Mathlib

/-! # Filament-sensor pause controller (ElegooCC.cpp): embedding and properties

The controller of `src/src/ElegooCC.cpp` is embedded as pure functions on an
explicit state record `ElegooCC`.  Everything the C++ code reads from outside
(clock, settings, pins, identifier generator) is passed in an `Env` record, and
everything it emits (text frames handed to the websocket, pause-attempt records
handed to the telemetry sink) is appended to a list kept in the state.

Conventions
* `unsigned long` is 32 bits wide on the target: differences of timestamps are
  taken modulo `2 ^ 32` (`usub`), and an `int` compared with an `unsigned long`
  is first converted to `unsigned long` (`toULong`).
* `int` differences are wrapped to 32 bits (`wrapInt`).
* Log lines are not part of the state: they never feed back into a decision.
* `webSocket.loop()`, the transport pump called at the end of `loop()`, delivers
  its events through `webSocketEvent`; those deliveries are separate steps
  (`transportEvent`) that follow the tick.
-/

/-! ## Machine arithmetic -/

/-- Number of values of a 32-bit word. -/
def WORD : Nat := 2 ^ 32

/-- Difference of two `unsigned long` values, as C computes it (modulo `2 ^ 32`). -/
def usub (a b : Nat) : Nat := (a % WORD + (WORD - b % WORD)) % WORD

/-- Conversion of an `int` to `unsigned long` (usual arithmetic conversions). -/
def toULong (i : Int) : Nat := (i % (WORD : Int)).toNat

/-- Result of an `int` operation wrapped to the 32-bit two's-complement range. -/
def wrapInt (i : Int) : Int := (i + 2 ^ 31) % 2 ^ 32 - 2 ^ 31

/-! ## Protocol constants and enumerations (ElegooCC.h, PauseAttemptData.h) -/

/-- Modelled from the spec: the enum `sdcp_print_status_t` is declared in
ElegooCC.h, which is not among the sources.  The constructors are the fourteen
names used by `ElegooCC.cpp` (the spec's list of printer phases); `OTHER`
stands for any value a status frame carries that is none of them (the spec's
"unknown").  The code only ever compares print statuses for equality. -/
inductive sdcp_print_status_t
  | SDCP_PRINT_STATUS_IDLE
  | SDCP_PRINT_STATUS_HOMING
  | SDCP_PRINT_STATUS_DROPPING
  | SDCP_PRINT_STATUS_EXPOSURING
  | SDCP_PRINT_STATUS_LIFTING
  | SDCP_PRINT_STATUS_PAUSING
  | SDCP_PRINT_STATUS_PAUSED
  | SDCP_PRINT_STATUS_STOPPING
  | SDCP_PRINT_STATUS_STOPED
  | SDCP_PRINT_STATUS_COMPLETE
  | SDCP_PRINT_STATUS_FILE_CHECKING
  | SDCP_PRINT_STATUS_PRINTING
  | SDCP_PRINT_STATUS_HEATING
  | SDCP_PRINT_STATUS_BED_LEVELING
  | OTHER
  deriving DecidableEq, Repr

open sdcp_print_status_t

/-- Modelled from the spec: bit index of the "printing" flag in the
machine-status mask.  The enum `sdcp_machine_status_t` is declared in
ElegooCC.h (not among the sources); the spec fixes only that the flags are
numbered 0..4.  The value 1 is the SDCP numbering; no property below depends
on which of the five indices it is. -/
def SDCP_MACHINE_STATUS_PRINTING : Nat := 1

/-- Modelled from the spec: command code of `status-request` (declared in
ElegooCC.h, not among the sources; SDCP numbering). -/
def SDCP_COMMAND_STATUS : Int := 0

/-- Modelled from the spec: command code of `pause-print` (declared in
ElegooCC.h, not among the sources; SDCP numbering). -/
def SDCP_COMMAND_PAUSE_PRINT : Int := 129

/-- Modelled from the spec: command code of `continue-print` (declared in
ElegooCC.h, not among the sources; SDCP numbering). -/
def SDCP_COMMAND_CONTINUE_PRINT : Int := 131

/-- The `#define ACK_TIMEOUT_MS 5000` of ElegooCC.cpp. -/
def ACK_TIMEOUT_MS : Nat := 5000

/-- The enum `PauseAttemptType` of PauseAttemptData.h. -/
inductive PauseAttemptType
  | PAUSE_ATTEMPT_INITIAL
  | PAUSE_ATTEMPT_RETRY
  | PAUSE_ATTEMPT_SUCCESS
  | PAUSE_ATTEMPT_MAX_EXCEEDED
  | PAUSE_ATTEMPT_ALREADY_PAUSED
  deriving DecidableEq, Repr

open PauseAttemptType

/-- The struct `PauseAttemptPoint` of PauseAttemptData.h: one record handed to
the telemetry sink. -/
structure PauseAttemptPoint where
  timestamp : Nat
  type : PauseAttemptType
  retryCount : Int
  printStatus : sdcp_print_status_t
  deriving DecidableEq, Repr

/-- The struct `user_settings` of SettingsManager.h. -/
structure user_settings where
  ssid : String
  passwd : String
  ap_mode : Bool
  elegooip : String
  timeout : Int
  first_layer_timeout : Int
  pause_on_runout : Bool
  start_print_timeout : Int
  enabled : Bool
  has_connected : Bool
  pause_verification_timeout_ms : Int
  max_pause_retries : Int
  deriving DecidableEq, Repr

/-- Everything one call of the controller reads from outside. -/
structure Env where
  /-- the configuration snapshot returned by the `settingsManager` getters -/
  settings : user_settings
  /-- first `millis()` read of the call (`currentTime` in `loop`) -/
  millis : Nat
  /-- the `millis()` read by `sendCommand` when it arms the pending ack -/
  millisAtAck : Nat
  /-- the `millis()` read by `pausePrint` after sending -/
  millisAtPause : Nat
  /-- the `getTime()` of main.cpp (unix seconds) -/
  getTime : Nat
  /-- the text `uuid.toCharArray()` yields after `uuid.generate()` -/
  uuid : String
  /-- the value of `digitalRead(MOVEMENT_SENSOR_PIN)` -/
  movementPin : Int
  /-- the value of `digitalRead(FILAMENT_RUNOUT_PIN)` (`LOW` is 0) -/
  runoutPin : Int
  deriving DecidableEq, Repr

/-! ## Inbound frames

A parsed document is represented by what the ArduinoJson accessors used in
ElegooCC.cpp return on it: `none` for a key `containsKey` does not find, and
the converted value otherwise. -/

/-- The `Status.PrintInfo` object; a member that is absent converts to 0. -/
structure PrintInfoObj where
  Status : Option sdcp_print_status_t
  CurrentLayer : Option Int
  TotalLayer : Option Int
  Progress : Option Int
  CurrentTicks : Option Int
  TotalTicks : Option Int
  PrintSpeedPct : Option Int
  deriving DecidableEq, Repr

/-- The top-level `Status` object of a status frame. -/
structure StatusObj where
  CurrentStatus : Option (List Int)
  CurrenCoord : Option String
  PrintInfo : Option PrintInfoObj
  deriving DecidableEq, Repr

/-- The top-level `Data` object of a command response. -/
structure DataObj where
  Cmd : Option Int
  RequestID : Option String
  /-- the text `data["MainboardID"]` converts to -/
  MainboardID : String
  deriving DecidableEq, Repr

/-- The document `deserializeJson` produced. -/
structure JsonDocument where
  Id : Option String
  Data : Option DataObj
  Status : Option StatusObj
  /-- the text `doc["MainboardID"]` converts to -/
  MainboardID : String
  deriving DecidableEq, Repr

/-- The event kinds the websocket library passes to the callback. -/
inductive WStype_t
  | WStype_ERROR
  | WStype_DISCONNECTED
  | WStype_CONNECTED
  | WStype_TEXT
  | WStype_BIN
  | WStype_FRAGMENT_TEXT_START
  | WStype_FRAGMENT_BIN_START
  | WStype_FRAGMENT
  | WStype_FRAGMENT_FIN
  | WStype_PING
  | WStype_PONG
  deriving DecidableEq, Repr

open WStype_t

/-! ## Nozzle height

`currentZ` is a C `float` (IEEE 754 binary32).  A finite value is held exactly
as `num / 10 ^ scale` (every binary32 value `m * 2 ^ e` has such a form, with
`scale = -e` and `num = m * 5 ^ (-e)` when `e` is negative); `cls` tells a
finite value from a NaN and from the two infinities.  `String::toFloat` calls
the C function `atof`, whose `double` result (binary64, correctly rounded) is
converted to `float` (round to nearest, ties to even). -/

/-- The class of a C floating-point value. -/
inductive FloatClass
  | finite
  | nan
  | posInf
  | negInf
  deriving DecidableEq, Repr

/-- A C floating-point value: the exact number `num / 10 ^ scale` when `cls` is
`finite`. -/
structure ZValue where
  num : Int
  scale : Nat
  cls : FloatClass
  deriving DecidableEq, Repr

/-- The number a finite value stands for. -/
def ZValue.value (z : ZValue) : ℚ := (z.num : ℚ) / (10 : ℚ) ^ z.scale

/-- The test `currentZ < 0.1`.  A finite value is compared with one tenth; on
the values a `float` holds this is the comparison with the `double` constant
0.1 of the code (lemma `ZValue.belowTenth_binary32`).  A comparison with a NaN
is false. -/
def ZValue.belowTenth (z : ZValue) : Bool :=
  match z.cls with
  | .finite => decide (z.num * 10 < 10 ^ z.scale)
  | .nan => false
  | .posInf => false
  | .negInf => true

/-- Number of binary digits of `n`, with `fuel` halvings allowed. -/
def bitLengthAux : Nat → Nat → Nat
  | 0, _ => 0
  | fuel + 1, n => if n = 0 then 0 else bitLengthAux fuel (n / 2) + 1

/-- Number of binary digits of `n`. -/
def bitLength (n : Nat) : Nat := bitLengthAux n n

/-- The fraction `a / b` divided by `2 ^ e`, as numerator and denominator. -/
def shiftFraction (a b : Nat) (e : Int) : Nat × Nat :=
  if 0 ≤ e then (a, b * 2 ^ e.toNat) else (a * 2 ^ (-e).toNat, b)

/-- The fraction `a / b` rounded to the nearest integer, ties to even. -/
def roundHalfEven (a b : Nat) : Nat :=
  if 2 * (a % b) < b then a / b
  else if b < 2 * (a % b) then a / b + 1
  else if (a / b) % 2 = 0 then a / b else a / b + 1

/-- The integer `k` with `2 ^ k ≤ a / b < 2 ^ (k + 1)`, for positive `a` and
`b`. -/
def floorLog2 (a b : Nat) : Int :=
  let l : Int := (bitLength a : Int) - (bitLength b : Int)
  if (shiftFraction a b l).2 ≤ (shiftFraction a b l).1 then l else l - 1

/-- The fraction `a / b` rounded to a binary floating-point format with `p`
digits of precision whose unit in the last place runs from `2 ^ emin` to
`2 ^ emax` (round to nearest, ties to even, gradual underflow):
`some (m, e)` stands for `m * 2 ^ e`, `none` for an overflow. -/
def roundBinary (p : Nat) (emin emax : Int) (a b : Nat) : Option (Nat × Int) :=
  if a = 0 then some (0, 0)
  else
    let e : Int := max (floorLog2 a b - ((p : Int) - 1)) emin
    let m := roundHalfEven (shiftFraction a b e).1 (shiftFraction a b e).2
    if m = 2 ^ p then (if emax < e + 1 then none else some (2 ^ (p - 1), e + 1))
    else if emax < e then none else some (m, e)

/-- The infinity of the given sign. -/
def ZValue.infinity (neg : Prop) [Decidable neg] : ZValue :=
  if neg then ⟨0, 0, .negInf⟩ else ⟨0, 0, .posInf⟩

/-- The finite value `m * 2 ^ e` with the given sign; the sign of a zero is not
kept. -/
def ZValue.ofBinary (neg : Prop) [Decidable neg] (m : Nat) (e : Int) : ZValue :=
  let n : Int := if neg then - (m : Int) else (m : Int)
  if m = 0 then ⟨0, 0, .finite⟩
  else if 0 ≤ e then ⟨n * 2 ^ e.toNat, 0, .finite⟩
  else ⟨n * 5 ^ (-e).toNat, (-e).toNat, .finite⟩

/-- The value `a / b` with the given sign as `atof` returns it (binary64) and
the conversion to `float` stores it (binary32). -/
def storeFloat (neg : Prop) [Decidable neg] (a b : Nat) : ZValue :=
  match roundBinary 53 (-1074) 971 a b with
  | none => ZValue.infinity neg
  | some (m, e) =>
    match roundBinary 24 (-149) 104 (shiftFraction m 1 (-e)).1 (shiftFraction m 1 (-e)).2 with
    | none => ZValue.infinity neg
    | some (m2, e2) => ZValue.ofBinary neg m2 e2

/-- The C function `isspace` in the "C" locale. -/
def isspace (c : Char) : Bool :=
  c = ' ' ∨ c = '\t' ∨ c = '\n' ∨ c = '\x0b' ∨ c = '\x0c' ∨ c = '\r'

/-- Reads decimal digits: accumulated value, number of digits read, rest. -/
def takeDigits : List Char → Nat → Nat → Nat × Nat × List Char
  | [], acc, n => (acc, n, [])
  | c :: cs, acc, n =>
    if c.isDigit then takeDigits cs (acc * 10 + (c.toNat - 48)) (n + 1)
    else (acc, n, c :: cs)

/-- The value of a hexadecimal digit. -/
def hexDigit (c : Char) : Option Nat :=
  if c.isDigit then some (c.toNat - 48)
  else if 'a' ≤ c ∧ c ≤ 'f' then some (c.toNat - 87)
  else if 'A' ≤ c ∧ c ≤ 'F' then some (c.toNat - 55)
  else none

/-- Reads hexadecimal digits: accumulated value, number of digits read, rest. -/
def takeHexDigits : List Char → Nat → Nat → Nat × Nat × List Char
  | [], acc, n => (acc, n, [])
  | c :: cs, acc, n =>
    match hexDigit c with
    | some d => takeHexDigits cs (acc * 16 + d) (n + 1)
    | none => (acc, n, c :: cs)

/-- The exponent part of a numeral, introduced by `lower` or `upper` (`e`, `E`
for a decimal numeral, `p`, `P` for a hexadecimal one) with an optional sign
and decimal digits; 0 when it is absent or has no digit. -/
def takeExponent (lower upper : Char) : List Char → Int
  | c :: cs =>
    if c = lower ∨ c = upper then
      match cs with
      | '-' :: r => let d := takeDigits r 0 0; if d.2.1 = 0 then 0 else - (d.1 : Int)
      | '+' :: r => let d := takeDigits r 0 0; if d.2.1 = 0 then 0 else (d.1 : Int)
      | r => let d := takeDigits r 0 0; if d.2.1 = 0 then 0 else (d.1 : Int)
    else 0
  | [] => 0

/-- Whether the text starts with the given lower-case word, ignoring case. -/
def startsWithWord : List Char → List Char → Bool
  | [], _ => true
  | _ :: _, [] => false
  | w :: ws, c :: cs => c.toLower = w && startsWithWord ws cs

/-- A decimal numeral at the start of the text: digits with an optional
fraction and an optional exponent, as the value `a / b`; `none` when there is
no digit. -/
def decimalNumeral (cs : List Char) : Option (Nat × Nat) :=
  let ip := takeDigits cs 0 0
  let fp := match ip.2.2 with
    | '.' :: r => takeDigits r ip.1 0
    | r => (ip.1, 0, r)
  if ip.2.1 + fp.2.1 = 0 then none
  else
    let x : Int := takeExponent 'e' 'E' fp.2.2 - (fp.2.1 : Int)
    if 0 ≤ x then some (fp.1 * 10 ^ x.toNat, 1) else some (fp.1, 10 ^ (-x).toNat)

/-- The part of a hexadecimal numeral after `0x`: hexadecimal digits with an
optional fraction and an optional binary exponent, as the value `a / b`;
`none` when there is no digit. -/
def hexBody (cs : List Char) : Option (Nat × Nat) :=
  let ip := takeHexDigits cs 0 0
  let fp := match ip.2.2 with
    | '.' :: r => takeHexDigits r ip.1 0
    | r => (ip.1, 0, r)
  if ip.2.1 + fp.2.1 = 0 then none
  else some (shiftFraction fp.1 1 (4 * (fp.2.1 : Int) - takeExponent 'p' 'P' fp.2.2))

/-- A hexadecimal numeral at the start of the text: `0x` or `0X` and its body;
`none` when the form is not present. -/
def hexNumeral : List Char → Option (Nat × Nat)
  | c :: x :: cs => if c = '0' ∧ (x = 'x' ∨ x = 'X') then hexBody cs else none
  | _ => none

/-- The conversion of C `strtod` after the white space and the sign: `inf` or
`infinity`, `nan`, a hexadecimal numeral, a decimal numeral; 0 when none of
these forms is present. -/
def toFloatCore (neg : Prop) [Decidable neg] (cs : List Char) : ZValue :=
  if startsWithWord ['i', 'n', 'f'] cs then ZValue.infinity neg
  else if startsWithWord ['n', 'a', 'n'] cs then ⟨0, 0, .nan⟩
  else
    match hexNumeral cs with
    | some (a, b) => storeFloat neg a b
    | none =>
      match decimalNumeral cs with
      | some (a, b) => storeFloat neg a b
      | none => ⟨0, 0, .finite⟩

/-- The `String::toFloat` of Arduino, `float(atof(buffer))`: leading white
space, an optional sign, then the longest numeral of one of the forms of
`strtod`; the value is rounded to binary64 and then to binary32. -/
def toFloat (str : String) : ZValue :=
  let cs := str.data.dropWhile isspace
  toFloatCore (cs.head? = some '-')
    (if cs.head? = some '-' ∨ cs.head? = some '+' then cs.tail else cs)

/-! ### Decimal numerals as they are written

What a decimal numeral denotes, for the comparison of `toFloat` with the value
of the text it reads. -/

/-- A decimal numeral as it is written: an optional minus sign, the digits
before and after the decimal point, most significant first, and an optional
exponent with its sign and digits. -/
structure DecimalText where
  negative : Bool
  integerDigits : List (Fin 10)
  fractionDigits : List (Fin 10)
  exponentPart : Option (Bool × List (Fin 10))

/-- The characters of a digit sequence. -/
def digitChars (ds : List (Fin 10)) : List Char :=
  ds.map (fun d => Char.ofNat (48 + d.val))

/-- The number a digit sequence denotes in base ten. -/
def digitsValue (ds : List (Fin 10)) : Nat :=
  Nat.ofDigits 10 (ds.reverse.map (fun d => d.val))

namespace DecimalText

/-- There is at least one digit, and an exponent has at least one digit. -/
def wellFormed (t : DecimalText) : Bool :=
  !(t.integerDigits ++ t.fractionDigits).isEmpty &&
    (match t.exponentPart with
      | none => true
      | some (_, ds) => !ds.isEmpty)

/-- The exponent written, 0 when there is none. -/
def exponentValue (t : DecimalText) : Int :=
  match t.exponentPart with
  | none => 0
  | some (neg, ds) => if neg then - (digitsValue ds : Int) else (digitsValue ds : Int)

/-- The characters of the exponent part. -/
def exponentChars (t : DecimalText) : List Char :=
  match t.exponentPart with
  | none => []
  | some (neg, ds) => 'e' :: ((if neg then ['-'] else []) ++ digitChars ds)

/-- The characters after the sign. -/
def body (t : DecimalText) : List Char :=
  digitChars t.integerDigits ++
    ((if t.fractionDigits = [] then [] else '.' :: digitChars t.fractionDigits) ++
      t.exponentChars)

/-- The characters of the numeral. -/
def text (t : DecimalText) : List Char :=
  (if t.negative then ['-'] else []) ++ t.body

/-- The absolute value of the number the numeral denotes. -/
def magnitude (t : DecimalText) : ℚ :=
  (digitsValue (t.integerDigits ++ t.fractionDigits) : ℚ) *
    (10 : ℚ) ^ (t.exponentValue - (t.fractionDigits.length : Int))

/-- The number the numeral denotes. -/
def value (t : DecimalText) : ℚ :=
  (if t.negative then -1 else 1) * t.magnitude

end DecimalText

/-- The `String::indexOf(ch, fromIndex)` of Arduino, on the characters of the
string: index of the first occurrence at or after `start`, or -1. -/
def indexOf (cs : List Char) (ch : Char) (start : Nat) : Int :=
  match (cs.drop start).indexOf? ch with
  | some i => ((start + i : Nat) : Int)
  | none => -1

/-! ## Controller state -/

/-- The members of class `ElegooCC` the code of ElegooCC.cpp reads or writes,
followed by the state of its collaborators that the code observes or feeds. -/
structure ElegooCC where
  lastMovementValue : Int
  lastChangeTime : Nat
  mainboardID : String
  printStatus : sdcp_print_status_t
  machineStatusMask : Nat
  currentLayer : Int
  totalLayer : Int
  progress : Int
  currentTicks : Int
  totalTicks : Int
  PrintSpeedPct : Int
  filamentStopped : Bool
  filamentRunout : Bool
  lastPing : Nat
  waitingForAck : Bool
  pendingAckCommand : Int
  pendingAckRequestId : String
  ackWaitStartTime : Nat
  pauseCommandSent : Bool
  pauseCommandSentTime : Nat
  pauseRetryCount : Int
  testMovementStopActive : Bool
  testMovementStopStartTime : Nat
  /-- members the constructor does not assign (zero in the static instance) -/
  startedAt : Nat
  currentZ : ZValue
  ipAddress : String
  /-- the function-local `static unsigned long lastDebugTime` -/
  lastDebugTime : Nat
  /-- the value of `webSocket.isConnected()` -/
  webSocketConnected : Bool
  /-- the frames handed to `webSocket.sendTXT`, oldest first -/
  sent : List String
  /-- the global `pauseAttemptData`: `none` for a null pointer, otherwise the
  records passed to `addAttempt`, oldest first -/
  pauseAttemptData : Option (List PauseAttemptPoint)
  deriving DecidableEq, Repr

namespace ElegooCC

/-- The constructor `ElegooCC::ElegooCC()`, for a given telemetry sink. -/
def init (sink : Option (List PauseAttemptPoint)) : ElegooCC where
  lastMovementValue := -1
  lastChangeTime := 0
  mainboardID := ""
  printStatus := SDCP_PRINT_STATUS_IDLE
  machineStatusMask := 0
  currentLayer := 0
  totalLayer := 0
  progress := 0
  currentTicks := 0
  totalTicks := 0
  PrintSpeedPct := 0
  filamentStopped := false
  filamentRunout := false
  lastPing := 0
  waitingForAck := false
  pendingAckCommand := -1
  pendingAckRequestId := ""
  ackWaitStartTime := 0
  pauseCommandSent := false
  pauseCommandSentTime := 0
  pauseRetryCount := 0
  testMovementStopActive := false
  testMovementStopStartTime := 0
  startedAt := 0
  currentZ := ⟨0, 0, .finite⟩
  ipAddress := ""
  lastDebugTime := 0
  webSocketConnected := false
  sent := []
  pauseAttemptData := sink

/-- The call `pauseAttemptData->addAttempt(type, retryCount, printStatus)`
behind its null-pointer guard; the sink stamps the record with `getTime()`. -/
def addAttempt (env : Env) (type : PauseAttemptType) (retryCount : Int)
    (printStatus : sdcp_print_status_t) (s : ElegooCC) : ElegooCC :=
  let point : PauseAttemptPoint := ⟨env.getTime, type, retryCount, printStatus⟩
  { s with pauseAttemptData := s.pauseAttemptData.map (fun l => l ++ [point]) }

/-- The method `ElegooCC::resetPauseState`. -/
def resetPauseState (s : ElegooCC) : ElegooCC :=
  { s with pauseCommandSent := false, pauseCommandSentTime := 0, pauseRetryCount := 0 }

/-- The method `ElegooCC::isPauseInProgress`. -/
def isPauseInProgress (s : ElegooCC) : Bool := s.pauseCommandSent

/-- The method `ElegooCC::hasMachineStatus`. -/
def hasMachineStatus (s : ElegooCC) (status : Nat) : Bool :=
  (s.machineStatusMask &&& (1 <<< status)) != 0

/-- The method `ElegooCC::setMachineStatuses`. -/
def setMachineStatuses (statusArray : List Int) (s : ElegooCC) : ElegooCC :=
  let mask := statusArray.foldl
    (fun (mask : Nat) (v : Int) => if 0 ≤ v ∧ v ≤ 4 then mask ||| (1 <<< v.toNat) else mask) 0
  { s with machineStatusMask := mask }

/-- The method `ElegooCC::isPrinting`. -/
def isPrinting (s : ElegooCC) : Bool :=
  let isActivePrintStatus :=
    s.printStatus == SDCP_PRINT_STATUS_PRINTING ||
    s.printStatus == SDCP_PRINT_STATUS_HEATING ||
    s.printStatus == SDCP_PRINT_STATUS_BED_LEVELING ||
    s.printStatus == SDCP_PRINT_STATUS_HOMING
  isActivePrintStatus && hasMachineStatus s SDCP_MACHINE_STATUS_PRINTING

/-- The request identifier: the generated text with every dash removed. -/
def requestId (uuid : String) : String := String.mk (uuid.data.filter (fun c => c != '-'))

/-- The text frame `sendCommand` builds. -/
def jsonPayload (uuidStr : String) (command : Int) (mainboardID : String) (timestamp : Nat) :
    String :=
  "\x7b" ++ ("\"Id\":\"" ++ uuidStr ++ "\",") ++ "\"Data\":\x7b" ++
    ("\"Cmd\":" ++ toString command ++ ",") ++ "\"Data\":\x7b\x7d," ++
    ("\"RequestID\":\"" ++ uuidStr ++ "\",") ++
    ("\"MainboardID\":\"" ++ mainboardID ++ "\",") ++
    ("\"TimeStamp\":" ++ toString timestamp ++ ",") ++ "\"From\":2" ++ "\x7d" ++ "\x7d"

/-- The method `ElegooCC::sendCommand`. -/
def sendCommand (env : Env) (command : Int) (waitForAck : Bool) (s : ElegooCC) : ElegooCC :=
  if !s.webSocketConnected then s
  else if waitForAck && s.waitingForAck then s
  else
    let uuidStr := requestId env.uuid
    let payload := jsonPayload uuidStr command s.mainboardID env.getTime
    let s1 :=
      if waitForAck then
        { s with waitingForAck := true, pendingAckCommand := command,
                 pendingAckRequestId := uuidStr, ackWaitStartTime := env.millisAtAck }
      else s
    { s1 with sent := s1.sent ++ [payload] }

/-- The method `ElegooCC::pausePrint`. -/
def pausePrint (env : Env) (s : ElegooCC) : ElegooCC :=
  if s.printStatus == SDCP_PRINT_STATUS_PAUSED ||
     s.printStatus == SDCP_PRINT_STATUS_PAUSING ||
     s.printStatus == SDCP_PRINT_STATUS_IDLE then
    addAttempt env PAUSE_ATTEMPT_ALREADY_PAUSED 0 s.printStatus s
  else
    let s1 := { s with pauseRetryCount := 0 }
    let s2 := addAttempt env PAUSE_ATTEMPT_INITIAL s1.pauseRetryCount s1.printStatus s1
    let s3 := sendCommand env SDCP_COMMAND_PAUSE_PRINT true s2
    { s3 with pauseCommandSent := true, pauseCommandSentTime := env.millisAtPause }

/-- The method `ElegooCC::continuePrint`. -/
def continuePrint (env : Env) (s : ElegooCC) : ElegooCC :=
  sendCommand env SDCP_COMMAND_CONTINUE_PRINT true s

/-- The method `ElegooCC::triggerTestMovementStop`. -/
def triggerTestMovementStop (env : Env) (s : ElegooCC) : ElegooCC :=
  { s with testMovementStopActive := true, testMovementStopStartTime := env.millis }

/-- The method `ElegooCC::handleCommandResponse`, on the `Data` object. -/
def handleCommandResponse (data : DataObj) (s : ElegooCC) : ElegooCC :=
  match data.Cmd, data.RequestID with
  | some cmd, some reqId =>
    let s1 :=
      if s.waitingForAck && cmd == s.pendingAckCommand && reqId == s.pendingAckRequestId then
        { s with waitingForAck := false, pendingAckCommand := -1,
                 pendingAckRequestId := "", ackWaitStartTime := 0 }
      else s
    if s1.mainboardID.isEmpty && !data.MainboardID.isEmpty then
      { s1 with mainboardID := data.MainboardID }
    else s1
  | _, _ => s

/-- The `CurrenCoord` block of `handleStatus`: the text after the second comma,
converted with `toFloat`; unchanged when there are fewer than two commas. -/
def parseCurrentZ (coordsStr : String) (s : ElegooCC) : ElegooCC :=
  let firstComma := indexOf coordsStr.data ',' 0
  let secondComma := indexOf coordsStr.data ',' (firstComma + 1).toNat
  if firstComma != -1 && secondComma != -1 then
    { s with currentZ := toFloat (String.mk (coordsStr.data.drop (secondComma + 1).toNat)) }
  else s

/-- The `PrintInfo` block of `handleStatus`. -/
def handlePrintInfo (env : Env) (printInfo : PrintInfoObj) (s : ElegooCC) : ElegooCC :=
  let newStatus := printInfo.Status.getD SDCP_PRINT_STATUS_IDLE
  let s1 :=
    if newStatus != s.printStatus then
      if newStatus == SDCP_PRINT_STATUS_PRINTING then
        resetPauseState { s with startedAt := env.millis }
      else if newStatus == SDCP_PRINT_STATUS_PAUSED then
        resetPauseState s
      else s
    else s
  { s1 with printStatus := newStatus,
            currentLayer := printInfo.CurrentLayer.getD 0,
            totalLayer := printInfo.TotalLayer.getD 0,
            progress := printInfo.Progress.getD 0,
            currentTicks := printInfo.CurrentTicks.getD 0,
            totalTicks := printInfo.TotalTicks.getD 0,
            PrintSpeedPct := printInfo.PrintSpeedPct.getD 0 }

/-- The method `ElegooCC::handleStatus`, on the `Status` object and the
top-level `MainboardID`. -/
def handleStatus (env : Env) (status : StatusObj) (mainboardId : String) (s : ElegooCC) :
    ElegooCC :=
  let s1 := match status.CurrentStatus with
    | some currentStatus => setMachineStatuses (currentStatus.take 5) s
    | none => s
  let s2 := match status.CurrenCoord with
    | some coordsStr => parseCurrentZ coordsStr s1
    | none => s1
  let s3 := match status.PrintInfo with
    | some printInfo => handlePrintInfo env printInfo s2
    | none => s2
  if s3.mainboardID.isEmpty && !mainboardId.isEmpty then
    { s3 with mainboardID := mainboardId }
  else s3

/-- The method `ElegooCC::webSocketEvent`; `payload` is the outcome of
`deserializeJson` on a text frame (`none` for a parse error). -/
def webSocketEvent (env : Env) (type : WStype_t) (payload : Option JsonDocument)
    (s : ElegooCC) : ElegooCC :=
  match type with
  | WStype_DISCONNECTED =>
    resetPauseState
      { s with waitingForAck := false, pendingAckCommand := -1,
               pendingAckRequestId := "", ackWaitStartTime := 0 }
  | WStype_CONNECTED => sendCommand env SDCP_COMMAND_STATUS false s
  | WStype_TEXT =>
    match payload with
    | none => s
    | some doc =>
      match doc.Id, doc.Data, doc.Status with
      | some _, some data, _ => handleCommandResponse data s
      | _, _, some status => handleStatus env status doc.MainboardID s
      | _, _, _ => s
  | _ => s

/-- Delivery of an event by the websocket library: it updates its connection
status first and then invokes the callback. -/
def transportEvent (env : Env) (type : WStype_t) (payload : Option JsonDocument)
    (s : ElegooCC) : ElegooCC :=
  webSocketEvent env type payload
    { s with webSocketConnected :=
        match type with
        | WStype_CONNECTED => true
        | WStype_DISCONNECTED => false
        | _ => s.webSocketConnected }

/-- The method `ElegooCC::connect`: `webSocket.disconnect()` on a live session
delivers the disconnect event; `webSocket.begin` only starts a connection
attempt, whose outcome arrives later as an event. -/
def connect (env : Env) (s : ElegooCC) : ElegooCC :=
  let s1 := if s.webSocketConnected then transportEvent env WStype_DISCONNECTED none s else s
  { s1 with ipAddress := env.settings.elegooip }

/-- The method `ElegooCC::setup`. -/
def setup (env : Env) (s : ElegooCC) : ElegooCC :=
  let shouldConect := !env.settings.ap_mode
  if shouldConect then connect env s else s

/-- The method `ElegooCC::checkFilamentRunout`. -/
def checkFilamentRunout (env : Env) (_currentTime : Nat) (s : ElegooCC) : ElegooCC :=
  { s with filamentRunout := env.runoutPin == 0 }

/-- The method `ElegooCC::checkFilamentMovement`. -/
def checkFilamentMovement (env : Env) (currentTime : Nat) (s : ElegooCC) : ElegooCC :=
  if s.testMovementStopActive && !(usub currentTime s.testMovementStopStartTime ≥ 600000) then
    if !s.filamentStopped then { s with filamentStopped := true } else s
  else
    let s1 := if s.testMovementStopActive then { s with testMovementStopActive := false } else s
    let currentMovementValue := env.movementPin
    let movementTimeout :=
      if s1.currentZ.belowTenth then env.settings.first_layer_timeout else env.settings.timeout
    let s2 :=
      if usub currentTime s1.lastDebugTime ≥ toULong movementTimeout then
        { s1 with lastDebugTime := currentTime }
      else s1
    if currentMovementValue != s2.lastMovementValue then
      { s2 with lastMovementValue := currentMovementValue, lastChangeTime := currentTime,
                filamentStopped := false }
    else if usub currentTime s2.lastChangeTime ≥ toULong movementTimeout
            && !s2.filamentStopped then
      { s2 with filamentStopped := true }
    else s2

/-- The method `ElegooCC::checkPauseVerification`.  The increment cannot
overflow: the counter is below an `int`. -/
def checkPauseVerification (env : Env) (currentTime : Nat) (s : ElegooCC) : ElegooCC :=
  if !s.pauseCommandSent then s
  else if s.printStatus == SDCP_PRINT_STATUS_PAUSED ||
          s.printStatus == SDCP_PRINT_STATUS_PAUSING ||
          s.printStatus == SDCP_PRINT_STATUS_IDLE then
    resetPauseState (addAttempt env PAUSE_ATTEMPT_SUCCESS s.pauseRetryCount s.printStatus s)
  else if usub currentTime s.pauseCommandSentTime
            ≥ toULong env.settings.pause_verification_timeout_ms then
    if s.pauseRetryCount < env.settings.max_pause_retries then
      let s1 := { s with pauseRetryCount := s.pauseRetryCount + 1 }
      let s2 := addAttempt env PAUSE_ATTEMPT_RETRY s1.pauseRetryCount s1.printStatus s1
      { s2 with pauseCommandSent := false }
    else
      resetPauseState
        (addAttempt env PAUSE_ATTEMPT_MAX_EXCEEDED s.pauseRetryCount s.printStatus s)
  else s

/-- The method `ElegooCC::shouldPausePrint`. -/
def shouldPausePrint (env : Env) (currentTime : Nat) (s : ElegooCC) : Bool :=
  if !env.settings.enabled then false
  else if s.filamentRunout && !env.settings.pause_on_runout then false
  else
    let pauseCondition := s.filamentRunout || s.filamentStopped
    let startTimeoutMet :=
      decide (usub currentTime s.startedAt ≥ toULong env.settings.start_print_timeout)
    let websocketConnected := s.webSocketConnected
    let notWaitingForAck := !s.waitingForAck
    let printerIsPrinting := isPrinting s
    let enoughTicksRemaining := decide (wrapInt (s.totalTicks - s.currentTicks) ≥ 100)
    let pauseConditionMet := pauseCondition
    let notInPauseProgress := !isPauseInProgress s
    if !startTimeoutMet || !websocketConnected || !notWaitingForAck || !printerIsPrinting ||
       !enoughTicksRemaining || !pauseConditionMet || !notInPauseProgress then false
    else true

/-- The acknowledgment-timeout and keepalive block of `loop`. -/
def ackTimeoutAndPing (currentTime : Nat) (s : ElegooCC) : ElegooCC :=
  if s.webSocketConnected then
    if s.waitingForAck && decide (usub currentTime s.ackWaitStartTime ≥ ACK_TIMEOUT_MS) then
      { s with waitingForAck := false, pendingAckCommand := -1,
               pendingAckRequestId := "", ackWaitStartTime := 0 }
    else if usub currentTime s.lastPing > 29900 then
      { s with sent := s.sent ++ ["ping"], lastPing := currentTime }
    else s
  else s

/-- The state of `loop` after its sensor checks: after the reconnect check,
the ack-timeout and keepalive block, `checkFilamentMovement` and
`checkFilamentRunout`. -/
def afterSensorChecks (env : Env) (s : ElegooCC) : ElegooCC :=
  let currentTime := env.millis
  let s1 := if s.ipAddress != env.settings.elegooip then connect env s else s
  let s2 := ackTimeoutAndPing currentTime s1
  let s3 := checkFilamentMovement env currentTime s2
  checkFilamentRunout env currentTime s3

/-- The state of `loop` at the point where it decides whether to pause: after
the sensor checks and `checkPauseVerification`. -/
def beforePauseDecision (env : Env) (s : ElegooCC) : ElegooCC :=
  checkPauseVerification env env.millis (afterSensorChecks env s)

/-- The local `pauseCondition` of `loop`. -/
def pauseCondition (env : Env) (s : ElegooCC) : Bool :=
  (s.filamentRunout && env.settings.pause_on_runout) || s.filamentStopped

/-- The method `ElegooCC::loop`, up to the call of the transport pump. -/
def loop (env : Env) (s : ElegooCC) : ElegooCC :=
  let s5 := beforePauseDecision env s
  if pauseCondition env s5 && shouldPausePrint env env.millis s5 then pausePrint env s5
  else s5

end ElegooCC

/-! ## Runs of the controller -/

/-- One call into the controller, with what it reads from outside. -/
inductive Step
  | setup (env : Env)
  | tick (env : Env)
  | event (env : Env) (type : WStype_t) (payload : Option JsonDocument)
  | pausePrint (env : Env)
  | continuePrint (env : Env)
  | triggerTestMovementStop (env : Env)
  deriving DecidableEq, Repr

/-- The environment a call reads. -/
def Step.env : Step → Env
  | .setup env => env
  | .tick env => env
  | .event env _ _ => env
  | .pausePrint env => env
  | .continuePrint env => env
  | .triggerTestMovementStop env => env

/-- The effect of one call on the state. -/
def Step.apply : Step → ElegooCC → ElegooCC
  | .setup env, s => ElegooCC.setup env s
  | .tick env, s => ElegooCC.loop env s
  | .event env type payload, s => ElegooCC.transportEvent env type payload s
  | .pausePrint env, s => ElegooCC.pausePrint env s
  | .continuePrint env, s => ElegooCC.continuePrint env s
  | .triggerTestMovementStop env, s => ElegooCC.triggerTestMovementStop env s

/-- The state after a sequence of calls, the first of the list first. -/
def run (steps : List Step) (s : ElegooCC) : ElegooCC :=
  steps.foldl (fun st step => step.apply st) s

/-- The kinds and retry counts of the records in the sink, oldest first. -/
def attemptKinds (s : ElegooCC) : List (PauseAttemptType × Int) :=
  (s.pauseAttemptData.getD []).map (fun p => (p.type, p.retryCount))

/-! ## Scenarios -/

/-- The default settings of `SettingsManager::SettingsManager`, with a given
retry budget and runout toggle. -/
def settingsWith (maxRetries : Int) (pauseOnRunout : Bool) : user_settings where
  ssid := "lee"
  passwd := "qqqqqqqq"
  ap_mode := false
  elegooip := "192.168.0.107"
  timeout := 20000
  first_layer_timeout := 8000
  pause_on_runout := pauseOnRunout
  start_print_timeout := 10000
  enabled := true
  has_connected := false
  pause_verification_timeout_ms := 15000
  max_pause_retries := maxRetries

/-- An environment at time `t` ms with the given settings and runout pin; the
movement pin reads 1 throughout. -/
def envWith (settings : user_settings) (runoutPin : Int) (t : Nat) : Env where
  settings := settings
  millis := t
  millisAtAck := t
  millisAtPause := t
  getTime := 1700000000 + t / 1000
  uuid := "0f8fad5b-d9cb-469f-a165-70867728950e"
  movementPin := 1
  runoutPin := runoutPin

/-- An environment at time `t` ms: default settings with the given retry
budget, filament present (runout pin high). -/
def envAt (maxRetries : Int) (t : Nat) : Env := envWith (settingsWith maxRetries true) 1 t

/-- A status frame reporting the given print status, machine status "printing",
nozzle at z = 1.2 and 99500 ticks remaining. -/
def statusFrame (status : sdcp_print_status_t) : JsonDocument where
  Id := none
  Data := none
  Status := some
    { CurrentStatus := some [1]
      CurrenCoord := some "10.00,20.00,1.20"
      PrintInfo := some
        { Status := some status
          CurrentLayer := some 6
          TotalLayer := some 100
          Progress := some 5
          CurrentTicks := some 500
          TotalTicks := some 100000
          PrintSpeedPct := some 100 } }
  MainboardID := "ABCD1234"

/-- A print is started: setup, connection, a status frame "printing" at 1 s and
a tick at 2 s that sees the movement pin for the first time. -/
def printStarted (env : Nat → Env) : List Step :=
  [ .setup (env 0),
    .event (env 500) WStype_CONNECTED none,
    .event (env 1000) WStype_TEXT (some (statusFrame SDCP_PRINT_STATUS_PRINTING)),
    .tick (env 2000) ]

/-- The state 2 s into a print, default settings with the given retry budget. -/
def printingState (maxRetries : Int) : ElegooCC :=
  run (printStarted (envAt maxRetries)) (ElegooCC.init (some []))

/-- The state after the tick at 30 s (28 s without movement, timeout 20 s),
which dispatches the pause. -/
def pauseDispatched (maxRetries : Int) : ElegooCC :=
  ElegooCC.loop (envAt maxRetries 30000) (printingState maxRetries)

/-- Ticks every few seconds after the dispatch at 30 s, with no event in
between: each pending ack times out (5 s) before the verification timeout
(15 s) elapses. -/
def stillPrinting (maxRetries : Int) : List Step :=
  [ .tick (envAt maxRetries 36000),
    .tick (envAt maxRetries 46000),
    .tick (envAt maxRetries 52000),
    .tick (envAt maxRetries 62000),
    .tick (envAt maxRetries 68000),
    .tick (envAt maxRetries 78000) ]

/-- The state 2 s into a print with pause-on-runout disabled and the runout
switch reporting no filament. -/
def runoutIgnoredState : ElegooCC :=
  run (printStarted (envWith (settingsWith 5 false) 0)) (ElegooCC.init (some []))

/-- Pause-on-runout disabled, filament present: the state after the tick at
30 s of a stalled print, which dispatches the pause. -/
def stallDispatched : ElegooCC :=
  ElegooCC.loop (envWith (settingsWith 5 false) 1 30000)
    (run (printStarted (envWith (settingsWith 5 false) 1)) (ElegooCC.init (some [])))

/-- The tick at 46 s: pause-on-runout disabled, the runout switch now reports
no filament and the movement pin has changed. -/
def envRunoutAfterStall : Env :=
  { envWith (settingsWith 5 false) 0 46000 with movementPin := 0 }

/-- Budget 0: the state after the tick at 46 s, the first verification timeout
after the dispatch at 30 s. -/
def exhaustedState : ElegooCC :=
  run [.tick (envAt 0 36000), .tick (envAt 0 46000)] (pauseDispatched 0)

/-- Budget 0: the state before the tick at 46 s. -/
def aboutToExhaust : ElegooCC := ElegooCC.loop (envAt 0 36000) (pauseDispatched 0)

/-! ## Auxiliary predicates on the pause state -/

/-- Between `s` and `t` no attempt was recorded and the pause-verification
state was either kept or reset. -/
def ElegooCC.pauseKeptOrReset (s t : ElegooCC) : Prop :=
  t.pauseAttemptData = s.pauseAttemptData ∧
  ((t.pauseCommandSent = s.pauseCommandSent ∧ t.pauseRetryCount = s.pauseRetryCount) ∨
    (t.pauseCommandSent = false ∧ t.pauseRetryCount = 0))

/-- While a pause is in verification the retry counter is 0, and the sink
holds no max-exceeded record and no retry count above 1. -/
def ElegooCC.retryNeverAdvances (s : ElegooCC) : Prop :=
  (s.pauseCommandSent = true → s.pauseRetryCount = 0) ∧
  ∀ p ∈ s.pauseAttemptData.getD [],
    p.type ≠ PAUSE_ATTEMPT_MAX_EXCEEDED ∧ p.retryCount ≤ 1

/-! ## More scenarios -/

/-- An idle, connected controller that sent `continue-print` at 1 s and is still
waiting for its ack. -/
def awaitingContinueAck : ElegooCC :=
  run [ .setup (envAt 5 0),
        .event (envAt 5 500) WStype_CONNECTED none,
        .continuePrint (envAt 5 1000) ] (ElegooCC.init (some []))

/-- An ack document for the given command and request identifier. -/
def ackData (cmd : Int) (requestId : String) : DataObj where
  Cmd := some cmd
  RequestID := some requestId
  MainboardID := "ABCD1234"

/-! ## The movement monitor over a sequence of ticks -/

/-- Consecutive calls of `checkFilamentMovement`, one per tick, each at the
tick's clock reading. -/
def runMovement (ticks : List Env) (s : ElegooCC) : ElegooCC :=
  ticks.foldl (fun st e => ElegooCC.checkFilamentMovement e e.millis st) s

/-- Written from the spec, not from the code: the time of the most recent tick
on which the reading differed from the previously observed value. `prev` is
the value observed before the first tick of the list and `t0` the time to
report when no reading of the list differs. -/
def specLastChangeTime : List Env → Int → Nat → Nat
  | [], _, t0 => t0
  | e :: rest, prev, t0 =>
    specLastChangeTime rest e.movementPin (if e.movementPin ≠ prev then e.millis else t0)

/-- The reading of the last tick of the list, `prev` for the empty list. -/
def lastReading : List Env → Int → Int
  | [], prev => prev
  | e :: rest, _ => lastReading rest e.movementPin

/-- The clock reading of the last tick of the list, `t0` for the empty list. -/
def lastMillis : List Env → Nat → Nat
  | [], t0 => t0
  | e :: rest, _ => lastMillis rest e.millis

/-- Steady ticks for the movement monitor: the movement pin keeps reading 1,
one tick every 5 s from 5 s to 25 s. -/
def steadyTicks : List Env :=
  [envAt 5 5000, envAt 5 10000, envAt 5 15000, envAt 5 20000, envAt 5 25000]

/-! ## Parts of the source functions, named for the statements -/

/-- The state `handleStatus` hands to its `PrintInfo` block: the state after
the `CurrentStatus` and `CurrenCoord` blocks. -/
def ElegooCC.beforePrintInfo (status : StatusObj) (s : ElegooCC) : ElegooCC :=
  let s1 := match status.CurrentStatus with
    | some currentStatus => ElegooCC.setMachineStatuses (currentStatus.take 5) s
    | none => s
  match status.CurrenCoord with
  | some coordsStr => ElegooCC.parseCurrentZ coordsStr s1
  | none => s1

/-- The local `movementTimeout` of `checkFilamentMovement`: the first-layer
timeout when `currentZ < 0.1`, the standard timeout otherwise. -/
def ElegooCC.movementTimeout (env : Env) (s : ElegooCC) : Int :=
  if s.currentZ.belowTenth then env.settings.first_layer_timeout else env.settings.timeout

/-- The log line `checkFilamentRunout` emits, if any: the call logs when the
new reading differs from the stored flag, and picks the message by the flag
as it is stored at that moment, before the assignment. -/
def ElegooCC.checkFilamentRunoutLog (env : Env) (s : ElegooCC) : Option String :=
  let newFilamentRunout := env.runoutPin == 0
  if newFilamentRunout != s.filamentRunout then
    some (if s.filamentRunout then "Filament has run out" else "Filament has been detected")
  else none

/-- The state 2 s into a print with the diagnostic override triggered at 3 s. -/
def overrideActive : ElegooCC :=
  ElegooCC.triggerTestMovementStop (envAt 5 3000) (printingState 5)

/-- A status frame that has a `PrintInfo` object with only `Status` in it. -/
def bareStatusFrame (status : sdcp_print_status_t) : StatusObj where
  CurrentStatus := none
  CurrenCoord := none
  PrintInfo := some
    { Status := some status
      CurrentLayer := none
      TotalLayer := none
      Progress := none
      CurrentTicks := none
      TotalTicks := none
      PrintSpeedPct := none }

/-- An environment at time `t` ms, default settings, in which the movement pin
reads 0 (the steady reading of the scenarios is 1). -/
def envPinLow (t : Nat) : Env := { envAt 5 t with movementPin := 0 }

/-- An environment at time `t` ms whose standard movement timeout has been
raised to 60 s; the movement pin keeps reading 1. -/
def envSlowTimeout (t : Nat) : Env :=
  envWith { settingsWith 5 true with timeout := 60000 } 1 t

/-- The movement monitor at 30 s into the scenario print: 28 s without a change
of the reading, standard timeout 20 s, so the stopped flag is set. -/
def stalledState : ElegooCC :=
  ElegooCC.checkFilamentMovement (envAt 5 30000) 30000 (printingState 5)

/-- A pause in verification (dispatched at 30 s) for which the printer reports
"pausing" at 33 s. -/
def pausingReported : ElegooCC :=
  ElegooCC.transportEvent (envAt 5 33000) WStype_TEXT
    (some (statusFrame SDCP_PRINT_STATUS_PAUSING)) (pauseDispatched 5)

/-- A text frame that is neither an ack nor a status frame: it has `Id` but no
`Data` and no `Status`. -/
def strayFrame : JsonDocument where
  Id := some "0f8fad5bd9cb469fa16570867728950e"
  Data := none
  Status := none
  MainboardID := "ZZZZ"

/-! ## Settings document (SettingsManager.cpp) -/

/-- A value assigned to a member of a JSON document. -/
inductive JsonValue
  | bool (b : Bool)
  | int (i : Int)
  | str (s : String)
  deriving DecidableEq, Repr

/-- The method `SettingsManager::toJson`: the members of the document it hands
to `serializeJson`, in the order of assignment. -/
def SettingsManager.toJson (settings : user_settings) (includePassword : Bool) :
    List (String × JsonValue) :=
  let doc : List (String × JsonValue) :=
    [ ("ap_mode", .bool settings.ap_mode),
      ("ssid", .str settings.ssid),
      ("elegooip", .str settings.elegooip),
      ("timeout", .int settings.timeout),
      ("first_layer_timeout", .int settings.first_layer_timeout),
      ("pause_on_runout", .bool settings.pause_on_runout),
      ("start_print_timeout", .int settings.start_print_timeout),
      ("enabled", .bool settings.enabled),
      ("has_connected", .bool settings.has_connected),
      ("pause_verification_timeout_ms", .int settings.pause_verification_timeout_ms),
      ("max_pause_retries", .int settings.max_pause_retries) ]
  if includePassword then doc ++ [("passwd", .str settings.passwd)] else doc

/-! ## Pause-attempt telemetry buffer (PauseAttemptData.h, PauseAttemptData.cpp)

`size_t` is 32 bits wide on the target.  The buffer is the array of
`MAX_POINTS_PER_SERIES` cells allocated by the constructor; the file the
destructor writes is not modelled, its size is an input of `addAttempt`. -/

/-- The members of class `PauseAttemptData`. -/
structure PauseAttemptData where
  dataBuffer : List PauseAttemptPoint
  currentIndex : Nat
  totalPoints : Nat
  isCircularBuffer : Bool
  deriving DecidableEq, Repr

namespace PauseAttemptData

/-- The constant `MAX_DATA_SIZE` (50 KB). -/
def MAX_DATA_SIZE : Nat := 50 * 1024

/-- The constant `MAX_POINTS_PER_SERIES`. -/
def MAX_POINTS_PER_SERIES : Nat := 500

/-- What a read outside the array yields in the model (undefined in C++). -/
def outside : PauseAttemptPoint := ⟨0, PAUSE_ATTEMPT_INITIAL, 0, SDCP_PRINT_STATUS_IDLE⟩

/-- The constructor when no file is loaded: `cells` is the content of the
freshly allocated array. -/
def init (cells : List PauseAttemptPoint) : PauseAttemptData where
  dataBuffer := cells
  currentIndex := 0
  totalPoints := 0
  isCircularBuffer := false

/-- The method `PauseAttemptData::rotateData`; the copy loop works in place. -/
def rotateData (d : PauseAttemptData) : PauseAttemptData :=
  let pointsToRemove := if d.totalPoints / 4 = 0 then 1 else d.totalPoints / 4
  let buf := (List.range (usub d.totalPoints pointsToRemove)).foldl
    (fun (b : List PauseAttemptPoint) (i : Nat) =>
      let sourceIndex :=
        if d.isCircularBuffer then (d.currentIndex + pointsToRemove + i) % MAX_POINTS_PER_SERIES
        else pointsToRemove + i
      b.set i (b.getD sourceIndex outside))
    d.dataBuffer
  { dataBuffer := buf
    totalPoints := usub d.totalPoints pointsToRemove
    currentIndex := usub d.totalPoints pointsToRemove
    isCircularBuffer := false }

/-- The method `PauseAttemptData::addAttempt` with an explicit timestamp;
`dataSize` is what `getDataSize()` returns (the size of the file). -/
def addAttempt (point : PauseAttemptPoint) (dataSize : Nat) (d : PauseAttemptData) :
    PauseAttemptData :=
  let d1 := { d with dataBuffer := d.dataBuffer.set d.currentIndex point }
  let d2 := { d1 with currentIndex := (d1.currentIndex + 1) % MAX_POINTS_PER_SERIES }
  let d3 :=
    if !d2.isCircularBuffer then
      let d2a := { d2 with totalPoints := d2.totalPoints + 1 }
      if d2a.totalPoints ≥ MAX_POINTS_PER_SERIES then
        { d2a with isCircularBuffer := true, totalPoints := MAX_POINTS_PER_SERIES }
      else d2a
    else d2
  if dataSize > MAX_DATA_SIZE then rotateData d3 else d3

/-- The method `PauseAttemptData::getDataAsJSON`: the points of the `data`
array, in order. -/
def getDataAsJSON (maxPoints : Nat) (d : PauseAttemptData) : List PauseAttemptPoint :=
  let pointsToReturn := min maxPoints d.totalPoints
  let startIndex :=
    if d.isCircularBuffer then
      usub (d.currentIndex + MAX_POINTS_PER_SERIES) pointsToReturn % MAX_POINTS_PER_SERIES
    else if d.totalPoints > pointsToReturn then d.totalPoints - pointsToReturn else 0
  (List.range pointsToReturn).map (fun i =>
    let index :=
      if d.isCircularBuffer then (startIndex + i) % MAX_POINTS_PER_SERIES else startIndex + i
    d.dataBuffer.getD index outside)

/-- The method `PauseAttemptData::getPointCount`. -/
def getPointCount (d : PauseAttemptData) : Nat := d.totalPoints

/-- Consecutive calls of `addAttempt`, each given as the record and the file
size the call finds. -/
def addAll (calls : List (PauseAttemptPoint × Nat)) (d : PauseAttemptData) :
    PauseAttemptData :=
  calls.foldl (fun st c => addAttempt c.1 c.2 st) d

end PauseAttemptData

/-- The record number `i` of the scenarios: timestamp `i`, an initial attempt
during a print. -/
def numbered (i : Nat) : PauseAttemptPoint :=
  ⟨i, PAUSE_ATTEMPT_INITIAL, 0, SDCP_PRINT_STATUS_PRINTING⟩

/-- The struct `DataPoint`; `value` is a C `float`. -/
structure DataPoint where
  timestamp : Nat
  value : ZValue
  deriving DecidableEq, Repr

/-- The document `writeDataToFile` stores and `loadDataFromFile` reads. -/
structure TimeSeriesFile where
  circular : Bool
  currentIndex : Nat
  totalPoints : Nat
  data : List DataPoint
  deriving DecidableEq, Repr

/-- The members of class `TimeSeriesData`, and the content of its file (`none`
when the file does not exist). -/
structure TimeSeriesData where
  dataBuffer : List DataPoint
  currentIndex : Nat
  totalPoints : Nat
  isCircularBuffer : Bool
  file : Option TimeSeriesFile
  deriving DecidableEq, Repr

namespace TimeSeriesData

/-- The constant `MAX_POINTS_PER_SERIES`. -/
def MAX_POINTS_PER_SERIES : Nat := 1000

/-- What a read outside the array yields in the model (undefined in C++). -/
def outside : DataPoint := ⟨0, ⟨0, 0, .finite⟩⟩

/-- The method `TimeSeriesData::writeDataToFile`. -/
def writeDataToFile (d : TimeSeriesData) : TimeSeriesData :=
  let dataArray :=
    if d.isCircularBuffer then
      (List.range' d.currentIndex (MAX_POINTS_PER_SERIES - d.currentIndex)).map
          (fun i => d.dataBuffer.getD i outside) ++
        (List.range d.currentIndex).map (fun i => d.dataBuffer.getD i outside)
    else
      (List.range d.currentIndex).map (fun i => d.dataBuffer.getD i outside)
  let doc : TimeSeriesFile :=
    { circular := d.isCircularBuffer
      currentIndex := d.currentIndex
      totalPoints := d.totalPoints
      data := dataArray }
  { d with file := some doc }

/-- The copy loop of `loadDataFromFile`: the points of the array go to the
cells `arrayIndex`, `arrayIndex + 1`, ... until the array or the buffer ends. -/
def loadCells : List DataPoint → Nat → List DataPoint → List DataPoint
  | [], _, buf => buf
  | point :: rest, arrayIndex, buf =>
    if arrayIndex ≥ MAX_POINTS_PER_SERIES then buf
    else loadCells rest (arrayIndex + 1) (buf.set arrayIndex point)

/-- The method `TimeSeriesData::loadDataFromFile`. -/
def loadDataFromFile (d : TimeSeriesData) : TimeSeriesData :=
  match d.file with
  | none => d
  | some doc =>
    { d with
      isCircularBuffer := doc.circular
      currentIndex := doc.currentIndex
      totalPoints := doc.totalPoints
      dataBuffer := loadCells doc.data 0 d.dataBuffer }

/-- The constructor: `cells` is the content of the freshly allocated array and
`file` the content of the file system. -/
def init (cells : List DataPoint) (file : Option TimeSeriesFile) : TimeSeriesData :=
  loadDataFromFile
    { dataBuffer := cells
      currentIndex := 0
      totalPoints := 0
      isCircularBuffer := false
      file := file }

/-- The method `TimeSeriesData::addDataPoint` with an explicit timestamp. -/
def addDataPoint (timestamp : Nat) (value : ZValue) (d : TimeSeriesData) : TimeSeriesData :=
  let d1 := { d with dataBuffer := d.dataBuffer.set d.currentIndex ⟨timestamp, value⟩ }
  let d2 :=
    if !d1.isCircularBuffer then
      let d1a := { d1 with totalPoints := d1.totalPoints + 1, currentIndex := d1.currentIndex + 1 }
      if d1a.currentIndex ≥ MAX_POINTS_PER_SERIES then
        { d1a with isCircularBuffer := true, currentIndex := 0,
                   totalPoints := MAX_POINTS_PER_SERIES }
      else d1a
    else { d1 with currentIndex := (d1.currentIndex + 1) % MAX_POINTS_PER_SERIES }
  if d2.totalPoints % 10 == 0 then writeDataToFile d2 else d2

/-- The cells `getDataAsJSON` reads, in order; `none` when the call divides by
zero (`totalPoints / pointsToReturn` with `pointsToReturn` 0), which is
undefined behaviour. -/
def readIndices (maxPoints : Nat) (d : TimeSeriesData) : Option (List Nat) :=
  let pointsToReturn := if d.totalPoints < maxPoints then d.totalPoints else maxPoints
  if pointsToReturn = 0 then none
  else
    let step :=
      if d.totalPoints / pointsToReturn > 1 then d.totalPoints / pointsToReturn else 1
    if d.isCircularBuffer then
      let startIndex :=
        usub (d.currentIndex + MAX_POINTS_PER_SERIES) (pointsToReturn * step)
          % MAX_POINTS_PER_SERIES
      some ((List.range pointsToReturn).map
        (fun i => (startIndex + i * step) % WORD % MAX_POINTS_PER_SERIES))
    else
      let startIndex :=
        if wrapInt (usub d.currentIndex (pointsToReturn * step) : Nat) > 0
        then usub d.currentIndex (pointsToReturn * step) else 0
      some (((List.range pointsToReturn).takeWhile
        (fun i => decide ((startIndex + i * step) % WORD < d.currentIndex))).map
        (fun i => (startIndex + i * step) % WORD))

/-- The method `TimeSeriesData::getDataAsJSON`: the points of the `data`
array, in order. -/
def getDataAsJSON (maxPoints : Nat) (d : TimeSeriesData) : Option (List DataPoint) :=
  (readIndices maxPoints d).map (fun l => l.map (fun i => d.dataBuffer.getD i outside))

/-- The method `TimeSeriesData::getRecentData`; `now` is the value of
`getTime()`. -/
def getRecentData (now : Nat) (minutes : Nat) (d : TimeSeriesData) : List DataPoint :=
  let cutoffTime := usub now (minutes * 60)
  if d.isCircularBuffer then
    ((List.range MAX_POINTS_PER_SERIES).map
      (fun i => d.dataBuffer.getD ((d.currentIndex + i) % MAX_POINTS_PER_SERIES) outside)).filter
      (fun p => decide (p.timestamp ≥ cutoffTime))
  else
    ((List.range d.currentIndex).map (fun i => d.dataBuffer.getD i outside)).filter
      (fun p => decide (p.timestamp ≥ cutoffTime))

/-- The method `TimeSeriesData::getPointCount`. -/
def getPointCount (d : TimeSeriesData) : Nat := d.totalPoints

/-- Consecutive calls of `addDataPoint`. -/
def addAll (points : List DataPoint) (d : TimeSeriesData) : TimeSeriesData :=
  points.foldl (fun st p => addDataPoint p.timestamp p.value st) d

end TimeSeriesData

/-- The sample number `i` of the scenarios: timestamp `i`, value 1. -/
def sample (i : Nat) : DataPoint := ⟨i, ⟨1, 0, .finite⟩⟩

/-- A series that has just wrapped: 1001 samples numbered 0 to 1000 were added
to an empty series, so the next write goes to cell 1. -/
def wrappedSeries : TimeSeriesData :=
  TimeSeriesData.addAll ((List.range 1001).map sample)
    (TimeSeriesData.init (List.replicate 1000 TimeSeriesData.outside) none)

/-- The series a restart builds from the file `wrappedSeries` wrote. -/
def reloadedSeries : TimeSeriesData :=
  TimeSeriesData.init (List.replicate 1000 TimeSeriesData.outside)
    (TimeSeriesData.writeDataToFile wrappedSeries).file

set_option maxRecDepth 100000

/-! ## Helper lemmas -/

/-- A mask has a bit in common with `1 <<< k` exactly when its bit `k` is set. -/
theorem and_shiftLeft_ne_zero_iff (m k : Nat) :
    ((m &&& (1 <<< k)) != 0) = m.testBit k := by
  rw [Nat.one_shiftLeft]
  cases hb : m.testBit k with
  | true =>
    have h : (m &&& 2 ^ k).testBit k = true := by
      rw [Nat.testBit_and, hb, Nat.testBit_two_pow_self]; rfl
    have hne : m &&& 2 ^ k ≠ 0 := by
      intro h0
      rw [h0, Nat.zero_testBit] at h
      exact Bool.noConfusion h
    simpa using hne
  | false =>
    have h0 : m &&& 2 ^ k = 0 := by
      apply Nat.eq_of_testBit_eq
      intro i
      rw [Nat.testBit_and, Nat.zero_testBit, Nat.testBit_two_pow]
      by_cases hik : k = i
      · subst hik; simp [hb]
      · simp [hik]
    simp [h0]

namespace ElegooCC

theorem hasMachineStatus_eq_testBit (s : ElegooCC) (k : Nat) :
    s.hasMachineStatus k = s.machineStatusMask.testBit k := by
  unfold hasMachineStatus
  exact and_shiftLeft_ne_zero_iff _ _

/-- The decision of `shouldPausePrint`, gate by gate. -/
theorem shouldPausePrint_eq_true_iff (env : Env) (currentTime : Nat) (s : ElegooCC) :
    shouldPausePrint env currentTime s = true ↔
      env.settings.enabled = true ∧
      ¬ (s.filamentRunout = true ∧ env.settings.pause_on_runout = false) ∧
      usub currentTime s.startedAt ≥ toULong env.settings.start_print_timeout ∧
      s.webSocketConnected = true ∧
      s.waitingForAck = false ∧
      s.isPrinting = true ∧
      wrapInt (s.totalTicks - s.currentTicks) ≥ 100 ∧
      (s.filamentRunout = true ∨ s.filamentStopped = true) ∧
      s.pauseCommandSent = false := by
  unfold shouldPausePrint isPauseInProgress
  cases he : env.settings.enabled <;> cases hr : s.filamentRunout <;>
    cases hp : env.settings.pause_on_runout <;> cases hc : s.webSocketConnected <;>
    cases hw : s.waitingForAck <;> cases hi : s.isPrinting <;>
    cases hs : s.filamentStopped <;> cases hps : s.pauseCommandSent <;> simp

end ElegooCC

namespace ElegooCC

/-! ### What `checkPauseVerification` leaves untouched -/

theorem checkPauseVerification_sent (env : Env) (ct : Nat) (s : ElegooCC) :
    (checkPauseVerification env ct s).sent = s.sent := by
  unfold checkPauseVerification resetPauseState addAttempt; split_ifs <;> rfl

theorem checkPauseVerification_filamentRunout (env : Env) (ct : Nat) (s : ElegooCC) :
    (checkPauseVerification env ct s).filamentRunout = s.filamentRunout := by
  unfold checkPauseVerification resetPauseState addAttempt; split_ifs <;> rfl

theorem checkPauseVerification_filamentStopped (env : Env) (ct : Nat) (s : ElegooCC) :
    (checkPauseVerification env ct s).filamentStopped = s.filamentStopped := by
  unfold checkPauseVerification resetPauseState addAttempt; split_ifs <;> rfl

theorem checkPauseVerification_webSocketConnected (env : Env) (ct : Nat) (s : ElegooCC) :
    (checkPauseVerification env ct s).webSocketConnected = s.webSocketConnected := by
  unfold checkPauseVerification resetPauseState addAttempt; split_ifs <;> rfl

theorem checkPauseVerification_waitingForAck (env : Env) (ct : Nat) (s : ElegooCC) :
    (checkPauseVerification env ct s).waitingForAck = s.waitingForAck := by
  unfold checkPauseVerification resetPauseState addAttempt; split_ifs <;> rfl

theorem checkPauseVerification_printStatus (env : Env) (ct : Nat) (s : ElegooCC) :
    (checkPauseVerification env ct s).printStatus = s.printStatus := by
  unfold checkPauseVerification resetPauseState addAttempt; split_ifs <;> rfl

theorem checkPauseVerification_machineStatusMask (env : Env) (ct : Nat) (s : ElegooCC) :
    (checkPauseVerification env ct s).machineStatusMask = s.machineStatusMask := by
  unfold checkPauseVerification resetPauseState addAttempt; split_ifs <;> rfl

theorem checkPauseVerification_startedAt (env : Env) (ct : Nat) (s : ElegooCC) :
    (checkPauseVerification env ct s).startedAt = s.startedAt := by
  unfold checkPauseVerification resetPauseState addAttempt; split_ifs <;> rfl

theorem checkPauseVerification_totalTicks (env : Env) (ct : Nat) (s : ElegooCC) :
    (checkPauseVerification env ct s).totalTicks = s.totalTicks := by
  unfold checkPauseVerification resetPauseState addAttempt; split_ifs <;> rfl

theorem checkPauseVerification_currentTicks (env : Env) (ct : Nat) (s : ElegooCC) :
    (checkPauseVerification env ct s).currentTicks = s.currentTicks := by
  unfold checkPauseVerification resetPauseState addAttempt; split_ifs <;> rfl

theorem checkPauseVerification_mainboardID (env : Env) (ct : Nat) (s : ElegooCC) :
    (checkPauseVerification env ct s).mainboardID = s.mainboardID := by
  unfold checkPauseVerification resetPauseState addAttempt; split_ifs <;> rfl

theorem checkPauseVerification_isPrinting (env : Env) (ct : Nat) (s : ElegooCC) :
    (checkPauseVerification env ct s).isPrinting = s.isPrinting := by
  unfold isPrinting hasMachineStatus
  rw [checkPauseVerification_printStatus, checkPauseVerification_machineStatusMask]

/-- With no pause in verification `checkPauseVerification` does nothing. -/
theorem checkPauseVerification_idle (env : Env) (ct : Nat) (s : ElegooCC)
    (h : s.pauseCommandSent = false) : checkPauseVerification env ct s = s := by
  unfold checkPauseVerification; simp [h]

/-! ### Frames transmitted before the pause decision -/

theorem connect_sent (env : Env) (s : ElegooCC) : (connect env s).sent = s.sent := by
  unfold connect transportEvent webSocketEvent resetPauseState; split_ifs <;> rfl

theorem checkFilamentMovement_sent (env : Env) (ct : Nat) (s : ElegooCC) :
    (checkFilamentMovement env ct s).sent = s.sent := by
  unfold checkFilamentMovement; simp only []; split_ifs <;> rfl

theorem ackTimeoutAndPing_sent (ct : Nat) (s : ElegooCC) :
    (ackTimeoutAndPing ct s).sent = s.sent ∨ (ackTimeoutAndPing ct s).sent = s.sent ++ ["ping"] := by
  unfold ackTimeoutAndPing; split_ifs <;> simp

/-- Up to the sensor checks a tick transmits at most the keepalive. -/
theorem afterSensorChecks_sent (env : Env) (s : ElegooCC) :
    (afterSensorChecks env s).sent = s.sent ∨
      (afterSensorChecks env s).sent = s.sent ++ ["ping"] := by
  unfold afterSensorChecks checkFilamentRunout
  simp only [checkFilamentMovement_sent]
  split_ifs
  · have h := ackTimeoutAndPing_sent env.millis (connect env s)
    rw [connect_sent] at h
    exact h
  · exact ackTimeoutAndPing_sent env.millis s

end ElegooCC

namespace ElegooCC

/-! ### The dispatch step -/

/-- An actively printing printer is not paused, pausing or idle. -/
theorem status_of_isPrinting (s : ElegooCC) (h : s.isPrinting = true) :
    s.printStatus ≠ SDCP_PRINT_STATUS_PAUSED ∧ s.printStatus ≠ SDCP_PRINT_STATUS_PAUSING ∧
      s.printStatus ≠ SDCP_PRINT_STATUS_IDLE := by
  unfold isPrinting at h
  simp only [Bool.and_eq_true, Bool.or_eq_true, beq_iff_eq] at h
  rcases h.1 with ((h1 | h1) | h1) | h1 <;> rw [h1] <;> decide

/-- The effect of `pausePrint` when it does dispatch. -/
theorem pausePrint_eq_dispatch (env : Env) (s : ElegooCC)
    (hconn : s.webSocketConnected = true) (hack : s.waitingForAck = false)
    (h1 : s.printStatus ≠ SDCP_PRINT_STATUS_PAUSED)
    (h2 : s.printStatus ≠ SDCP_PRINT_STATUS_PAUSING)
    (h3 : s.printStatus ≠ SDCP_PRINT_STATUS_IDLE) :
    pausePrint env s =
      { s with
        pauseRetryCount := 0
        pauseAttemptData := (s.pauseAttemptData.map
          (fun l => l ++ [⟨env.getTime, PAUSE_ATTEMPT_INITIAL, 0, s.printStatus⟩]))
        sent := (s.sent ++
          [jsonPayload (requestId env.uuid) SDCP_COMMAND_PAUSE_PRINT s.mainboardID env.getTime])
        waitingForAck := true
        pendingAckCommand := SDCP_COMMAND_PAUSE_PRINT
        pendingAckRequestId := requestId env.uuid
        ackWaitStartTime := env.millisAtAck
        pauseCommandSent := true
        pauseCommandSentTime := env.millisAtPause } := by
  have hc : (s.printStatus == SDCP_PRINT_STATUS_PAUSED ||
      s.printStatus == SDCP_PRINT_STATUS_PAUSING ||
      s.printStatus == SDCP_PRINT_STATUS_IDLE) = false := by
    simp [h1, h2, h3]
  unfold pausePrint
  rw [hc]
  simp [sendCommand, addAttempt, hconn, hack]

/-- A tick whose decision is negative ends in the state it decided on. -/
theorem loop_eq_before (env : Env) (s : ElegooCC)
    (h : (pauseCondition env (beforePauseDecision env s) &&
      shouldPausePrint env env.millis (beforePauseDecision env s)) = false) :
    loop env s = beforePauseDecision env s := by
  unfold loop
  simp only [h]
  rfl

/-- A tick whose decision is positive ends with `pausePrint`. -/
theorem loop_eq_pausePrint (env : Env) (s : ElegooCC)
    (h : (pauseCondition env (beforePauseDecision env s) &&
      shouldPausePrint env env.millis (beforePauseDecision env s)) = true) :
    loop env s = pausePrint env (beforePauseDecision env s) := by
  unfold loop
  simp only [h]
  rfl

/-- The tick dispatches when all gates hold at decision time and the pause
condition is met without the runout veto. -/
theorem loop_dispatch (env : Env) (s : ElegooCC)
    (henabled : env.settings.enabled = true)
    (hgrace : usub env.millis (beforePauseDecision env s).startedAt
      ≥ toULong env.settings.start_print_timeout)
    (hconn : (beforePauseDecision env s).webSocketConnected = true)
    (hack : (beforePauseDecision env s).waitingForAck = false)
    (hprint : (beforePauseDecision env s).isPrinting = true)
    (hticks : wrapInt ((beforePauseDecision env s).totalTicks
      - (beforePauseDecision env s).currentTicks) ≥ 100)
    (hidle : (beforePauseDecision env s).pauseCommandSent = false)
    (hcond : (beforePauseDecision env s).filamentStopped = true ∨
      (beforePauseDecision env s).filamentRunout = true)
    (hveto : ¬ ((beforePauseDecision env s).filamentRunout = true ∧
      env.settings.pause_on_runout = false)) :
    loop env s =
      { beforePauseDecision env s with
        pauseRetryCount := 0
        pauseAttemptData := ((beforePauseDecision env s).pauseAttemptData.map
          (fun l => l ++ [⟨env.getTime, PAUSE_ATTEMPT_INITIAL, 0,
            (beforePauseDecision env s).printStatus⟩]))
        sent := ((beforePauseDecision env s).sent ++
          [jsonPayload (requestId env.uuid) SDCP_COMMAND_PAUSE_PRINT
            (beforePauseDecision env s).mainboardID env.getTime])
        waitingForAck := true
        pendingAckCommand := SDCP_COMMAND_PAUSE_PRINT
        pendingAckRequestId := requestId env.uuid
        ackWaitStartTime := env.millisAtAck
        pauseCommandSent := true
        pauseCommandSentTime := env.millisAtPause } := by
  have hshould : shouldPausePrint env env.millis (beforePauseDecision env s) = true :=
    (shouldPausePrint_eq_true_iff _ _ _).2
      ⟨henabled, hveto, hgrace, hconn, hack, hprint, hticks, hcond.symm, hidle⟩
  have hpc : pauseCondition env (beforePauseDecision env s) = true := by
    unfold pauseCondition
    rcases hcond with h | h
    · simp [h]
    · cases hp : env.settings.pause_on_runout
      · exact absurd ⟨h, hp⟩ hveto
      · simp [h]
  have hst := status_of_isPrinting _ hprint
  rw [loop_eq_pausePrint env s (by rw [hpc, hshould]; rfl)]
  exact pausePrint_eq_dispatch env _ hconn hack hst.1 hst.2.1 hst.2.2

end ElegooCC

namespace ElegooCC

/-! ### The retry counter along every operation -/

theorem sendCommand_pauseRetryCount (env : Env) (c : Int) (w : Bool) (s : ElegooCC) :
    (sendCommand env c w s).pauseRetryCount = s.pauseRetryCount := by
  unfold sendCommand; simp only []; split_ifs <;> rfl

theorem pausePrint_pauseRetryCount (env : Env) (s : ElegooCC) :
    (pausePrint env s).pauseRetryCount = s.pauseRetryCount ∨
      (pausePrint env s).pauseRetryCount = 0 := by
  unfold pausePrint
  split_ifs
  · left; rfl
  · right
    simp only []
    rw [sendCommand_pauseRetryCount]
    rfl

theorem handleCommandResponse_pauseRetryCount (data : DataObj) (s : ElegooCC) :
    (handleCommandResponse data s).pauseRetryCount = s.pauseRetryCount := by
  unfold handleCommandResponse
  split
  · simp only []; split_ifs <;> rfl
  · rfl

theorem parseCurrentZ_pauseRetryCount (str : String) (s : ElegooCC) :
    (parseCurrentZ str s).pauseRetryCount = s.pauseRetryCount := by
  unfold parseCurrentZ; simp only []; split_ifs <;> rfl

theorem handlePrintInfo_pauseRetryCount (env : Env) (p : PrintInfoObj) (s : ElegooCC) :
    (handlePrintInfo env p s).pauseRetryCount = s.pauseRetryCount ∨
      (handlePrintInfo env p s).pauseRetryCount = 0 := by
  unfold handlePrintInfo resetPauseState
  simp only []
  split_ifs
  · right; rfl
  · right; rfl
  · left; rfl
  · left; rfl

theorem handleStatus_pauseRetryCount (env : Env) (st : StatusObj) (mb : String) (s : ElegooCC) :
    (handleStatus env st mb s).pauseRetryCount = s.pauseRetryCount ∨
      (handleStatus env st mb s).pauseRetryCount = 0 := by
  have key : ∀ u : ElegooCC, u.pauseRetryCount = s.pauseRetryCount →
      ((match st.PrintInfo with
        | some printInfo => handlePrintInfo env printInfo u
        | none => u).pauseRetryCount = s.pauseRetryCount ∨
       (match st.PrintInfo with
        | some printInfo => handlePrintInfo env printInfo u
        | none => u).pauseRetryCount = 0) := by
    intro u hu
    cases st.PrintInfo with
    | none => left; exact hu
    | some p =>
      rcases handlePrintInfo_pauseRetryCount env p u with h | h
      · left; exact h.trans hu
      · right; exact h
  have h2 : (match st.CurrenCoord with
      | some coordsStr => parseCurrentZ coordsStr
          (match st.CurrentStatus with
            | some currentStatus => setMachineStatuses (currentStatus.take 5) s
            | none => s)
      | none => (match st.CurrentStatus with
            | some currentStatus => setMachineStatuses (currentStatus.take 5) s
            | none => s)).pauseRetryCount = s.pauseRetryCount := by
    cases st.CurrenCoord <;> cases st.CurrentStatus <;>
      simp [parseCurrentZ_pauseRetryCount, setMachineStatuses]
  unfold handleStatus
  simp only []
  split_ifs
  · exact key _ h2
  · exact key _ h2

theorem webSocketEvent_pauseRetryCount (env : Env) (ty : WStype_t) (p : Option JsonDocument)
    (s : ElegooCC) :
    (webSocketEvent env ty p s).pauseRetryCount = s.pauseRetryCount ∨
      (webSocketEvent env ty p s).pauseRetryCount = 0 := by
  unfold webSocketEvent
  cases ty
  case WStype_DISCONNECTED => right; rfl
  case WStype_CONNECTED => left; exact sendCommand_pauseRetryCount _ _ _ _
  case WStype_TEXT =>
    cases p with
    | none => left; rfl
    | some doc =>
      simp only []
      split
      · left; exact handleCommandResponse_pauseRetryCount _ _
      · exact handleStatus_pauseRetryCount _ _ _ _
      · left; rfl
  all_goals left; rfl

theorem transportEvent_pauseRetryCount (env : Env) (ty : WStype_t) (p : Option JsonDocument)
    (s : ElegooCC) :
    (transportEvent env ty p s).pauseRetryCount = s.pauseRetryCount ∨
      (transportEvent env ty p s).pauseRetryCount = 0 := by
  unfold transportEvent
  exact webSocketEvent_pauseRetryCount env ty p _

theorem connect_pauseRetryCount (env : Env) (s : ElegooCC) :
    (connect env s).pauseRetryCount = s.pauseRetryCount ∨
      (connect env s).pauseRetryCount = 0 := by
  unfold connect
  simp only []
  split_ifs
  · exact transportEvent_pauseRetryCount env _ _ s
  · left; rfl

theorem ackTimeoutAndPing_pauseRetryCount (ct : Nat) (s : ElegooCC) :
    (ackTimeoutAndPing ct s).pauseRetryCount = s.pauseRetryCount := by
  unfold ackTimeoutAndPing; split_ifs <;> rfl

theorem checkFilamentMovement_pauseRetryCount (env : Env) (ct : Nat) (s : ElegooCC) :
    (checkFilamentMovement env ct s).pauseRetryCount = s.pauseRetryCount := by
  unfold checkFilamentMovement; simp only []; split_ifs <;> rfl

theorem afterSensorChecks_pauseRetryCount (env : Env) (s : ElegooCC) :
    (afterSensorChecks env s).pauseRetryCount = s.pauseRetryCount ∨
      (afterSensorChecks env s).pauseRetryCount = 0 := by
  unfold afterSensorChecks checkFilamentRunout
  simp only [checkFilamentMovement_pauseRetryCount, ackTimeoutAndPing_pauseRetryCount]
  split_ifs
  · exact connect_pauseRetryCount env s
  · left; rfl

/-- The counter stays within the budget across `checkPauseVerification`. -/
theorem checkPauseVerification_bounded (env : Env) (ct : Nat) (s : ElegooCC)
    (h0 : 0 ≤ s.pauseRetryCount) (hM : s.pauseRetryCount ≤ env.settings.max_pause_retries) :
    0 ≤ (checkPauseVerification env ct s).pauseRetryCount ∧
      (checkPauseVerification env ct s).pauseRetryCount ≤ env.settings.max_pause_retries := by
  unfold checkPauseVerification resetPauseState addAttempt
  split_ifs with h1 h2 h3 h4
  · exact ⟨h0, hM⟩
  · exact ⟨le_refl _, le_trans h0 hM⟩
  · simp only []
    constructor <;> omega
  · exact ⟨le_refl _, le_trans h0 hM⟩
  · exact ⟨h0, hM⟩

/-- The counter stays within the budget across a tick. -/
theorem loop_bounded (env : Env) (s : ElegooCC)
    (h0 : 0 ≤ s.pauseRetryCount) (hM : s.pauseRetryCount ≤ env.settings.max_pause_retries) :
    0 ≤ (loop env s).pauseRetryCount ∧
      (loop env s).pauseRetryCount ≤ env.settings.max_pause_retries := by
  have ha : 0 ≤ (afterSensorChecks env s).pauseRetryCount ∧
      (afterSensorChecks env s).pauseRetryCount ≤ env.settings.max_pause_retries := by
    rcases afterSensorChecks_pauseRetryCount env s with h | h <;> rw [h]
    · exact ⟨h0, hM⟩
    · exact ⟨le_refl _, le_trans h0 hM⟩
  have hb := checkPauseVerification_bounded env env.millis _ ha.1 ha.2
  unfold loop
  simp only []
  split_ifs
  · rcases pausePrint_pauseRetryCount env (beforePauseDecision env s) with h | h <;> rw [h]
    · exact hb
    · exact ⟨le_refl _, le_trans hb.1 hb.2⟩
  · exact hb

theorem setup_pauseRetryCount (env : Env) (s : ElegooCC) :
    (setup env s).pauseRetryCount = s.pauseRetryCount ∨ (setup env s).pauseRetryCount = 0 := by
  unfold setup
  simp only []
  split_ifs
  · exact connect_pauseRetryCount env s
  · left; rfl

end ElegooCC

/-- A counter that is kept or zeroed stays within the budget. -/
theorem kept_or_zero_bounded {c c2 M : Int} (h : c2 = c ∨ c2 = 0) (h0 : 0 ≤ c) (hM : c ≤ M) :
    0 ≤ c2 ∧ c2 ≤ M := by
  rcases h with h | h <;> subst h
  · exact ⟨h0, hM⟩
  · exact ⟨le_refl _, le_trans h0 hM⟩

/-- Every call keeps the retry counter within the budget it is configured with. -/
theorem Step.apply_bounded (st : Step) (s : ElegooCC)
    (h0 : 0 ≤ s.pauseRetryCount)
    (hM : s.pauseRetryCount ≤ st.env.settings.max_pause_retries) :
    0 ≤ (st.apply s).pauseRetryCount ∧
      (st.apply s).pauseRetryCount ≤ st.env.settings.max_pause_retries := by
  cases st with
  | setup env => exact kept_or_zero_bounded (ElegooCC.setup_pauseRetryCount env s) h0 hM
  | tick env => exact ElegooCC.loop_bounded env s h0 hM
  | event env ty p =>
    exact kept_or_zero_bounded (ElegooCC.transportEvent_pauseRetryCount env ty p s) h0 hM
  | pausePrint env => exact kept_or_zero_bounded (ElegooCC.pausePrint_pauseRetryCount env s) h0 hM
  | continuePrint env =>
    exact kept_or_zero_bounded
      (Or.inl (ElegooCC.sendCommand_pauseRetryCount env SDCP_COMMAND_CONTINUE_PRINT true s)) h0 hM
  | triggerTestMovementStop env => exact ⟨h0, hM⟩

namespace ElegooCC

/-! ### Why the retry budget is never exhausted

While a pause is in verification the retry counter is 0, because every
dispatch zeroes it; so with a budget of at least 1 a verification timeout
always takes the retry branch. -/

theorem pauseKeptOrReset_refl (s : ElegooCC) : pauseKeptOrReset s s :=
  ⟨rfl, Or.inl ⟨rfl, rfl⟩⟩

theorem pauseKeptOrReset_trans {s t u : ElegooCC} (h1 : pauseKeptOrReset s t)
    (h2 : pauseKeptOrReset t u) : pauseKeptOrReset s u := by
  obtain ⟨a1, b1⟩ := h1
  obtain ⟨a2, b2⟩ := h2
  refine ⟨a2.trans a1, ?_⟩
  rcases b2 with ⟨c, d⟩ | h
  · rcases b1 with ⟨e, f⟩ | ⟨e, f⟩
    · left; exact ⟨c.trans e, d.trans f⟩
    · right; exact ⟨c.trans e, d.trans f⟩
  · right; exact h

theorem retryNeverAdvances_of_keptOrReset {s t : ElegooCC} (h : pauseKeptOrReset s t)
    (hs : retryNeverAdvances s) : retryNeverAdvances t := by
  obtain ⟨a, b⟩ := h
  refine ⟨?_, ?_⟩
  · intro ht
    rcases b with ⟨c, d⟩ | ⟨c, d⟩
    · rw [d]; exact hs.1 (c ▸ ht)
    · exact d
  · rw [a]; exact hs.2

theorem sendCommand_keptOrReset (env : Env) (c : Int) (w : Bool) (s : ElegooCC) :
    pauseKeptOrReset s (sendCommand env c w s) := by
  unfold sendCommand; simp only []; split_ifs <;> exact pauseKeptOrReset_refl s

theorem handleCommandResponse_keptOrReset (data : DataObj) (s : ElegooCC) :
    pauseKeptOrReset s (handleCommandResponse data s) := by
  unfold handleCommandResponse
  split
  · simp only []; split_ifs <;> exact pauseKeptOrReset_refl s
  · exact pauseKeptOrReset_refl s

theorem parseCurrentZ_keptOrReset (str : String) (s : ElegooCC) :
    pauseKeptOrReset s (parseCurrentZ str s) := by
  unfold parseCurrentZ; simp only []; split_ifs <;> exact pauseKeptOrReset_refl s

theorem handlePrintInfo_keptOrReset (env : Env) (p : PrintInfoObj) (s : ElegooCC) :
    pauseKeptOrReset s (handlePrintInfo env p s) := by
  unfold handlePrintInfo resetPauseState
  simp only []
  split_ifs
  · exact ⟨rfl, Or.inr ⟨rfl, rfl⟩⟩
  · exact ⟨rfl, Or.inr ⟨rfl, rfl⟩⟩
  · exact pauseKeptOrReset_refl s
  · exact pauseKeptOrReset_refl s

theorem handleStatus_keptOrReset (env : Env) (st : StatusObj) (mb : String) (s : ElegooCC) :
    pauseKeptOrReset s (handleStatus env st mb s) := by
  have key : ∀ u : ElegooCC, pauseKeptOrReset s u →
      pauseKeptOrReset s (match st.PrintInfo with
        | some printInfo => handlePrintInfo env printInfo u
        | none => u) := by
    intro u hu
    cases st.PrintInfo with
    | none => exact hu
    | some p => exact pauseKeptOrReset_trans hu (handlePrintInfo_keptOrReset env p u)
  have h1 : pauseKeptOrReset s (match st.CurrentStatus with
      | some currentStatus => setMachineStatuses (currentStatus.take 5) s
      | none => s) := by
    cases st.CurrentStatus <;> exact pauseKeptOrReset_refl s
  have h2 : ∀ u : ElegooCC, pauseKeptOrReset s u →
      pauseKeptOrReset s (match st.CurrenCoord with
        | some coordsStr => parseCurrentZ coordsStr u
        | none => u) := by
    intro u hu
    cases st.CurrenCoord with
    | none => exact hu
    | some c => exact pauseKeptOrReset_trans hu (parseCurrentZ_keptOrReset c u)
  unfold handleStatus
  simp only []
  split_ifs
  · exact key _ (h2 _ h1)
  · exact key _ (h2 _ h1)

theorem webSocketEvent_keptOrReset (env : Env) (ty : WStype_t) (p : Option JsonDocument)
    (s : ElegooCC) : pauseKeptOrReset s (webSocketEvent env ty p s) := by
  unfold webSocketEvent
  cases ty
  case WStype_DISCONNECTED => exact ⟨rfl, Or.inr ⟨rfl, rfl⟩⟩
  case WStype_CONNECTED => exact sendCommand_keptOrReset _ _ _ _
  case WStype_TEXT =>
    cases p with
    | none => exact pauseKeptOrReset_refl s
    | some doc =>
      simp only []
      split
      · exact handleCommandResponse_keptOrReset _ _
      · exact handleStatus_keptOrReset _ _ _ _
      · exact pauseKeptOrReset_refl s
  all_goals exact pauseKeptOrReset_refl s

theorem transportEvent_keptOrReset (env : Env) (ty : WStype_t) (p : Option JsonDocument)
    (s : ElegooCC) : pauseKeptOrReset s (transportEvent env ty p s) := by
  unfold transportEvent
  exact webSocketEvent_keptOrReset env ty p _

theorem connect_keptOrReset (env : Env) (s : ElegooCC) :
    pauseKeptOrReset s (connect env s) := by
  unfold connect
  simp only []
  split_ifs
  · exact transportEvent_keptOrReset env _ _ s
  · exact pauseKeptOrReset_refl s

theorem setup_keptOrReset (env : Env) (s : ElegooCC) : pauseKeptOrReset s (setup env s) := by
  unfold setup
  simp only []
  split_ifs
  · exact connect_keptOrReset env s
  · exact pauseKeptOrReset_refl s

theorem ackTimeoutAndPing_keptOrReset (ct : Nat) (s : ElegooCC) :
    pauseKeptOrReset s (ackTimeoutAndPing ct s) := by
  unfold ackTimeoutAndPing; split_ifs <;> exact pauseKeptOrReset_refl s

theorem checkFilamentMovement_keptOrReset (env : Env) (ct : Nat) (s : ElegooCC) :
    pauseKeptOrReset s (checkFilamentMovement env ct s) := by
  unfold checkFilamentMovement; simp only []; split_ifs <;> exact pauseKeptOrReset_refl s

theorem afterSensorChecks_keptOrReset (env : Env) (s : ElegooCC) :
    pauseKeptOrReset s (afterSensorChecks env s) := by
  have h : ∀ u : ElegooCC, pauseKeptOrReset s u →
      pauseKeptOrReset s (checkFilamentRunout env env.millis
        (checkFilamentMovement env env.millis (ackTimeoutAndPing env.millis u))) := by
    intro u hu
    exact pauseKeptOrReset_trans hu
      (pauseKeptOrReset_trans (ackTimeoutAndPing_keptOrReset env.millis u)
        (pauseKeptOrReset_trans (checkFilamentMovement_keptOrReset env env.millis _)
          (pauseKeptOrReset_refl _)))
  unfold afterSensorChecks
  simp only []
  split_ifs
  · exact h _ (connect_keptOrReset env s)
  · exact h _ (pauseKeptOrReset_refl s)

/-- With a budget of at least 1, `checkPauseVerification` never records
max-exceeded and never records a retry count other than 1. -/
theorem checkPauseVerification_retryNeverAdvances (env : Env) (ct : Nat) (s : ElegooCC)
    (hM : 1 ≤ env.settings.max_pause_retries) (hs : retryNeverAdvances s) :
    retryNeverAdvances (checkPauseVerification env ct s) := by
  obtain ⟨hz, hrec⟩ := hs
  unfold checkPauseVerification resetPauseState addAttempt
  split_ifs with h1 h2 h3 h4
  · exact ⟨hz, hrec⟩
  · refine ⟨fun h => rfl, ?_⟩
    intro p hp
    simp only [] at hp
    cases hd : s.pauseAttemptData with
    | none => rw [hd] at hp; simp at hp
    | some l =>
      rw [hd] at hp hrec
      simp only [Option.map_some', Option.getD_some, List.mem_append, List.mem_singleton] at hp
      rcases hp with hp | hp
      · exact hrec p hp
      · have hc : s.pauseRetryCount = 0 := hz (by simpa using h1)
        rw [hp]
        exact ⟨by simp, by simp [hc]⟩
  · refine ⟨fun h => absurd h (by simp), ?_⟩
    intro p hp
    simp only [] at hp
    cases hd : s.pauseAttemptData with
    | none => rw [hd] at hp; simp at hp
    | some l =>
      rw [hd] at hp hrec
      simp only [Option.map_some', Option.getD_some, List.mem_append, List.mem_singleton] at hp
      rcases hp with hp | hp
      · exact hrec p hp
      · have hc : s.pauseRetryCount = 0 := hz (by simpa using h1)
        rw [hp]
        exact ⟨by simp, by simp [hc]⟩
  · have hc : s.pauseRetryCount = 0 := hz (by simpa using h1)
    rw [hc] at h4
    omega
  · exact ⟨hz, hrec⟩

/-- The dispatch zeroes the counter and records "initial" or "already paused"
with retry count 0. -/
theorem pausePrint_retryNeverAdvances (env : Env) (s : ElegooCC)
    (hs : retryNeverAdvances s) : retryNeverAdvances (pausePrint env s) := by
  obtain ⟨hz, hrec⟩ := hs
  unfold pausePrint addAttempt
  split_ifs
  · refine ⟨hz, ?_⟩
    intro p hp
    simp only [] at hp
    cases hd : s.pauseAttemptData with
    | none => rw [hd] at hp; simp at hp
    | some l =>
      rw [hd] at hp hrec
      simp only [Option.map_some', Option.getD_some, List.mem_append, List.mem_singleton] at hp
      rcases hp with hp | hp
      · exact hrec p hp
      · rw [hp]
        exact ⟨by simp, by simp⟩
  · simp only []
    refine ⟨fun _ => ?_, ?_⟩
    · show (sendCommand env SDCP_COMMAND_PAUSE_PRINT true _).pauseRetryCount = 0
      rw [sendCommand_pauseRetryCount]
    · intro p hp
      have hp2 : p ∈ (sendCommand env SDCP_COMMAND_PAUSE_PRINT true
          { s with pauseRetryCount := 0, pauseAttemptData := (s.pauseAttemptData.map
              (fun l => l ++ [⟨env.getTime, PAUSE_ATTEMPT_INITIAL, 0, s.printStatus⟩])) }
          ).pauseAttemptData.getD [] := hp
      rw [(sendCommand_keptOrReset env SDCP_COMMAND_PAUSE_PRINT true _).1] at hp2
      simp only [] at hp2
      cases hd : s.pauseAttemptData with
      | none => rw [hd] at hp2; simp at hp2
      | some l =>
        rw [hd] at hp2 hrec
        simp only [Option.map_some', Option.getD_some, List.mem_append, List.mem_singleton] at hp2
        rcases hp2 with hp2 | hp2
        · exact hrec p hp2
        · rw [hp2]
          exact ⟨by simp, by simp⟩

theorem loop_retryNeverAdvances (env : Env) (s : ElegooCC)
    (hM : 1 ≤ env.settings.max_pause_retries) (hs : retryNeverAdvances s) :
    retryNeverAdvances (loop env s) := by
  have ha := retryNeverAdvances_of_keptOrReset (afterSensorChecks_keptOrReset env s) hs
  have hb : retryNeverAdvances (beforePauseDecision env s) :=
    checkPauseVerification_retryNeverAdvances env env.millis _ hM ha
  unfold loop
  simp only []
  split_ifs
  · exact pausePrint_retryNeverAdvances env _ hb
  · exact hb

end ElegooCC

theorem Step.apply_retryNeverAdvances (st : Step) (s : ElegooCC)
    (hM : 1 ≤ st.env.settings.max_pause_retries) (hs : s.retryNeverAdvances) :
    (st.apply s).retryNeverAdvances := by
  cases st with
  | setup env =>
    exact ElegooCC.retryNeverAdvances_of_keptOrReset (ElegooCC.setup_keptOrReset env s) hs
  | tick env => exact ElegooCC.loop_retryNeverAdvances env s hM hs
  | event env ty p =>
    exact ElegooCC.retryNeverAdvances_of_keptOrReset
      (ElegooCC.transportEvent_keptOrReset env ty p s) hs
  | pausePrint env => exact ElegooCC.pausePrint_retryNeverAdvances env s hs
  | continuePrint env =>
    exact ElegooCC.retryNeverAdvances_of_keptOrReset
      (ElegooCC.sendCommand_keptOrReset env SDCP_COMMAND_CONTINUE_PRINT true s) hs
  | triggerTestMovementStop env =>
    exact ElegooCC.retryNeverAdvances_of_keptOrReset ⟨rfl, Or.inl ⟨rfl, rfl⟩⟩ hs

/-- With a retry budget of at least 1, no run from the constructor's state
ever records a max-exceeded attempt or a retry count above 1: the budget is
never exhausted, whatever its value. -/
theorem max_exceeded_unreachable (steps : List Step)
    (hcfg : ∀ st ∈ steps, 1 ≤ st.env.settings.max_pause_retries) :
    ∀ p ∈ (run steps (ElegooCC.init (some []))).pauseAttemptData.getD [],
      p.type ≠ PAUSE_ATTEMPT_MAX_EXCEEDED ∧ p.retryCount ≤ 1 := by
  have gen : ∀ (l : List Step) (s : ElegooCC),
      (∀ st ∈ l, 1 ≤ st.env.settings.max_pause_retries) →
      s.retryNeverAdvances → (run l s).retryNeverAdvances := by
    intro l
    induction l with
    | nil => intro s _ hs; exact hs
    | cons st rest ih =>
      intro s hl hs
      exact ih (st.apply s) (fun x hx => hl x (List.mem_cons_of_mem _ hx))
        (Step.apply_retryNeverAdvances st s (hl st (List.mem_cons_self _ _)) hs)
  have h0 : (ElegooCC.init (some [])).retryNeverAdvances :=
    ⟨fun h => rfl, fun p hp => by simp [ElegooCC.init] at hp⟩
  exact (gen steps _ hcfg h0).2

namespace ElegooCC

/-- A status frame that reports the transition to "paused" clears the pause
state itself, so the verification that follows finds nothing to confirm and
records nothing. -/
theorem paused_frame_preempts_success (env env2 : Env) (ct : Nat) (st : StatusObj)
    (mb : String) (p : PrintInfoObj) (s : ElegooCC)
    (hst : st.PrintInfo = some p) (hp : p.Status = some SDCP_PRINT_STATUS_PAUSED)
    (hne : s.printStatus ≠ SDCP_PRINT_STATUS_PAUSED) :
    (handleStatus env st mb s).pauseCommandSent = false ∧
    (handleStatus env st mb s).pauseAttemptData = s.pauseAttemptData ∧
    checkPauseVerification env2 ct (handleStatus env st mb s) = handleStatus env st mb s := by
  have h1 : ∀ u : ElegooCC, u.printStatus = s.printStatus →
      (handlePrintInfo env p u).pauseCommandSent = false := by
    intro u hu
    unfold handlePrintInfo resetPauseState
    simp [hp, hu, hne, Ne.symm hne]
  have h2 : ∀ u : ElegooCC, (match st.CurrenCoord with
      | some coordsStr => parseCurrentZ coordsStr u
      | none => u).printStatus = u.printStatus := by
    intro u
    cases st.CurrenCoord with
    | none => rfl
    | some c => unfold parseCurrentZ; simp only []; split_ifs <;> rfl
  have h3 : (match st.CurrentStatus with
      | some currentStatus => setMachineStatuses (currentStatus.take 5) s
      | none => s).printStatus = s.printStatus := by
    cases st.CurrentStatus <;> rfl
  have hsent : (handleStatus env st mb s).pauseCommandSent = false := by
    unfold handleStatus
    simp only [hst]
    split_ifs
    · exact h1 _ ((h2 _).trans h3)
    · exact h1 _ ((h2 _).trans h3)
  exact ⟨hsent, (handleStatus_keptOrReset env st mb s).1,
    checkPauseVerification_idle _ _ _ hsent⟩

end ElegooCC

namespace ElegooCC

/-! ### Which members each stage of a tick can change -/

/-- The ack-timeout and keepalive block touches only the pending ack, the
transmitted frames and the keepalive time. -/
theorem ackTimeoutAndPing_frame (ct : Nat) (s : ElegooCC) :
    ackTimeoutAndPing ct s =
      { s with
        waitingForAck := (ackTimeoutAndPing ct s).waitingForAck
        pendingAckCommand := (ackTimeoutAndPing ct s).pendingAckCommand
        pendingAckRequestId := (ackTimeoutAndPing ct s).pendingAckRequestId
        ackWaitStartTime := (ackTimeoutAndPing ct s).ackWaitStartTime
        sent := (ackTimeoutAndPing ct s).sent
        lastPing := (ackTimeoutAndPing ct s).lastPing } := by
  unfold ackTimeoutAndPing; split_ifs <;> rfl

/-- The movement check touches only the movement monitor's members. -/
theorem checkFilamentMovement_frame (env : Env) (ct : Nat) (s : ElegooCC) :
    checkFilamentMovement env ct s =
      { s with
        testMovementStopActive := (checkFilamentMovement env ct s).testMovementStopActive
        lastDebugTime := (checkFilamentMovement env ct s).lastDebugTime
        lastMovementValue := (checkFilamentMovement env ct s).lastMovementValue
        lastChangeTime := (checkFilamentMovement env ct s).lastChangeTime
        filamentStopped := (checkFilamentMovement env ct s).filamentStopped } := by
  unfold checkFilamentMovement; simp only []; split_ifs <;> rfl

/-- With the endpoint address unchanged, the stages before
`checkPauseVerification` touch only the pending ack, the transmitted frames,
the keepalive time, the movement monitor and the runout flag. -/
theorem afterSensorChecks_frame (env : Env) (s : ElegooCC)
    (hip : s.ipAddress = env.settings.elegooip) :
    afterSensorChecks env s =
      { s with
        waitingForAck := (ackTimeoutAndPing env.millis s).waitingForAck
        pendingAckCommand := (ackTimeoutAndPing env.millis s).pendingAckCommand
        pendingAckRequestId := (ackTimeoutAndPing env.millis s).pendingAckRequestId
        ackWaitStartTime := (ackTimeoutAndPing env.millis s).ackWaitStartTime
        sent := (ackTimeoutAndPing env.millis s).sent
        lastPing := (ackTimeoutAndPing env.millis s).lastPing
        testMovementStopActive := (afterSensorChecks env s).testMovementStopActive
        lastDebugTime := (afterSensorChecks env s).lastDebugTime
        lastMovementValue := (afterSensorChecks env s).lastMovementValue
        lastChangeTime := (afterSensorChecks env s).lastChangeTime
        filamentStopped := (afterSensorChecks env s).filamentStopped
        filamentRunout := (env.runoutPin == 0) } := by
  have h1 : afterSensorChecks env s =
      checkFilamentRunout env env.millis
        (checkFilamentMovement env env.millis (ackTimeoutAndPing env.millis s)) := by
    unfold afterSensorChecks
    simp [hip]
  have h2 := checkFilamentMovement_frame env env.millis (ackTimeoutAndPing env.millis s)
  have h3 := ackTimeoutAndPing_frame env.millis s
  rw [h1]
  unfold checkFilamentRunout
  generalize checkFilamentMovement env env.millis (ackTimeoutAndPing env.millis s) = m at h2 ⊢
  generalize ackTimeoutAndPing env.millis s = a at h2 h3 ⊢
  rw [h2, h3]

/-- The ack-timeout check of the block. -/
theorem ackTimeoutAndPing_timeout (ct : Nat) (s : ElegooCC)
    (hconn : s.webSocketConnected = true) (hw : s.waitingForAck = true)
    (ht : usub ct s.ackWaitStartTime ≥ ACK_TIMEOUT_MS) :
    ackTimeoutAndPing ct s =
      { s with waitingForAck := false, pendingAckCommand := -1,
               pendingAckRequestId := "", ackWaitStartTime := 0 } := by
  unfold ackTimeoutAndPing
  simp [hconn, hw, ht]

/-- The keepalive of the block. -/
theorem ackTimeoutAndPing_ping (ct : Nat) (s : ElegooCC)
    (hconn : s.webSocketConnected = true)
    (hnt : ¬ (s.waitingForAck = true ∧ usub ct s.ackWaitStartTime ≥ ACK_TIMEOUT_MS))
    (hp : usub ct s.lastPing > 29900) :
    ackTimeoutAndPing ct s = { s with sent := (s.sent ++ ["ping"]), lastPing := ct } := by
  unfold ackTimeoutAndPing
  have hb : (s.waitingForAck && decide (usub ct s.ackWaitStartTime ≥ ACK_TIMEOUT_MS)) = false := by
    rw [Bool.eq_false_iff]
    intro hb
    simp only [Bool.and_eq_true, decide_eq_true_eq] at hb
    exact hnt hb
  simp [hconn, hb, hp]

/-- The block does nothing when neither check fires. -/
theorem ackTimeoutAndPing_idle (ct : Nat) (s : ElegooCC)
    (h : s.webSocketConnected = false ∨
      (¬ (s.waitingForAck = true ∧ usub ct s.ackWaitStartTime ≥ ACK_TIMEOUT_MS) ∧
        usub ct s.lastPing ≤ 29900)) :
    ackTimeoutAndPing ct s = s := by
  unfold ackTimeoutAndPing
  rcases h with h | ⟨hnt, hp⟩
  · simp [h]
  · have hb : (s.waitingForAck && decide (usub ct s.ackWaitStartTime ≥ ACK_TIMEOUT_MS))
        = false := by
      rw [Bool.eq_false_iff]
      intro hb
      simp only [Bool.and_eq_true, decide_eq_true_eq] at hb
      exact hnt hb
    have hp2 : ¬ usub ct s.lastPing > 29900 := not_lt.mpr hp
    simp [hb, hp2]

end ElegooCC

namespace ElegooCC

/-- The verification step touches only the pause state and the sink. -/
theorem checkPauseVerification_frame (env : Env) (ct : Nat) (s : ElegooCC) :
    checkPauseVerification env ct s =
      { s with
        pauseCommandSent := (checkPauseVerification env ct s).pauseCommandSent
        pauseCommandSentTime := (checkPauseVerification env ct s).pauseCommandSentTime
        pauseRetryCount := (checkPauseVerification env ct s).pauseRetryCount
        pauseAttemptData := (checkPauseVerification env ct s).pauseAttemptData } := by
  unfold checkPauseVerification resetPauseState addAttempt; split_ifs <;> rfl

/-- Sending while disconnected does nothing. -/
theorem sendCommand_disconnected (env : Env) (c : Int) (w : Bool) (s : ElegooCC)
    (h : s.webSocketConnected = false) : sendCommand env c w s = s := by
  unfold sendCommand
  simp [h]

/-- Sending while connected and not blocked by a pending ack. -/
theorem sendCommand_transmit (env : Env) (c : Int) (w : Bool) (s : ElegooCC)
    (hconn : s.webSocketConnected = true) (hfree : ¬ (w = true ∧ s.waitingForAck = true)) :
    sendCommand env c w s =
      { s with
        waitingForAck := (if w then true else s.waitingForAck)
        pendingAckCommand := (if w then c else s.pendingAckCommand)
        pendingAckRequestId := (if w then requestId env.uuid else s.pendingAckRequestId)
        ackWaitStartTime := (if w then env.millisAtAck else s.ackWaitStartTime)
        sent := (s.sent ++ [jsonPayload (requestId env.uuid) c s.mainboardID env.getTime]) } := by
  unfold sendCommand
  cases w
  · simp [hconn]
  · have hw : s.waitingForAck = false := by
      cases h : s.waitingForAck
      · rfl
      · exact absurd ⟨rfl, h⟩ hfree
    simp [hconn, hw]

/-- The effect of `pausePrint` when `sendCommand` is blocked (transport down or
an ack pending): verification is entered although nothing is transmitted. -/
theorem pausePrint_eq_blocked (env : Env) (s : ElegooCC)
    (hblock : s.webSocketConnected = false ∨ s.waitingForAck = true)
    (h1 : s.printStatus ≠ SDCP_PRINT_STATUS_PAUSED)
    (h2 : s.printStatus ≠ SDCP_PRINT_STATUS_PAUSING)
    (h3 : s.printStatus ≠ SDCP_PRINT_STATUS_IDLE) :
    pausePrint env s =
      { s with
        pauseRetryCount := 0
        pauseAttemptData := (s.pauseAttemptData.map
          (fun l => l ++ [⟨env.getTime, PAUSE_ATTEMPT_INITIAL, 0, s.printStatus⟩]))
        pauseCommandSent := true
        pauseCommandSentTime := env.millisAtPause } := by
  have hc : (s.printStatus == SDCP_PRINT_STATUS_PAUSED ||
      s.printStatus == SDCP_PRINT_STATUS_PAUSING ||
      s.printStatus == SDCP_PRINT_STATUS_IDLE) = false := by
    simp [h1, h2, h3]
  unfold pausePrint
  rw [hc]
  rcases hblock with h | h
  · simp [sendCommand, addAttempt, h]
  · cases hcn : s.webSocketConnected <;> simp [sendCommand, addAttempt, h, hcn]

/-- The effect of `pausePrint` on a paused, pausing or idle printer. -/
theorem pausePrint_eq_already (env : Env) (s : ElegooCC)
    (hst : s.printStatus = SDCP_PRINT_STATUS_PAUSED ∨
      s.printStatus = SDCP_PRINT_STATUS_PAUSING ∨ s.printStatus = SDCP_PRINT_STATUS_IDLE) :
    pausePrint env s = addAttempt env PAUSE_ATTEMPT_ALREADY_PAUSED 0 s.printStatus s := by
  have hc : (s.printStatus == SDCP_PRINT_STATUS_PAUSED ||
      s.printStatus == SDCP_PRINT_STATUS_PAUSING ||
      s.printStatus == SDCP_PRINT_STATUS_IDLE) = true := by
    rcases hst with h | h | h <;> simp [h]
  unfold pausePrint
  rw [if_pos hc]

/-- The dispatch touches only the pause state, the sink, the pending ack and
the transmitted frames. -/
theorem pausePrint_frame (env : Env) (s : ElegooCC) :
    pausePrint env s =
      { s with
        pauseRetryCount := (pausePrint env s).pauseRetryCount
        pauseAttemptData := (pausePrint env s).pauseAttemptData
        pauseCommandSent := (pausePrint env s).pauseCommandSent
        pauseCommandSentTime := (pausePrint env s).pauseCommandSentTime
        waitingForAck := (pausePrint env s).waitingForAck
        pendingAckCommand := (pausePrint env s).pendingAckCommand
        pendingAckRequestId := (pausePrint env s).pendingAckRequestId
        ackWaitStartTime := (pausePrint env s).ackWaitStartTime
        sent := (pausePrint env s).sent } := by
  by_cases hst : s.printStatus = SDCP_PRINT_STATUS_PAUSED ∨
      s.printStatus = SDCP_PRINT_STATUS_PAUSING ∨ s.printStatus = SDCP_PRINT_STATUS_IDLE
  · rw [pausePrint_eq_already env s hst]
    rfl
  · have h1 : s.printStatus ≠ SDCP_PRINT_STATUS_PAUSED := fun h => hst (Or.inl h)
    have h2 : s.printStatus ≠ SDCP_PRINT_STATUS_PAUSING := fun h => hst (Or.inr (Or.inl h))
    have h3 : s.printStatus ≠ SDCP_PRINT_STATUS_IDLE := fun h => hst (Or.inr (Or.inr h))
    rcases Bool.eq_false_or_eq_true s.webSocketConnected with hc | hc
    · rcases Bool.eq_false_or_eq_true s.waitingForAck with hw | hw
      · rw [pausePrint_eq_blocked env s (Or.inr hw) h1 h2 h3]
      · rw [pausePrint_eq_dispatch env s hc hw h1 h2 h3]
    · rw [pausePrint_eq_blocked env s (Or.inl hc) h1 h2 h3]

/-- The dispatch either leaves the session alone or transmits the pause
command and arms its ack. -/
theorem pausePrint_session (env : Env) (t : ElegooCC) (hw : t.waitingForAck = false) :
    ((pausePrint env t).sent = t.sent ∧
      (pausePrint env t).waitingForAck = false ∧
      (pausePrint env t).pendingAckCommand = t.pendingAckCommand ∧
      (pausePrint env t).pendingAckRequestId = t.pendingAckRequestId ∧
      (pausePrint env t).ackWaitStartTime = t.ackWaitStartTime) ∨
    ((pausePrint env t).sent = t.sent ++
        [jsonPayload (requestId env.uuid) SDCP_COMMAND_PAUSE_PRINT t.mainboardID env.getTime] ∧
      (pausePrint env t).waitingForAck = true ∧
      (pausePrint env t).pendingAckCommand = SDCP_COMMAND_PAUSE_PRINT ∧
      (pausePrint env t).pendingAckRequestId = requestId env.uuid ∧
      (pausePrint env t).ackWaitStartTime = env.millisAtAck) := by
  by_cases hst : t.printStatus = SDCP_PRINT_STATUS_PAUSED ∨
      t.printStatus = SDCP_PRINT_STATUS_PAUSING ∨ t.printStatus = SDCP_PRINT_STATUS_IDLE
  · left
    rw [pausePrint_eq_already env t hst]
    exact ⟨rfl, hw, rfl, rfl, rfl⟩
  · have h1 : t.printStatus ≠ SDCP_PRINT_STATUS_PAUSED := fun h => hst (Or.inl h)
    have h2 : t.printStatus ≠ SDCP_PRINT_STATUS_PAUSING := fun h => hst (Or.inr (Or.inl h))
    have h3 : t.printStatus ≠ SDCP_PRINT_STATUS_IDLE := fun h => hst (Or.inr (Or.inr h))
    rcases Bool.eq_false_or_eq_true t.webSocketConnected with hc | hc
    · right
      rw [pausePrint_eq_dispatch env t hc hw h1 h2 h3]
      exact ⟨rfl, rfl, rfl, rfl, rfl⟩
    · left
      rw [pausePrint_eq_blocked env t (Or.inl hc) h1 h2 h3]
      exact ⟨rfl, hw, rfl, rfl, rfl⟩

/-- Sending touches only the pending ack and the transmitted frames. -/
theorem sendCommand_frame (env : Env) (c : Int) (w : Bool) (s : ElegooCC) :
    sendCommand env c w s =
      { s with
        waitingForAck := (sendCommand env c w s).waitingForAck
        pendingAckCommand := (sendCommand env c w s).pendingAckCommand
        pendingAckRequestId := (sendCommand env c w s).pendingAckRequestId
        ackWaitStartTime := (sendCommand env c w s).ackWaitStartTime
        sent := (sendCommand env c w s).sent } := by
  unfold sendCommand; simp only []; split_ifs <;> rfl

theorem pausePrint_lastPing (env : Env) (t : ElegooCC) :
    (pausePrint env t).lastPing = t.lastPing := by
  have h := congrArg ElegooCC.lastPing (pausePrint_frame env t)
  exact h

/-- After the sensor checks a tick changes the keepalive time no more. -/
theorem loop_lastPing (env : Env) (s : ElegooCC) :
    (loop env s).lastPing = (afterSensorChecks env s).lastPing := by
  have hc : (beforePauseDecision env s).lastPing = (afterSensorChecks env s).lastPing := by
    have h := congrArg ElegooCC.lastPing
      (checkPauseVerification_frame env env.millis (afterSensorChecks env s))
    exact h
  unfold loop
  simp only []
  split_ifs
  · rw [pausePrint_lastPing, hc]
  · exact hc

/-- After the sensor checks a tick transmits nothing or the pause command. -/
theorem loop_sent (env : Env) (s : ElegooCC) :
    (loop env s).sent = (afterSensorChecks env s).sent ∨
    (loop env s).sent = (afterSensorChecks env s).sent ++
      [jsonPayload (requestId env.uuid) SDCP_COMMAND_PAUSE_PRINT
        (afterSensorChecks env s).mainboardID env.getTime] := by
  have hs : (beforePauseDecision env s).sent = (afterSensorChecks env s).sent :=
    checkPauseVerification_sent _ _ _
  have hm : (beforePauseDecision env s).mainboardID = (afterSensorChecks env s).mainboardID :=
    checkPauseVerification_mainboardID _ _ _
  cases hd : (pauseCondition env (beforePauseDecision env s) &&
      shouldPausePrint env env.millis (beforePauseDecision env s)) with
  | false =>
    left
    rw [loop_eq_before env s hd, hs]
  | true =>
    rw [loop_eq_pausePrint env s hd]
    rw [Bool.and_eq_true] at hd
    have hg := (shouldPausePrint_eq_true_iff _ _ _).1 hd.2
    rcases pausePrint_session env (beforePauseDecision env s) hg.2.2.2.2.1 with h | h
    · left; rw [h.1, hs]
    · right; rw [h.1, hs, hm]

/-- A tick that ends with an ack pending which was not pending at its decision
armed it itself, for its own pause command. -/
theorem loop_new_ack (env : Env) (s : ElegooCC)
    (hb : (beforePauseDecision env s).waitingForAck = false)
    (hl : (loop env s).waitingForAck = true) :
    (loop env s).pendingAckCommand = SDCP_COMMAND_PAUSE_PRINT ∧
    (loop env s).pendingAckRequestId = requestId env.uuid ∧
    (loop env s).ackWaitStartTime = env.millisAtAck := by
  cases hd : (pauseCondition env (beforePauseDecision env s) &&
      shouldPausePrint env env.millis (beforePauseDecision env s)) with
  | false =>
    rw [loop_eq_before env s hd, hb] at hl
    exact Bool.noConfusion hl
  | true =>
    rw [loop_eq_pausePrint env s hd] at hl ⊢
    rcases pausePrint_session env (beforePauseDecision env s) hb with h | h
    · rw [h.2.1] at hl
      exact Bool.noConfusion hl
    · exact ⟨h.2.2.1, h.2.2.2.1, h.2.2.2.2⟩

/-- A tick that decides with an ack pending leaves the pending ack alone. -/
theorem loop_pending_kept (env : Env) (s : ElegooCC)
    (hb : (afterSensorChecks env s).waitingForAck = true) :
    (loop env s).waitingForAck = true ∧
    (loop env s).pendingAckCommand = (afterSensorChecks env s).pendingAckCommand ∧
    (loop env s).pendingAckRequestId = (afterSensorChecks env s).pendingAckRequestId ∧
    (loop env s).ackWaitStartTime = (afterSensorChecks env s).ackWaitStartTime := by
  have hf := checkPauseVerification_frame env env.millis (afterSensorChecks env s)
  have hw : (beforePauseDecision env s).waitingForAck = true :=
    (checkPauseVerification_waitingForAck _ _ _).trans hb
  have hd : (pauseCondition env (beforePauseDecision env s) &&
      shouldPausePrint env env.millis (beforePauseDecision env s)) = false := by
    cases hsh : shouldPausePrint env env.millis (beforePauseDecision env s)
    · simp
    · have hg := (shouldPausePrint_eq_true_iff _ _ _).1 hsh
      rw [hg.2.2.2.2.1] at hw
      exact Bool.noConfusion hw
  have e1 := congrArg ElegooCC.pendingAckCommand hf
  have e2 := congrArg ElegooCC.pendingAckRequestId hf
  have e3 := congrArg ElegooCC.ackWaitStartTime hf
  rw [loop_eq_before env s hd]
  exact ⟨hw, e1, e2, e3⟩

/-- The pending ack and the transmitted frames after the sensor checks when the
ack has timed out, whether or not the endpoint address changed. -/
theorem afterSensorChecks_ack_timeout (env : Env) (s : ElegooCC)
    (hconn : s.webSocketConnected = true) (hw : s.waitingForAck = true)
    (ht : usub env.millis s.ackWaitStartTime ≥ ACK_TIMEOUT_MS) :
    (afterSensorChecks env s).waitingForAck = false ∧
    (afterSensorChecks env s).pendingAckCommand = -1 ∧
    (afterSensorChecks env s).pendingAckRequestId = "" ∧
    (afterSensorChecks env s).ackWaitStartTime = 0 ∧
    (afterSensorChecks env s).sent = s.sent := by
  have key : ∀ a : ElegooCC, a.waitingForAck = false → a.pendingAckCommand = -1 →
      a.pendingAckRequestId = "" → a.ackWaitStartTime = 0 → a.sent = s.sent →
      (checkFilamentRunout env env.millis (checkFilamentMovement env env.millis a)).waitingForAck
        = false ∧
      (checkFilamentRunout env env.millis
        (checkFilamentMovement env env.millis a)).pendingAckCommand = -1 ∧
      (checkFilamentRunout env env.millis
        (checkFilamentMovement env env.millis a)).pendingAckRequestId = "" ∧
      (checkFilamentRunout env env.millis
        (checkFilamentMovement env env.millis a)).ackWaitStartTime = 0 ∧
      (checkFilamentRunout env env.millis (checkFilamentMovement env env.millis a)).sent
        = s.sent := by
    intro a h1 h2 h3 h4 h5
    have hf := checkFilamentMovement_frame env env.millis a
    exact ⟨(congrArg ElegooCC.waitingForAck hf).trans h1,
      (congrArg ElegooCC.pendingAckCommand hf).trans h2,
      (congrArg ElegooCC.pendingAckRequestId hf).trans h3,
      (congrArg ElegooCC.ackWaitStartTime hf).trans h4,
      (congrArg ElegooCC.sent hf).trans h5⟩
  unfold afterSensorChecks
  simp only []
  split_ifs with hip
  · have hcn : connect env s =
        { s with waitingForAck := false, pendingAckCommand := -1, pendingAckRequestId := "",
                 ackWaitStartTime := 0, pauseCommandSent := false, pauseCommandSentTime := 0,
                 pauseRetryCount := 0, webSocketConnected := false,
                 ipAddress := env.settings.elegooip } := by
      unfold connect transportEvent webSocketEvent resetPauseState
      simp [hconn]
    have hblock : ackTimeoutAndPing env.millis (connect env s) = connect env s :=
      ackTimeoutAndPing_idle _ _ (Or.inl (by rw [hcn]))
    rw [hblock]
    exact key _ (by rw [hcn]) (by rw [hcn]) (by rw [hcn]) (by rw [hcn]) (by rw [hcn])
  · rw [ackTimeoutAndPing_timeout env.millis s hconn hw ht]
    exact key _ rfl rfl rfl rfl rfl

end ElegooCC

namespace ElegooCC

/-! ### The machine-status mask -/

/-- Bits of the mask folded from a status array, for any starting mask. -/
theorem foldl_mask_testBit (l : List Int) (m k : Nat) :
    (l.foldl (fun (mask : Nat) (v : Int) =>
        if 0 ≤ v ∧ v ≤ 4 then mask ||| (1 <<< v.toNat) else mask) m).testBit k = true ↔
      m.testBit k = true ∨ (k ≤ 4 ∧ (k : Int) ∈ l) := by
  induction l generalizing m with
  | nil => simp
  | cons v rest ih =>
    rw [List.foldl_cons, ih]
    by_cases hv : 0 ≤ v ∧ v ≤ 4
    · rw [if_pos hv, Nat.testBit_or, Nat.one_shiftLeft, Nat.testBit_two_pow]
      simp only [Bool.or_eq_true, decide_eq_true_eq, List.mem_cons]
      constructor
      · rintro ((h | h) | h)
        · exact Or.inl h
        · right
          have hk : (k : Int) = v := by omega
          exact ⟨by omega, Or.inl hk⟩
        · exact Or.inr ⟨h.1, Or.inr h.2⟩
      · rintro (h | ⟨hk, h | h⟩)
        · exact Or.inl (Or.inl h)
        · left; right
          omega
        · exact Or.inr ⟨hk, h⟩
    · rw [if_neg hv]
      simp only [List.mem_cons]
      constructor
      · rintro (h | h)
        · exact Or.inl h
        · exact Or.inr ⟨h.1, Or.inr h.2⟩
      · rintro (h | ⟨hk, h | h⟩)
        · exact Or.inl h
        · exfalso
          apply hv
          omega
        · exact Or.inr ⟨hk, h⟩

theorem setMachineStatuses_testBit (l : List Int) (s : ElegooCC) (k : Nat) :
    (setMachineStatuses l s).machineStatusMask.testBit k = true ↔ k ≤ 4 ∧ (k : Int) ∈ l := by
  unfold setMachineStatuses
  simp only []
  rw [foldl_mask_testBit]
  simp

theorem parseCurrentZ_machineStatusMask (str : String) (s : ElegooCC) :
    (parseCurrentZ str s).machineStatusMask = s.machineStatusMask := by
  unfold parseCurrentZ; simp only []; split_ifs <;> rfl

theorem handlePrintInfo_machineStatusMask (env : Env) (p : PrintInfoObj) (s : ElegooCC) :
    (handlePrintInfo env p s).machineStatusMask = s.machineStatusMask := by
  unfold handlePrintInfo resetPauseState
  simp only []
  split_ifs <;> rfl

/-- The mask after a status frame: folded from the first five entries of the
array when the frame has one, unchanged otherwise. -/
theorem handleStatus_machineStatusMask (env : Env) (st : StatusObj) (mb : String)
    (s : ElegooCC) :
    (handleStatus env st mb s).machineStatusMask =
      match st.CurrentStatus with
      | some currentStatus => (setMachineStatuses (currentStatus.take 5) s).machineStatusMask
      | none => s.machineStatusMask := by
  have h3 : ∀ u : ElegooCC, (match st.PrintInfo with
      | some printInfo => handlePrintInfo env printInfo u
      | none => u).machineStatusMask = u.machineStatusMask := by
    intro u
    cases st.PrintInfo with
    | none => rfl
    | some p => exact handlePrintInfo_machineStatusMask env p u
  have h2 : ∀ u : ElegooCC, (match st.CurrenCoord with
      | some coordsStr => parseCurrentZ coordsStr u
      | none => u).machineStatusMask = u.machineStatusMask := by
    intro u
    cases st.CurrenCoord with
    | none => rfl
    | some c => exact parseCurrentZ_machineStatusMask c u
  have h1 : (handleStatus env st mb s).machineStatusMask =
      (match st.CurrentStatus with
        | some currentStatus => setMachineStatuses (currentStatus.take 5) s
        | none => s).machineStatusMask := by
    unfold handleStatus
    simp only []
    split_ifs
    · exact (h3 _).trans (h2 _)
    · exact (h3 _).trans (h2 _)
  rw [h1]
  cases st.CurrentStatus <;> rfl

end ElegooCC

namespace ElegooCC

/-! ### The command frame -/

/-- The frame `sendCommand` builds, written as the protocol envelope with its
four variable parts. -/
theorem jsonPayload_eq (uuidStr : String) (command : Int) (mainboardID : String)
    (timestamp : Nat) :
    jsonPayload uuidStr command mainboardID timestamp =
      "\x7b\"Id\":\"" ++ uuidStr ++ "\",\"Data\":\x7b\"Cmd\":" ++ toString command ++
        ",\"Data\":\x7b\x7d,\"RequestID\":\"" ++ uuidStr ++ "\",\"MainboardID\":\"" ++
        mainboardID ++ "\",\"TimeStamp\":" ++ toString timestamp ++ ",\"From\":2\x7d\x7d" := by
  unfold jsonPayload
  apply String.ext
  simp [String.data_append]

/-- The request identifier has no dash. -/
theorem requestId_no_dash (uuid : String) : '-' ∉ (requestId uuid).data := by
  unfold requestId
  simp [List.mem_filter]

/-- The request identifier of a canonical 8-4-4-4-12 identifier is its 32
characters other than the dashes. -/
theorem requestId_canonical (uuid : String) (a b c d e : List Char)
    (hu : uuid.data = a ++ '-' :: (b ++ '-' :: (c ++ '-' :: (d ++ '-' :: e))))
    (ha : '-' ∉ a) (hb : '-' ∉ b) (hc : '-' ∉ c) (hd : '-' ∉ d) (he : '-' ∉ e) :
    (requestId uuid).data = a ++ (b ++ (c ++ (d ++ e))) := by
  have hf : ∀ l : List Char, '-' ∉ l → l.filter (fun c => c != '-') = l := by
    intro l hl
    rw [List.filter_eq_self]
    intro x hx
    have : x ≠ '-' := fun h => hl (h ▸ hx)
    simpa using this
  unfold requestId
  simp only [hu, List.filter_append, List.filter_cons, hf a ha, hf b hb, hf c hc, hf d hd,
    hf e he]
  simp

end ElegooCC

/-! ### The movement monitor -/

/-- Unsigned subtraction is ordinary subtraction when nothing wraps. -/
theorem usub_eq_sub (a b : Nat) (hba : b ≤ a) (ha : a < WORD) : usub a b = a - b := by
  unfold usub
  unfold WORD at *
  have hb : b < 2 ^ 32 := lt_of_le_of_lt hba ha
  rw [Nat.mod_eq_of_lt ha, Nat.mod_eq_of_lt hb]
  norm_num at *
  omega

namespace ElegooCC

/-- One tick of the movement monitor, with no diagnostic override and timeout
`T`: the reading and the change time are tracked, and the stopped flag says
whether the reading has been unchanged for `T`. -/
theorem checkFilamentMovement_step (e : Env) (s : ElegooCC) (T tl : Nat) (hT : 0 < T)
    (htest : s.testMovementStopActive = false)
    (hT2 : toULong (if s.currentZ.belowTenth then e.settings.first_layer_timeout
      else e.settings.timeout) = T)
    (hlc : s.lastChangeTime ≤ tl) (hle : tl ≤ e.millis) (hr : e.millis < WORD)
    (hinv : s.filamentStopped = true ↔ tl - s.lastChangeTime ≥ T) :
    (checkFilamentMovement e e.millis s).lastMovementValue = e.movementPin ∧
    (checkFilamentMovement e e.millis s).lastChangeTime =
      (if e.movementPin ≠ s.lastMovementValue then e.millis else s.lastChangeTime) ∧
    (checkFilamentMovement e e.millis s).lastChangeTime ≤ e.millis ∧
    ((checkFilamentMovement e e.millis s).filamentStopped = true ↔
      e.millis - (checkFilamentMovement e e.millis s).lastChangeTime ≥ T) ∧
    (e.movementPin ≠ s.lastMovementValue →
      (checkFilamentMovement e e.millis s).filamentStopped = false) ∧
    (checkFilamentMovement e e.millis s).testMovementStopActive = false ∧
    (checkFilamentMovement e e.millis s).currentZ = s.currentZ := by
  have hu : usub e.millis s.lastChangeTime = e.millis - s.lastChangeTime :=
    usub_eq_sub _ _ (le_trans hlc hle) hr
  unfold checkFilamentMovement
  simp only [htest, Bool.false_and, Bool.false_eq_true, if_false, hT2, hu]
  by_cases hch : e.movementPin = s.lastMovementValue
  · cases hst : s.filamentStopped
    · rw [hst] at hinv
      by_cases hto : e.millis - s.lastChangeTime ≥ T
      · split_ifs <;> simp_all <;> omega
      · split_ifs <;> simp_all <;> omega
    · rw [hst] at hinv
      have h1 : tl - s.lastChangeTime ≥ T := hinv.1 rfl
      split_ifs <;> simp_all <;> omega
  · split_ifs <;> simp_all <;> omega

end ElegooCC

theorem lastMillis_append_singleton (ticks : List Env) (e : Env) (t0 : Nat) :
    lastMillis (ticks ++ [e]) t0 = e.millis := by
  induction ticks generalizing t0 with
  | nil => rfl
  | cons x rest ih => exact ih x.millis

/-- The most recent change after one more tick. -/
theorem specLastChangeTime_append_singleton (ticks : List Env) (e : Env) (prev : Int) (t0 : Nat) :
    specLastChangeTime (ticks ++ [e]) prev t0 =
      if e.movementPin ≠ lastReading ticks prev then e.millis else specLastChangeTime ticks prev t0 := by
  induction ticks generalizing prev t0 with
  | nil => rfl
  | cons x rest ih => exact ih x.movementPin _

/-- Along a run of the movement monitor with a non-decreasing clock and a
constant positive timeout, the monitor tracks the last reading and the time of
the last change, and the stopped flag says whether the reading has been
unchanged for the timeout. -/
theorem runMovement_tracks (T : Nat) (hT : 0 < T) (z : ZValue) :
    ∀ (ticks : List Env) (s : ElegooCC) (tl : Nat),
      s.testMovementStopActive = false → s.currentZ = z →
      s.lastChangeTime ≤ tl →
      (s.filamentStopped = true ↔ tl - s.lastChangeTime ≥ T) →
      (∀ x ∈ ticks, toULong (if z.belowTenth then x.settings.first_layer_timeout
        else x.settings.timeout) = T) →
      (∀ x ∈ ticks, x.millis < WORD) →
      List.Chain (fun a b => a ≤ b) tl (ticks.map Env.millis) →
      (runMovement ticks s).lastMovementValue = lastReading ticks s.lastMovementValue ∧
      (runMovement ticks s).lastChangeTime =
        specLastChangeTime ticks s.lastMovementValue s.lastChangeTime ∧
      ((runMovement ticks s).filamentStopped = true ↔
        lastMillis ticks tl - (runMovement ticks s).lastChangeTime ≥ T) := by
  intro ticks
  induction ticks with
  | nil =>
    intro s tl _ _ _ hinv _ _ _
    exact ⟨rfl, rfl, hinv⟩
  | cons e rest ih =>
    intro s tl htest hz hlc hinv hto hr hchain
    rw [List.map_cons, List.chain_cons] at hchain
    have hstep := ElegooCC.checkFilamentMovement_step e s T tl hT htest
      (by rw [hz]; exact hto e (List.mem_cons_self _ _)) hlc hchain.1
      (hr e (List.mem_cons_self _ _)) hinv
    obtain ⟨h1, h2, h3, h4, -, h6, h7⟩ := hstep
    have hrec := ih (ElegooCC.checkFilamentMovement e e.millis s) e.millis h6 (h7.trans hz) h3 h4
      (fun x hx => hto x (List.mem_cons_of_mem _ hx))
      (fun x hx => hr x (List.mem_cons_of_mem _ hx)) hchain.2
    have hrun : runMovement (e :: rest) s =
        runMovement rest (ElegooCC.checkFilamentMovement e e.millis s) := rfl
    rw [hrun]
    obtain ⟨r1, r2, r3⟩ := hrec
    refine ⟨?_, ?_, ?_⟩
    · rw [r1, h1]
      rfl
    · rw [r2, h1, h2]
      rfl
    · rw [r3]
      rfl

namespace ElegooCC

/-! ### The stalled-filament tick -/

end ElegooCC

namespace ElegooCC

/-! ### Status frames -/

/-- The first two blocks of `handleStatus` touch only the mask and the height. -/
theorem beforePrintInfo_frame (st : StatusObj) (s : ElegooCC) :
    beforePrintInfo st s =
      { s with
        machineStatusMask := (beforePrintInfo st s).machineStatusMask
        currentZ := (beforePrintInfo st s).currentZ } := by
  unfold beforePrintInfo parseCurrentZ setMachineStatuses
  cases st.CurrentStatus <;> cases st.CurrenCoord <;> simp only [] <;> split_ifs <;> rfl

/-- The state after the `PrintInfo` block of `handleStatus`. -/
theorem handleStatus_tail (env : Env) (st : StatusObj) (mb : String) (s : ElegooCC) :
    handleStatus env st mb s =
      { (match st.PrintInfo with
          | some printInfo => handlePrintInfo env printInfo (beforePrintInfo st s)
          | none => beforePrintInfo st s) with
        mainboardID := (handleStatus env st mb s).mainboardID } := by
  unfold handleStatus beforePrintInfo
  simp only []
  split_ifs <;> rfl

/-- The mainboard capture at the end of `handleStatus`. -/
theorem handleStatus_mainboardID (env : Env) (st : StatusObj) (mb : String) (s : ElegooCC) :
    (handleStatus env st mb s).mainboardID =
      if s.mainboardID.isEmpty && !mb.isEmpty then mb else s.mainboardID := by
  have hb := congrArg ElegooCC.mainboardID (beforePrintInfo_frame st s)
  have hb2 : (beforePrintInfo st s).mainboardID = s.mainboardID := hb
  have h3 : (match st.PrintInfo with
      | some printInfo => handlePrintInfo env printInfo (beforePrintInfo st s)
      | none => beforePrintInfo st s).mainboardID = s.mainboardID := by
    cases st.PrintInfo with
    | none => exact hb2
    | some p =>
      have : (handlePrintInfo env p (beforePrintInfo st s)).mainboardID
          = (beforePrintInfo st s).mainboardID := by
        unfold handlePrintInfo resetPauseState
        simp only []
        split_ifs <;> rfl
      exact this.trans hb2
  have hu : handleStatus env st mb s =
      (if (match st.PrintInfo with
          | some printInfo => handlePrintInfo env printInfo (beforePrintInfo st s)
          | none => beforePrintInfo st s).mainboardID.isEmpty && !mb.isEmpty then
        { (match st.PrintInfo with
          | some printInfo => handlePrintInfo env printInfo (beforePrintInfo st s)
          | none => beforePrintInfo st s) with mainboardID := mb }
      else (match st.PrintInfo with
          | some printInfo => handlePrintInfo env printInfo (beforePrintInfo st s)
          | none => beforePrintInfo st s)) := by
    unfold handleStatus beforePrintInfo
    rfl
  rw [hu, h3]
  split_ifs
  · rfl
  · exact h3

/-- The `PrintInfo` block, case by case. -/
theorem handlePrintInfo_eq (env : Env) (p : PrintInfoObj) (u : ElegooCC) :
    handlePrintInfo env p u =
      { u with
        startedAt := (if p.Status.getD SDCP_PRINT_STATUS_IDLE ≠ u.printStatus ∧
            p.Status.getD SDCP_PRINT_STATUS_IDLE = SDCP_PRINT_STATUS_PRINTING
          then env.millis else u.startedAt)
        pauseCommandSent := (if p.Status.getD SDCP_PRINT_STATUS_IDLE ≠ u.printStatus ∧
            (p.Status.getD SDCP_PRINT_STATUS_IDLE = SDCP_PRINT_STATUS_PRINTING ∨
              p.Status.getD SDCP_PRINT_STATUS_IDLE = SDCP_PRINT_STATUS_PAUSED)
          then false else u.pauseCommandSent)
        pauseCommandSentTime := (if p.Status.getD SDCP_PRINT_STATUS_IDLE ≠ u.printStatus ∧
            (p.Status.getD SDCP_PRINT_STATUS_IDLE = SDCP_PRINT_STATUS_PRINTING ∨
              p.Status.getD SDCP_PRINT_STATUS_IDLE = SDCP_PRINT_STATUS_PAUSED)
          then 0 else u.pauseCommandSentTime)
        pauseRetryCount := (if p.Status.getD SDCP_PRINT_STATUS_IDLE ≠ u.printStatus ∧
            (p.Status.getD SDCP_PRINT_STATUS_IDLE = SDCP_PRINT_STATUS_PRINTING ∨
              p.Status.getD SDCP_PRINT_STATUS_IDLE = SDCP_PRINT_STATUS_PAUSED)
          then 0 else u.pauseRetryCount)
        printStatus := p.Status.getD SDCP_PRINT_STATUS_IDLE
        currentLayer := p.CurrentLayer.getD 0
        totalLayer := p.TotalLayer.getD 0
        progress := p.Progress.getD 0
        currentTicks := p.CurrentTicks.getD 0
        totalTicks := p.TotalTicks.getD 0
        PrintSpeedPct := p.PrintSpeedPct.getD 0 } := by
  unfold handlePrintInfo resetPauseState
  simp only [bne_iff_ne, beq_iff_eq, ne_eq]
  split_ifs <;> first | rfl | (exfalso; simp_all)

end ElegooCC

namespace ElegooCC

/-- A status frame with `PrintInfo`: the `PrintInfo` block runs on the state
left by the first two blocks. -/
theorem handleStatus_of_printInfo (env : Env) (st : StatusObj) (mb : String) (s : ElegooCC)
    (p : PrintInfoObj) (hp : st.PrintInfo = some p) :
    handleStatus env st mb s =
      { handlePrintInfo env p (beforePrintInfo st s) with
        mainboardID := (handleStatus env st mb s).mainboardID } := by
  have h := handleStatus_tail env st mb s
  rw [hp] at h
  exact h

/-- A status frame without `PrintInfo`. -/
theorem handleStatus_of_no_printInfo (env : Env) (st : StatusObj) (mb : String) (s : ElegooCC)
    (hp : st.PrintInfo = none) :
    handleStatus env st mb s =
      { beforePrintInfo st s with
        mainboardID := (handleStatus env st mb s).mainboardID } := by
  have h := handleStatus_tail env st mb s
  rw [hp] at h
  exact h

end ElegooCC

namespace ElegooCC

/-! ### The mainboard identifier -/

theorem handleCommandResponse_mainboardID (data : DataObj) (s : ElegooCC) :
    (handleCommandResponse data s).mainboardID =
      if (data.Cmd.isSome && data.RequestID.isSome) &&
          (s.mainboardID.isEmpty && !data.MainboardID.isEmpty) then data.MainboardID
      else s.mainboardID := by
  unfold handleCommandResponse
  cases data.Cmd <;> cases data.RequestID <;> simp only [Option.isSome] <;>
    split_ifs <;> simp_all

theorem sendCommand_mainboardID (env : Env) (c : Int) (w : Bool) (s : ElegooCC) :
    (sendCommand env c w s).mainboardID = s.mainboardID := by
  have h := congrArg ElegooCC.mainboardID (sendCommand_frame env c w s)
  exact h

theorem pausePrint_mainboardID (env : Env) (s : ElegooCC) :
    (pausePrint env s).mainboardID = s.mainboardID := by
  have h := congrArg ElegooCC.mainboardID (pausePrint_frame env s)
  exact h

theorem connect_mainboardID (env : Env) (s : ElegooCC) :
    (connect env s).mainboardID = s.mainboardID := by
  unfold connect transportEvent webSocketEvent resetPauseState
  simp only []
  split_ifs <;> rfl

theorem afterSensorChecks_mainboardID (env : Env) (s : ElegooCC) :
    (afterSensorChecks env s).mainboardID = s.mainboardID := by
  unfold afterSensorChecks checkFilamentRunout
  simp only []
  have h1 := congrArg ElegooCC.mainboardID (checkFilamentMovement_frame env env.millis
    (ackTimeoutAndPing env.millis (if s.ipAddress != env.settings.elegooip then connect env s else s)))
  have h2 := congrArg ElegooCC.mainboardID (ackTimeoutAndPing_frame env.millis
    (if s.ipAddress != env.settings.elegooip then connect env s else s))
  have h3 : (if s.ipAddress != env.settings.elegooip then connect env s else s).mainboardID
      = s.mainboardID := by
    split_ifs
    · exact connect_mainboardID env s
    · rfl
  exact h1.trans (h2.trans h3)

theorem loop_mainboardID (env : Env) (s : ElegooCC) :
    (loop env s).mainboardID = s.mainboardID := by
  have hb : (beforePauseDecision env s).mainboardID = s.mainboardID :=
    (checkPauseVerification_mainboardID _ _ _).trans (afterSensorChecks_mainboardID env s)
  unfold loop
  simp only []
  split_ifs
  · exact (pausePrint_mainboardID _ _).trans hb
  · exact hb

/-- A known mainboard identifier survives every inbound event. -/
theorem webSocketEvent_mainboardID (env : Env) (type : WStype_t) (payload : Option JsonDocument)
    (s : ElegooCC) (h : s.mainboardID ≠ "") :
    (webSocketEvent env type payload s).mainboardID = s.mainboardID := by
  have hne : s.mainboardID.isEmpty = false := by
    cases hb : s.mainboardID.isEmpty
    · rfl
    · exact absurd ((String.isEmpty_iff _).1 hb) h
  unfold webSocketEvent
  cases type
  case WStype_CONNECTED => exact sendCommand_mainboardID _ _ _ _
  case WStype_TEXT =>
    cases payload with
    | none => rfl
    | some doc =>
      simp only []
      split
      · rw [handleCommandResponse_mainboardID, hne]; simp
      · rw [handleStatus_mainboardID, hne]; simp
      · rfl
  all_goals rfl

theorem transportEvent_mainboardID (env : Env) (type : WStype_t)
    (payload : Option JsonDocument) (s : ElegooCC) (h : s.mainboardID ≠ "") :
    (transportEvent env type payload s).mainboardID = s.mainboardID := by
  unfold transportEvent
  exact webSocketEvent_mainboardID env type payload _ h

end ElegooCC

/-- A known mainboard identifier survives every call. -/
theorem Step.apply_mainboardID (step : Step) (s : ElegooCC) (h : s.mainboardID ≠ "") :
    (step.apply s).mainboardID = s.mainboardID := by
  cases step with
  | setup env =>
    show (ElegooCC.setup env s).mainboardID = s.mainboardID
    unfold ElegooCC.setup
    simp only []
    split_ifs
    · exact ElegooCC.connect_mainboardID env s
    · rfl
  | tick env => exact ElegooCC.loop_mainboardID env s
  | event env type payload => exact ElegooCC.transportEvent_mainboardID env type payload s h
  | pausePrint env => exact ElegooCC.pausePrint_mainboardID env s
  | continuePrint env => exact ElegooCC.sendCommand_mainboardID env _ _ s
  | triggerTestMovementStop env => rfl

/-- A known mainboard identifier survives every sequence of calls. -/
theorem run_mainboardID (steps : List Step) :
    ∀ s : ElegooCC, s.mainboardID ≠ "" → (run steps s).mainboardID = s.mainboardID := by
  induction steps with
  | nil => intro s _; rfl
  | cons step rest ih =>
    intro s h
    have h1 := Step.apply_mainboardID step s h
    have h2 : (step.apply s).mainboardID ≠ "" := by rw [h1]; exact h
    have h3 := ih (step.apply s) h2
    exact h3.trans h1

/-! ### The movement monitor: override, timeout selection, latch -/

/-- For a finite value the test `currentZ < 0.1` is the comparison of the exact
value with one tenth. -/
theorem ZValue.belowTenth_iff (z : ZValue) (hz : z.cls = FloatClass.finite) :
    z.belowTenth = true ↔ (z.num : ℚ) / (10 : ℚ) ^ z.scale < 1 / 10 := by
  unfold ZValue.belowTenth
  rw [hz]
  simp only []
  rw [decide_eq_true_iff]
  have hpos : (0 : ℚ) < (10 : ℚ) ^ z.scale := by positivity
  rw [div_lt_div_iff₀ hpos (by norm_num : (0 : ℚ) < 10)]
  constructor
  · intro h
    have h2 : ((z.num * 10 : Int) : ℚ) < ((10 ^ z.scale : Int) : ℚ) := by exact_mod_cast h
    push_cast at h2
    linarith
  · intro h
    have h2 : ((z.num * 10 : Int) : ℚ) < ((10 ^ z.scale : Int) : ℚ) := by
      push_cast
      linarith
    exact_mod_cast h2

namespace ElegooCC

/-- With the override active and its window not over, the movement check only
forces the stopped flag. -/
theorem checkFilamentMovement_override (env : Env) (ct : Nat) (s : ElegooCC)
    (hact : s.testMovementStopActive = true)
    (hlt : usub ct s.testMovementStopStartTime < 600000) :
    checkFilamentMovement env ct s = { s with filamentStopped := true } := by
  have hn : ¬ (usub ct s.testMovementStopStartTime ≥ 600000) := not_le.mpr hlt
  have hc : (s.testMovementStopActive &&
      !decide (usub ct s.testMovementStopStartTime ≥ 600000)) = true := by
    rw [hact]; simp [hn]
  unfold checkFilamentMovement
  rw [if_pos hc]
  rcases Bool.eq_false_or_eq_true s.filamentStopped with hst | hst
  · have e : s = { s with filamentStopped := true } := by
      cases s; simp_all
    rw [← e, hst]
    rfl
  · rw [hst]
    rfl

/-- With the override active and its window over, the movement check drops the
override and runs the normal rule. -/
theorem checkFilamentMovement_override_expired (env : Env) (ct : Nat) (s : ElegooCC)
    (hge : usub ct s.testMovementStopStartTime ≥ 600000) :
    checkFilamentMovement env ct s =
      checkFilamentMovement env ct { s with testMovementStopActive := false } := by
  rcases Bool.eq_false_or_eq_true s.testMovementStopActive with hact | hact
  · have hc : ¬ ((s.testMovementStopActive &&
        !decide (usub ct s.testMovementStopStartTime ≥ 600000)) = true) := by
      rw [hact]; simp [hge]
    have hl : checkFilamentMovement env ct s =
        checkFilamentMovement env ct
          (if s.testMovementStopActive then { s with testMovementStopActive := false }
           else s) := by
      rw [hact]
      unfold checkFilamentMovement
      simp only [hact, hge, decide_True, Bool.not_true, Bool.and_false, Bool.false_and,
        Bool.false_eq_true, if_false, if_true]
    rw [hl, hact]
    rfl
  · have e : s = { s with testMovementStopActive := false } := by
      cases s; simp_all
    rw [← e]

/-- The normal rule of the movement check, for a state with no override, in
terms of `movementTimeout`. -/
theorem checkFilamentMovement_normal (env : Env) (ct : Nat) (s : ElegooCC)
    (hact : s.testMovementStopActive = false) :
    (checkFilamentMovement env ct s).testMovementStopActive = false ∧
    (checkFilamentMovement env ct s).lastMovementValue = env.movementPin ∧
    (checkFilamentMovement env ct s).lastChangeTime =
      (if env.movementPin ≠ s.lastMovementValue then ct else s.lastChangeTime) ∧
    (checkFilamentMovement env ct s).filamentStopped =
      (if env.movementPin ≠ s.lastMovementValue then false
       else if usub ct s.lastChangeTime ≥ toULong (movementTimeout env s) then true
       else s.filamentStopped) := by
  unfold checkFilamentMovement movementTimeout
  simp only [hact, Bool.false_and, Bool.false_eq_true, if_false]
  by_cases hch : env.movementPin = s.lastMovementValue
  · cases hst : s.filamentStopped <;> split_ifs <;> simp_all
  · split_ifs <;> simp_all

/-- Once set, the stopped flag survives a tick with an unchanged reading. -/
theorem checkFilamentMovement_latched (env : Env) (ct : Nat) (s : ElegooCC)
    (hst : s.filamentStopped = true) (hpin : env.movementPin = s.lastMovementValue) :
    (checkFilamentMovement env ct s).filamentStopped = true ∧
    (checkFilamentMovement env ct s).lastMovementValue = s.lastMovementValue := by
  unfold checkFilamentMovement
  simp only [hpin, bne_self_eq_false]
  split_ifs <;> simp_all

end ElegooCC

/-- Once set, the stopped flag survives any number of ticks with the reading
unchanged. -/
theorem runMovement_latched :
    ∀ (ticks : List Env) (s : ElegooCC), s.filamentStopped = true →
      (∀ e ∈ ticks, e.movementPin = s.lastMovementValue) →
      (runMovement ticks s).filamentStopped = true := by
  intro ticks
  induction ticks with
  | nil => intro s h _; exact h
  | cons e rest ih =>
    intro s h hall
    have h1 := ElegooCC.checkFilamentMovement_latched e e.millis s h
      (hall e (List.mem_cons_self _ _))
    have h2 := ih (ElegooCC.checkFilamentMovement e e.millis s) h1.1 (by
      intro x hx
      rw [h1.2]
      exact hall x (List.mem_cons_of_mem _ hx))
    exact h2

namespace ElegooCC

/-! ### Telemetry records of a tick -/

theorem connect_pauseAttemptData (env : Env) (s : ElegooCC) :
    (connect env s).pauseAttemptData = s.pauseAttemptData := by
  unfold connect transportEvent webSocketEvent resetPauseState
  simp only []
  split_ifs <;> rfl

theorem afterSensorChecks_pauseAttemptData (env : Env) (s : ElegooCC) :
    (afterSensorChecks env s).pauseAttemptData = s.pauseAttemptData := by
  unfold afterSensorChecks checkFilamentRunout
  simp only []
  have h1 := congrArg ElegooCC.pauseAttemptData (checkFilamentMovement_frame env env.millis
    (ackTimeoutAndPing env.millis (if s.ipAddress != env.settings.elegooip then connect env s else s)))
  have h2 := congrArg ElegooCC.pauseAttemptData (ackTimeoutAndPing_frame env.millis
    (if s.ipAddress != env.settings.elegooip then connect env s else s))
  have h3 : (if s.ipAddress != env.settings.elegooip then connect env s else s).pauseAttemptData
      = s.pauseAttemptData := by
    split_ifs
    · exact connect_pauseAttemptData env s
    · rfl
  exact h1.trans (h2.trans h3)

/-- The records `checkPauseVerification` appends: at most one, of kind success,
retry or max-exceeded. -/
theorem checkPauseVerification_records (env : Env) (ct : Nat) (s : ElegooCC) :
    ∃ added : List PauseAttemptPoint,
      (checkPauseVerification env ct s).pauseAttemptData
        = s.pauseAttemptData.map (fun l => l ++ added) ∧
      added.length ≤ 1 ∧
      ∀ p ∈ added, p.type = PAUSE_ATTEMPT_SUCCESS ∨ p.type = PAUSE_ATTEMPT_RETRY ∨
        p.type = PAUSE_ATTEMPT_MAX_EXCEEDED := by
  have hid : s.pauseAttemptData = s.pauseAttemptData.map (fun l => l ++ []) := by
    cases s.pauseAttemptData <;> simp
  unfold checkPauseVerification resetPauseState addAttempt
  split_ifs
  · exact ⟨[], hid, by simp, by simp⟩
  · exact ⟨[⟨env.getTime, PAUSE_ATTEMPT_SUCCESS, s.pauseRetryCount, s.printStatus⟩], rfl,
      by simp, by simp⟩
  · exact ⟨[⟨env.getTime, PAUSE_ATTEMPT_RETRY, s.pauseRetryCount + 1, s.printStatus⟩], rfl,
      by simp, by simp⟩
  · exact ⟨[⟨env.getTime, PAUSE_ATTEMPT_MAX_EXCEEDED, s.pauseRetryCount, s.printStatus⟩], rfl,
      by simp, by simp⟩
  · exact ⟨[], hid, by simp, by simp⟩

/-- Whatever the transport does, `pausePrint` on a printer that is not paused,
pausing or idle records the initial attempt and enters verification. -/
theorem pausePrint_enters_verification (env : Env) (s : ElegooCC)
    (h1 : s.printStatus ≠ SDCP_PRINT_STATUS_PAUSED)
    (h2 : s.printStatus ≠ SDCP_PRINT_STATUS_PAUSING)
    (h3 : s.printStatus ≠ SDCP_PRINT_STATUS_IDLE) :
    (pausePrint env s).pauseAttemptData = s.pauseAttemptData.map
        (fun l => l ++ [⟨env.getTime, PAUSE_ATTEMPT_INITIAL, 0, s.printStatus⟩]) ∧
    (pausePrint env s).pauseCommandSent = true ∧
    (pausePrint env s).pauseCommandSentTime = env.millisAtPause ∧
    (pausePrint env s).pauseRetryCount = 0 := by
  by_cases hb : s.webSocketConnected = false ∨ s.waitingForAck = true
  · rw [pausePrint_eq_blocked env s hb h1 h2 h3]
    exact ⟨rfl, rfl, rfl, rfl⟩
  · have hc : s.webSocketConnected = true := by
      cases h : s.webSocketConnected
      · exact absurd (Or.inl h) hb
      · rfl
    have hw : s.waitingForAck = false := by
      cases h : s.waitingForAck
      · rfl
      · exact absurd (Or.inr h) hb
    rw [pausePrint_eq_dispatch env s hc hw h1 h2 h3]
    exact ⟨rfl, rfl, rfl, rfl⟩

/-- The message `checkFilamentRunout` logs on an edge names the state before
the edge. -/
theorem checkFilamentRunoutLog_edge (env : Env) (s : ElegooCC) :
    (s.filamentRunout = false → env.runoutPin = 0 →
      checkFilamentRunoutLog env s = some "Filament has been detected") ∧
    (s.filamentRunout = true → env.runoutPin ≠ 0 →
      checkFilamentRunoutLog env s = some "Filament has run out") := by
  unfold checkFilamentRunoutLog
  constructor
  · intro h1 h2
    simp [h1, h2]
  · intro h1 h2
    simp [h1, h2]

end ElegooCC

/-! ### The coordinate string -/

theorem indexOf?_first (ch : Char) :
    ∀ (a r : List Char), ch ∉ a → (a ++ ch :: r).indexOf? ch = some a.length := by
  intro a
  induction a with
  | nil => intro r _; simp [List.indexOf?_cons]
  | cons x xs ih =>
    intro r h
    have hx : x ≠ ch := fun e => h (by rw [e]; exact List.mem_cons_self _ _)
    have hxs : ch ∉ xs := fun e => h (List.mem_cons_of_mem _ e)
    rw [List.cons_append, List.indexOf?_cons, ih r hxs]
    simp [hx]

theorem indexOf?_absent (ch : Char) (cs : List Char) (h : ch ∉ cs) : cs.indexOf? ch = none := by
  rw [List.indexOf?_eq_none_iff]
  intro x hx hxe
  have : x = ch := by simpa using hxe
  exact h (this ▸ hx)

/-- The index of the first occurrence. -/
theorem indexOf_first (ch : Char) (a r : List Char) (h : ch ∉ a) :
    indexOf (a ++ ch :: r) ch 0 = (a.length : Int) := by
  unfold indexOf
  rw [List.drop_zero, indexOf?_first ch a r h]
  simp

/-- The index of the first occurrence after a prefix. -/
theorem indexOf_after (ch : Char) (p a r : List Char) (h : ch ∉ a) :
    indexOf (p ++ a ++ ch :: r) ch p.length = ((p.length + a.length : Nat) : Int) := by
  unfold indexOf
  rw [List.append_assoc, List.drop_left, indexOf?_first ch a r h]

theorem indexOf_absent (ch : Char) (cs : List Char) (start : Nat) (h : ch ∉ cs.drop start) :
    indexOf cs ch start = -1 := by
  unfold indexOf
  rw [indexOf?_absent ch _ h]

/-- A list containing a character splits at its first occurrence. -/
theorem split_at_first (ch : Char) :
    ∀ cs : List Char, ch ∈ cs → ∃ a r, cs = a ++ ch :: r ∧ ch ∉ a := by
  intro cs
  induction cs with
  | nil => intro h; exact absurd h (List.not_mem_nil _)
  | cons x xs ih =>
    intro h
    by_cases hx : x = ch
    · exact ⟨[], xs, by rw [hx]; rfl, List.not_mem_nil _⟩
    · have hxs : ch ∈ xs := by
        rcases List.mem_cons.1 h with e | e
        · exact absurd e.symm hx
        · exact e
      obtain ⟨a, r, he, ha⟩ := ih hxs
      refine ⟨x :: a, r, by rw [he]; rfl, ?_⟩
      intro hm
      rcases List.mem_cons.1 hm with e | e
      · exact hx e.symm
      · exact ha e

/-! ### The numeral stops at a comma -/

theorem takeDigits_append_comma (r : List Char) :
    ∀ (xs : List Char) (acc n : Nat),
      takeDigits (xs ++ ',' :: r) acc n =
        ((takeDigits xs acc n).1, (takeDigits xs acc n).2.1,
          (takeDigits xs acc n).2.2 ++ ',' :: r) := by
  intro xs
  induction xs with
  | nil =>
    intro acc n
    have hd : (',' : Char).isDigit = false := by decide
    simp [takeDigits, hd]
  | cons c cs ih =>
    intro acc n
    by_cases hc : c.isDigit = true
    · simp only [List.cons_append, takeDigits, hc, if_true]
      exact ih _ _
    · simp [takeDigits, hc]

theorem takeHexDigits_append_comma (r : List Char) :
    ∀ (xs : List Char) (acc n : Nat),
      takeHexDigits (xs ++ ',' :: r) acc n =
        ((takeHexDigits xs acc n).1, (takeHexDigits xs acc n).2.1,
          (takeHexDigits xs acc n).2.2 ++ ',' :: r) := by
  intro xs
  induction xs with
  | nil =>
    intro acc n
    have hd : hexDigit ',' = none := by decide
    simp [takeHexDigits, hd]
  | cons c cs ih =>
    intro acc n
    cases hc : hexDigit c with
    | none => simp [takeHexDigits, hc]
    | some d =>
      simp only [List.cons_append, takeHexDigits, hc]
      exact ih _ _

/-- The exponent part when the character after the mark is not a sign. -/
theorem takeExponent_unsigned (lower upper c d : Char) (ds : List Char)
    (hc : c = lower ∨ c = upper) (h1 : d ≠ '-') (h2 : d ≠ '+') :
    takeExponent lower upper (c :: d :: ds)
      = (if (takeDigits (d :: ds) 0 0).2.1 = 0 then 0 else ((takeDigits (d :: ds) 0 0).1 : Int)) := by
  simp only [takeExponent, hc, if_true]
  split
  · rename_i heq; exact absurd (List.cons.inj heq).1 h1
  · rename_i heq; exact absurd (List.cons.inj heq).1 h2
  · rfl

theorem takeExponent_append_comma (lower upper : Char) (hl : lower ≠ ',') (hu : upper ≠ ',')
    (r : List Char) (xs : List Char) :
    takeExponent lower upper (xs ++ ',' :: r) = takeExponent lower upper xs := by
  have hd : (',' : Char).isDigit = false := by decide
  cases xs with
  | nil =>
    have : ¬ (',' = lower ∨ ',' = upper) := by
      rintro (h | h)
      · exact hl h.symm
      · exact hu h.symm
    simp [takeExponent, this]
  | cons c cs =>
    by_cases hc : c = lower ∨ c = upper
    · cases cs with
      | nil => simp [takeExponent, hc, takeDigits, hd]
      | cons d ds =>
        by_cases h1 : d = '-'
        · subst h1
          simp only [List.cons_append, takeExponent, hc, if_true, takeDigits_append_comma]
        · by_cases h2 : d = '+'
          · subst h2
            simp only [List.cons_append, takeExponent, hc, if_true, takeDigits_append_comma]
          · rw [List.cons_append, List.cons_append,
              takeExponent_unsigned lower upper c d _ hc h1 h2,
              takeExponent_unsigned lower upper c d _ hc h1 h2]
            have := takeDigits_append_comma r (d :: ds) 0 0
            rw [List.cons_append] at this
            simp only [this]
    · simp [takeExponent, hc]

theorem dropWhile_append_comma (r : List Char) :
    ∀ xs : List Char, (xs ++ ',' :: r).dropWhile isspace
      = xs.dropWhile isspace ++ ',' :: r := by
  intro xs
  induction xs with
  | nil =>
    have hw : isspace ',' = false := by decide
    simp [List.dropWhile, hw]
  | cons c cs ih =>
    by_cases hc : isspace c = true
    · simp only [List.cons_append, List.dropWhile, hc]
      exact ih
    · simp [List.dropWhile, hc]

theorem startsWithWord_append_comma (r : List Char) :
    ∀ (w : List Char), ',' ∉ w → ∀ xs : List Char,
      startsWithWord w (xs ++ ',' :: r) = startsWithWord w xs := by
  intro w
  induction w with
  | nil => intro _ xs; cases xs <;> rfl
  | cons a ws ih =>
    intro hw xs
    have ha : a ≠ ',' := fun e => hw (by rw [e]; exact List.mem_cons_self _ _)
    have hws : ',' ∉ ws := fun e => hw (List.mem_cons_of_mem _ e)
    cases xs with
    | nil =>
      have hl : (',' : Char).toLower = ',' := by decide
      simp [startsWithWord, hl, ha.symm]
    | cons c cs =>
      simp only [List.cons_append, startsWithWord]
      exact congrArg (fun t => decide (c.toLower = a) && t) (ih hws cs)

theorem decimalNumeral_append_comma (r xs : List Char) :
    decimalNumeral (xs ++ ',' :: r) = decimalNumeral xs := by
  unfold decimalNumeral
  simp only [takeDigits_append_comma]
  rcases hrest : (takeDigits xs 0 0).2.2 with _ | ⟨c, q⟩
  · simp only [List.nil_append]
    rfl
  · by_cases hc : c = '.'
    · subst hc
      simp only [List.cons_append, takeDigits_append_comma,
        takeExponent_append_comma 'e' 'E' (by decide) (by decide)]
    · have e1 : ∀ (A : Nat) (t : List Char),
          (match c :: t with
            | '.' :: r2 => takeDigits r2 A 0
            | r2 => (A, 0, r2)) = (A, 0, c :: t) := by
        intro A t
        split
        · rename_i heq; exact absurd (List.cons.inj heq).1 hc
        · rfl
      simp only [List.cons_append, e1]
      have := takeExponent_append_comma 'e' 'E' (by decide) (by decide) r (c :: q)
      rw [List.cons_append] at this
      simp only [this]

theorem hexBody_append_comma (r xs : List Char) :
    hexBody (xs ++ ',' :: r) = hexBody xs := by
  unfold hexBody
  simp only [takeHexDigits_append_comma]
  rcases hrest : (takeHexDigits xs 0 0).2.2 with _ | ⟨c, q⟩
  · simp only [List.nil_append]
    rfl
  · by_cases hc : c = '.'
    · subst hc
      simp only [List.cons_append, takeHexDigits_append_comma,
        takeExponent_append_comma 'p' 'P' (by decide) (by decide)]
    · have e1 : ∀ (A : Nat) (t : List Char),
          (match c :: t with
            | '.' :: r2 => takeHexDigits r2 A 0
            | r2 => (A, 0, r2)) = (A, 0, c :: t) := by
        intro A t
        split
        · rename_i heq; exact absurd (List.cons.inj heq).1 hc
        · rfl
      simp only [List.cons_append, e1]
      have := takeExponent_append_comma 'p' 'P' (by decide) (by decide) r (c :: q)
      rw [List.cons_append] at this
      simp only [this]

theorem hexNumeral_append_comma (r xs : List Char) :
    hexNumeral (xs ++ ',' :: r) = hexNumeral xs := by
  rcases xs with _ | ⟨c, _ | ⟨x, cs⟩⟩
  · rcases r with _ | ⟨y, r⟩
    · rfl
    · have : ¬ ((',' : Char) = '0' ∧ (y = 'x' ∨ y = 'X')) := fun h => absurd h.1 (by decide)
      simp [hexNumeral, this]
  · have : ¬ (c = '0' ∧ ((',' : Char) = 'x' ∨ (',' : Char) = 'X')) :=
      fun h => absurd h.2 (by decide)
    simp [hexNumeral, this]
  · simp only [List.cons_append, hexNumeral, hexBody_append_comma]

theorem toFloatCore_append_comma (neg : Prop) [Decidable neg] (r xs : List Char) :
    toFloatCore neg (xs ++ ',' :: r) = toFloatCore neg xs := by
  unfold toFloatCore
  rw [startsWithWord_append_comma r _ (by decide), startsWithWord_append_comma r _ (by decide),
    hexNumeral_append_comma, decimalNumeral_append_comma]

theorem toFloat_eq_core (str : String) :
    toFloat str =
      toFloatCore ((str.data.dropWhile isspace).head? = some '-')
        (if (str.data.dropWhile isspace).head? = some '-' ∨
            (str.data.dropWhile isspace).head? = some '+'
         then (str.data.dropWhile isspace).tail
         else str.data.dropWhile isspace) := rfl

/-- The parse of a field does not depend on what follows its closing comma. -/
theorem toFloat_append_comma (f r : List Char) :
    toFloat (String.mk (f ++ ',' :: r)) = toFloat (String.mk f) := by
  rw [toFloat_eq_core, toFloat_eq_core]
  simp only [dropWhile_append_comma]
  rcases hg : f.dropWhile isspace with _ | ⟨c, g⟩
  · simp only [List.nil_append, List.head?_cons, List.head?_nil]
    have h1 : ¬ (some ',' = some '-' ∨ some ',' = some '+') := by decide
    have h2 : ¬ ((none : Option Char) = some '-' ∨ (none : Option Char) = some '+') := by decide
    rw [if_neg h1, if_neg h2]
    have := toFloatCore_append_comma (some ',' = some '-') r []
    rw [List.nil_append] at this
    rw [this]
    rfl
  · simp only [List.cons_append, List.head?_cons, List.tail_cons]
    split_ifs
    · exact toFloatCore_append_comma _ r g
    · exact toFloatCore_append_comma _ r (c :: g)

/-! ### Rounding to a binary format -/

theorem bitLengthAux_spec : ∀ (fuel n : Nat), n ≤ fuel → 0 < n →
    2 ^ (bitLengthAux fuel n - 1) ≤ n ∧ n < 2 ^ bitLengthAux fuel n ∧
      0 < bitLengthAux fuel n := by
  intro fuel
  induction fuel with
  | zero => intro n h1 h2; omega
  | succ k ih =>
    intro n h1 h2
    have hn : n ≠ 0 := by omega
    simp only [bitLengthAux, hn, if_false]
    by_cases h0 : n / 2 = 0
    · have h1n : n = 1 := by omega
      have hz : bitLengthAux k (n / 2) = 0 := by
        rw [h0]
        cases k <;> simp [bitLengthAux]
      rw [hz, h1n]
      decide
    · obtain ⟨i1, i2, i3⟩ := ih (n / 2) (by omega) (by omega)
      refine ⟨?_, ?_, by omega⟩
      · have e : bitLengthAux k (n / 2) + 1 - 1 = (bitLengthAux k (n / 2) - 1) + 1 := by omega
        rw [e, pow_succ]
        omega
      · rw [pow_succ]
        omega

theorem bitLength_spec (n : Nat) (h : 0 < n) :
    2 ^ (bitLength n - 1) ≤ n ∧ n < 2 ^ bitLength n ∧ 0 < bitLength n :=
  bitLengthAux_spec n n (le_refl _) h

theorem shiftFraction_pos (a b : Nat) (e : Int) (hb : 0 < b) : 0 < (shiftFraction a b e).2 := by
  unfold shiftFraction
  split_ifs
  · exact Nat.mul_pos hb (by positivity)
  · exact hb

theorem shiftFraction_value (a b : Nat) (e : Int) (hb : 0 < b) :
    ((shiftFraction a b e).1 : ℚ) / ((shiftFraction a b e).2 : ℚ)
      = (a : ℚ) / (b : ℚ) / (2 : ℚ) ^ e := by
  have hb' : (b : ℚ) ≠ 0 := by exact_mod_cast hb.ne'
  unfold shiftFraction
  split_ifs with h
  · have he : e = ((e.toNat : Nat) : Int) := (Int.toNat_of_nonneg h).symm
    rw [he]
    simp only [Int.toNat_ofNat, zpow_natCast]
    push_cast
    rw [div_div]
  · have he : e = - (((-e).toNat : Nat) : Int) := by
      rw [Int.toNat_of_nonneg (by omega)]; ring
    rw [he]
    simp only [neg_neg, Int.toNat_ofNat, zpow_neg, zpow_natCast]
    push_cast
    field_simp

theorem roundHalfEven_error (a b : Nat) (hb : 0 < b) :
    |((roundHalfEven a b : Nat) : ℚ) - (a : ℚ) / (b : ℚ)| ≤ 1 / 2 := by
  have hb' : (0 : ℚ) < (b : ℚ) := by exact_mod_cast hb
  have hdiv : (a : ℚ) = (b : ℚ) * ((a / b : Nat) : ℚ) + ((a % b : Nat) : ℚ) := by
    exact_mod_cast (Nat.div_add_mod a b).symm
  have hr : (a : ℚ) / (b : ℚ) = ((a / b : Nat) : ℚ) + ((a % b : Nat) : ℚ) / (b : ℚ) := by
    rw [div_eq_iff hb'.ne', add_mul, div_mul_cancel₀ _ hb'.ne']
    linarith
  have hlt : ((a % b : Nat) : ℚ) < (b : ℚ) := by exact_mod_cast Nat.mod_lt a hb
  have h0 : (0 : ℚ) ≤ ((a % b : Nat) : ℚ) := by positivity
  rw [hr, abs_le]
  unfold roundHalfEven
  split_ifs with h1 h2 h3
  · have h1' : (2 : ℚ) * ((a % b : Nat) : ℚ) < (b : ℚ) := by exact_mod_cast h1
    constructor
    · rw [sub_add_cancel_left, neg_le_neg_iff, div_le_iff₀ hb']; linarith
    · rw [sub_add_cancel_left]
      have : (0 : ℚ) ≤ ((a % b : Nat) : ℚ) / (b : ℚ) := by positivity
      linarith
  · have h2' : (b : ℚ) < (2 : ℚ) * ((a % b : Nat) : ℚ) := by exact_mod_cast h2
    have hle : ((a % b : Nat) : ℚ) / (b : ℚ) ≤ 1 := by rw [div_le_iff₀ hb']; linarith
    have hge : 1 / 2 ≤ ((a % b : Nat) : ℚ) / (b : ℚ) := by rw [le_div_iff₀ hb']; linarith
    push_cast
    constructor <;> linarith
  · have e : (2 : ℚ) * ((a % b : Nat) : ℚ) = (b : ℚ) := by
      have : 2 * (a % b) = b := by omega
      exact_mod_cast this
    have hq : ((a % b : Nat) : ℚ) / (b : ℚ) = 1 / 2 := by
      rw [div_eq_iff hb'.ne']; linarith
    rw [hq]
    constructor <;> linarith
  · have e : (2 : ℚ) * ((a % b : Nat) : ℚ) = (b : ℚ) := by
      have : 2 * (a % b) = b := by omega
      exact_mod_cast this
    have hq : ((a % b : Nat) : ℚ) / (b : ℚ) = 1 / 2 := by
      rw [div_eq_iff hb'.ne']; linarith
    rw [hq]
    push_cast
    constructor <;> linarith

/-- On an integer the rounding is exact. -/
theorem roundHalfEven_exact (k b : Nat) (hb : 0 < b) : roundHalfEven (k * b) b = k := by
  unfold roundHalfEven
  have h1 : k * b % b = 0 := Nat.mul_mod_left k b
  have h2 : k * b / b = k := Nat.mul_div_cancel k hb
  rw [h1, h2, if_pos (by omega)]

/-- The rounding stays on the same side of an integer. -/
theorem roundHalfEven_ge (a b n : Nat) (hb : 0 < b) (h : n * b ≤ a) : n ≤ roundHalfEven a b := by
  have hq : n ≤ a / b := (Nat.le_div_iff_mul_le hb).2 h
  unfold roundHalfEven
  split_ifs <;> omega

theorem roundHalfEven_le (a b n : Nat) (hb : 0 < b) (h : a ≤ n * b) : roundHalfEven a b ≤ n := by
  rcases Nat.lt_or_ge a (n * b) with hlt | hge
  · have hq : a / b < n := (Nat.div_lt_iff_lt_mul hb).2 hlt
    unfold roundHalfEven
    split_ifs <;> omega
  · have e : a = n * b := le_antisymm h hge
    rw [e, roundHalfEven_exact n b hb]

theorem shiftFraction_le_iff (a b : Nat) (e : Int) (hb : 0 < b) :
    (shiftFraction a b e).2 ≤ (shiftFraction a b e).1 ↔ (2 : ℚ) ^ e ≤ (a : ℚ) / (b : ℚ) := by
  have hp := shiftFraction_pos a b e hb
  have hv := shiftFraction_value a b e hb
  have hp' : (0 : ℚ) < ((shiftFraction a b e).2 : ℚ) := by exact_mod_cast hp
  have h2 : (0 : ℚ) < (2 : ℚ) ^ e := by positivity
  rw [← Nat.cast_le (α := ℚ), ← one_le_div hp', hv, le_div_iff₀ h2, one_mul]

theorem floorLog2_spec (a b : Nat) (ha : 0 < a) (hb : 0 < b) :
    (2 : ℚ) ^ floorLog2 a b ≤ (a : ℚ) / (b : ℚ) ∧
    (a : ℚ) / (b : ℚ) < (2 : ℚ) ^ (floorLog2 a b + 1) := by
  obtain ⟨a1, a2, a3⟩ := bitLength_spec a ha
  obtain ⟨b1, b2, b3⟩ := bitLength_spec b hb
  have hb' : (0 : ℚ) < (b : ℚ) := by exact_mod_cast hb
  have a1' : (2 : ℚ) ^ (((bitLength a : Nat) : Int) - 1) ≤ (a : ℚ) := by
    have e : ((bitLength a : Nat) : Int) - 1 = ((bitLength a - 1 : Nat) : Int) := by omega
    rw [e, zpow_natCast]
    exact_mod_cast a1
  have a2' : (a : ℚ) < (2 : ℚ) ^ ((bitLength a : Nat) : Int) := by
    rw [zpow_natCast]
    exact_mod_cast a2
  have b1' : (2 : ℚ) ^ (((bitLength b : Nat) : Int) - 1) ≤ (b : ℚ) := by
    have e : ((bitLength b : Nat) : Int) - 1 = ((bitLength b - 1 : Nat) : Int) := by omega
    rw [e, zpow_natCast]
    exact_mod_cast b1
  have b2' : (b : ℚ) < (2 : ℚ) ^ ((bitLength b : Nat) : Int) := by
    rw [zpow_natCast]
    exact_mod_cast b2
  have two : (2 : ℚ) ≠ 0 := by norm_num
  -- a / b lies strictly between 2 ^ (l - 1) and 2 ^ (l + 1)
  have lower : (2 : ℚ) ^ (((bitLength a : Nat) : Int) - (bitLength b : Int) - 1)
      ≤ (a : ℚ) / (b : ℚ) := by
    rw [le_div_iff₀ hb']
    have e : (((bitLength a : Nat) : Int) - (bitLength b : Int) - 1)
        = (((bitLength a : Nat) : Int) - 1) - (bitLength b : Int) := by ring
    rw [e, zpow_sub₀ two]
    have hpos : (0 : ℚ) < (2 : ℚ) ^ ((bitLength b : Nat) : Int) := by positivity
    calc (2 : ℚ) ^ (((bitLength a : Nat) : Int) - 1) / (2 : ℚ) ^ ((bitLength b : Nat) : Int) * (b : ℚ)
        ≤ (2 : ℚ) ^ (((bitLength a : Nat) : Int) - 1) / (2 : ℚ) ^ ((bitLength b : Nat) : Int)
            * (2 : ℚ) ^ ((bitLength b : Nat) : Int) :=
          mul_le_mul_of_nonneg_left b2'.le (by positivity)
      _ = (2 : ℚ) ^ (((bitLength a : Nat) : Int) - 1) := div_mul_cancel₀ _ hpos.ne'
      _ ≤ (a : ℚ) := a1'
  have upper : (a : ℚ) / (b : ℚ)
      < (2 : ℚ) ^ (((bitLength a : Nat) : Int) - (bitLength b : Int) + 1) := by
    rw [div_lt_iff₀ hb']
    have e : (((bitLength a : Nat) : Int) - (bitLength b : Int) + 1)
        = ((bitLength a : Nat) : Int) - (((bitLength b : Nat) : Int) - 1) := by ring
    rw [e, zpow_sub₀ two]
    have hpos : (0 : ℚ) < (2 : ℚ) ^ (((bitLength b : Nat) : Int) - 1) := by positivity
    calc (a : ℚ) < (2 : ℚ) ^ ((bitLength a : Nat) : Int) := a2'
      _ = (2 : ℚ) ^ ((bitLength a : Nat) : Int) / (2 : ℚ) ^ (((bitLength b : Nat) : Int) - 1)
            * (2 : ℚ) ^ (((bitLength b : Nat) : Int) - 1) := (div_mul_cancel₀ _ hpos.ne').symm
      _ ≤ (2 : ℚ) ^ ((bitLength a : Nat) : Int) / (2 : ℚ) ^ (((bitLength b : Nat) : Int) - 1)
            * (b : ℚ) := mul_le_mul_of_nonneg_left b1' (by positivity)
  unfold floorLog2
  simp only []
  split_ifs with h
  · exact ⟨(shiftFraction_le_iff a b _ hb).1 h, upper⟩
  · refine ⟨lower, ?_⟩
    rw [sub_add_cancel]
    exact not_le.1 (fun hc => h ((shiftFraction_le_iff a b _ hb).2 hc))

/-- The scaled fraction of `roundBinary` stays below `2 ^ p`. -/
theorem roundBinary_scaled_lt (p : Nat) (emin : Int) (a b : Nat) (ha : 0 < a) (hb : 0 < b) :
    (a : ℚ) / (b : ℚ) / (2 : ℚ) ^ (max (floorLog2 a b - ((p : Int) - 1)) emin) < (2 : ℚ) ^ p := by
  have h2 : (0 : ℚ) < (2 : ℚ) ^ (max (floorLog2 a b - ((p : Int) - 1)) emin) := by positivity
  rw [div_lt_iff₀ h2, ← zpow_natCast, ← zpow_add₀ (by norm_num : (2 : ℚ) ≠ 0)]
  refine lt_of_lt_of_le (floorLog2_spec a b ha hb).2 ?_
  apply zpow_le_zpow_right₀ (by norm_num)
  have := le_max_left (floorLog2 a b - ((p : Int) - 1)) emin
  omega

/-- A fraction with an integer value. -/
theorem fraction_eq_nat (x y k : Nat) (hy : 0 < y) (h : (x : ℚ) / (y : ℚ) = (k : ℚ)) :
    x = k * y := by
  have hy' : (y : ℚ) ≠ 0 := by exact_mod_cast hy.ne'
  rw [div_eq_iff hy'] at h
  exact_mod_cast h

/-- A value of the format is its own rounding. -/
theorem roundBinary_exact (p : Nat) (emin emax : Int) (a b : Nat) (ha : 0 < a) (hb : 0 < b)
    (M : Nat) (E : Int) (hM : M < 2 ^ p) (hE1 : emin ≤ E) (hE2 : E ≤ emax)
    (hq : (a : ℚ) / (b : ℚ) = (M : ℚ) * (2 : ℚ) ^ E) :
    ∃ m e, roundBinary p emin emax a b = some (m, e) ∧
      (m : ℚ) * (2 : ℚ) ^ e = (a : ℚ) / (b : ℚ) ∧ 0 < m := by
  have two : (2 : ℚ) ≠ 0 := by norm_num
  obtain ⟨f1, f2⟩ := floorLog2_spec a b ha hb
  have hqpos : (0 : ℚ) < (a : ℚ) / (b : ℚ) := by positivity
  -- the exponent chosen is at most `E`
  have hfl : floorLog2 a b < (p : Int) + E := by
    have h1 : (2 : ℚ) ^ floorLog2 a b < (2 : ℚ) ^ ((p : Int) + E) := by
      rw [zpow_add₀ two, zpow_natCast]
      refine lt_of_le_of_lt f1 ?_
      rw [hq]
      have hM' : (M : ℚ) < (2 : ℚ) ^ p := by exact_mod_cast hM
      exact mul_lt_mul_of_pos_right hM' (by positivity)
    exact (zpow_lt_zpow_iff_right₀ (by norm_num : (1 : ℚ) < 2)).1 h1
  have he : max (floorLog2 a b - ((p : Int) - 1)) emin ≤ E := max_le (by omega) hE1
  generalize hedef : max (floorLog2 a b - ((p : Int) - 1)) emin = e at he
  have hs := roundBinary_scaled_lt p emin a b ha hb
  rw [hedef] at hs
  -- the scaled fraction is the integer `M * 2 ^ (E - e)`
  have hk : (a : ℚ) / (b : ℚ) / (2 : ℚ) ^ e = ((M * 2 ^ (E - e).toNat : Nat) : ℚ) := by
    rw [hq, mul_div_assoc, ← zpow_sub₀ two]
    have e1 : E - e = (((E - e).toNat : Nat) : Int) := (Int.toNat_of_nonneg (by omega)).symm
    rw [e1, zpow_natCast]
    push_cast
    rfl
  have hsf := shiftFraction_value a b e hb
  have hpos := shiftFraction_pos a b e hb
  have hnat := fraction_eq_nat _ _ _ hpos (hsf.trans hk)
  have hm : roundHalfEven (shiftFraction a b e).1 (shiftFraction a b e).2
      = M * 2 ^ (E - e).toNat := by
    rw [hnat]
    exact roundHalfEven_exact _ _ hpos
  have hlt : M * 2 ^ (E - e).toNat < 2 ^ p := by
    rw [hk] at hs
    exact_mod_cast hs
  have hMpos : 0 < M := by
    rcases Nat.eq_zero_or_pos M with h | h
    · rw [h] at hq
      simp at hq
      rcases hq with h | h
      · omega
      · omega
    · exact h
  refine ⟨M * 2 ^ (E - e).toNat, e, ?_, ?_, Nat.mul_pos hMpos (by positivity)⟩
  · unfold roundBinary
    simp only [hedef, hm]
    rw [if_neg (by omega), if_neg (by omega), if_neg (by omega)]
  · rw [← hk, div_mul_cancel₀ _ (by positivity)]

/-- Inside the normal range the rounding is within half a unit in the last
place, that is within `2 ^ (-p)` of the value, relatively. -/
theorem roundBinary_accurate (p : Nat) (hp : 1 ≤ p) (emin emax : Int) (a b : Nat) (ha : 0 < a)
    (hb : 0 < b) (lo hi : Int) (h1 : emin + ((p : Int) - 1) ≤ lo)
    (h2 : hi - ((p : Int) - 1) ≤ emax) (hlo : (2 : ℚ) ^ lo ≤ (a : ℚ) / (b : ℚ))
    (hhi : (a : ℚ) / (b : ℚ) < (2 : ℚ) ^ hi) :
    ∃ m e, roundBinary p emin emax a b = some (m, e) ∧
      |(m : ℚ) * (2 : ℚ) ^ e - (a : ℚ) / (b : ℚ)| ≤ (a : ℚ) / (b : ℚ) / (2 : ℚ) ^ p ∧
      (2 : ℚ) ^ lo ≤ (m : ℚ) * (2 : ℚ) ^ e ∧ (m : ℚ) * (2 : ℚ) ^ e ≤ (2 : ℚ) ^ hi ∧ 0 < m := by
  have two : (2 : ℚ) ≠ 0 := by norm_num
  have one2 : (1 : ℚ) < 2 := by norm_num
  obtain ⟨f1, f2⟩ := floorLog2_spec a b ha hb
  have hlofl : lo ≤ floorLog2 a b := by
    have := (zpow_lt_zpow_iff_right₀ one2).1 (lt_of_le_of_lt hlo f2)
    omega
  have hflhi : floorLog2 a b < hi := (zpow_lt_zpow_iff_right₀ one2).1 (lt_of_le_of_lt f1 hhi)
  have hedef : max (floorLog2 a b - ((p : Int) - 1)) emin = floorLog2 a b - ((p : Int) - 1) :=
    max_eq_left (by omega)
  generalize hfl : floorLog2 a b = fl at *
  have hepos : (0 : ℚ) < (2 : ℚ) ^ (fl - ((p : Int) - 1)) := by positivity
  have hsf := shiftFraction_value a b (fl - ((p : Int) - 1)) hb
  have hpos := shiftFraction_pos a b (fl - ((p : Int) - 1)) hb
  have hpos' : (0 : ℚ) < ((shiftFraction a b (fl - ((p : Int) - 1))).2 : ℚ) := by
    exact_mod_cast hpos
  -- the scaled fraction lies in [2 ^ (p - 1), 2 ^ p)
  have hs1 : ((2 ^ (p - 1) : Nat) : ℚ) ≤ (a : ℚ) / (b : ℚ) / (2 : ℚ) ^ (fl - ((p : Int) - 1)) := by
    rw [le_div_iff₀ hepos]
    push_cast
    rw [← zpow_natCast, ← zpow_add₀ two]
    have e : ((p - 1 : Nat) : Int) + (fl - ((p : Int) - 1)) = fl := by omega
    rw [e]
    exact f1
  have hs2 : (a : ℚ) / (b : ℚ) / (2 : ℚ) ^ (fl - ((p : Int) - 1)) < ((2 ^ p : Nat) : ℚ) := by
    rw [div_lt_iff₀ hepos]
    push_cast
    rw [← zpow_natCast, ← zpow_add₀ two]
    have e : (p : Int) + (fl - ((p : Int) - 1)) = fl + 1 := by omega
    rw [e]
    exact f2
  have hm1 : 2 ^ (p - 1) ≤ roundHalfEven (shiftFraction a b (fl - ((p : Int) - 1))).1
      (shiftFraction a b (fl - ((p : Int) - 1))).2 := by
    apply roundHalfEven_ge _ _ _ hpos
    rw [← hsf, le_div_iff₀ hpos'] at hs1
    exact_mod_cast hs1
  have hm2 : roundHalfEven (shiftFraction a b (fl - ((p : Int) - 1))).1
      (shiftFraction a b (fl - ((p : Int) - 1))).2 ≤ 2 ^ p := by
    apply roundHalfEven_le _ _ _ hpos
    rw [← hsf, div_lt_iff₀ hpos'] at hs2
    exact_mod_cast hs2.le
  have herr := roundHalfEven_error (shiftFraction a b (fl - ((p : Int) - 1))).1
    (shiftFraction a b (fl - ((p : Int) - 1))).2 hpos
  rw [hsf] at herr
  generalize hmdef : roundHalfEven (shiftFraction a b (fl - ((p : Int) - 1))).1
    (shiftFraction a b (fl - ((p : Int) - 1))).2 = m at *
  -- the value `m * 2 ^ e`
  have hV1 : |(m : ℚ) * (2 : ℚ) ^ (fl - ((p : Int) - 1)) - (a : ℚ) / (b : ℚ)|
      ≤ (a : ℚ) / (b : ℚ) / (2 : ℚ) ^ p := by
    have e1 : (m : ℚ) * (2 : ℚ) ^ (fl - ((p : Int) - 1)) - (a : ℚ) / (b : ℚ)
        = ((m : ℚ) - (a : ℚ) / (b : ℚ) / (2 : ℚ) ^ (fl - ((p : Int) - 1)))
          * (2 : ℚ) ^ (fl - ((p : Int) - 1)) := by
      rw [sub_mul, div_mul_cancel₀ _ hepos.ne']
    rw [e1, abs_mul, abs_of_pos hepos]
    have e2 : (1 : ℚ) / 2 * (2 : ℚ) ^ (fl - ((p : Int) - 1)) = (2 : ℚ) ^ fl / (2 : ℚ) ^ p := by
      rw [← zpow_natCast, ← zpow_sub₀ two]
      have e : fl - (p : Int) = (fl - ((p : Int) - 1)) + (-1) := by ring
      rw [e, zpow_add₀ two]
      simp
      ring
    calc |(m : ℚ) - (a : ℚ) / (b : ℚ) / (2 : ℚ) ^ (fl - ((p : Int) - 1))|
          * (2 : ℚ) ^ (fl - ((p : Int) - 1))
        ≤ (1 : ℚ) / 2 * (2 : ℚ) ^ (fl - ((p : Int) - 1)) :=
          mul_le_mul_of_nonneg_right herr hepos.le
      _ = (2 : ℚ) ^ fl / (2 : ℚ) ^ p := e2
      _ ≤ (a : ℚ) / (b : ℚ) / (2 : ℚ) ^ p := div_le_div_of_nonneg_right f1 (by positivity)
  have hV2 : (2 : ℚ) ^ lo ≤ (m : ℚ) * (2 : ℚ) ^ (fl - ((p : Int) - 1)) := by
    have hm1' : ((2 ^ (p - 1) : Nat) : ℚ) ≤ (m : ℚ) := by exact_mod_cast hm1
    calc (2 : ℚ) ^ lo ≤ (2 : ℚ) ^ fl := zpow_le_zpow_right₀ one2.le hlofl
      _ = ((2 ^ (p - 1) : Nat) : ℚ) * (2 : ℚ) ^ (fl - ((p : Int) - 1)) := by
          push_cast
          rw [← zpow_natCast, ← zpow_add₀ two]
          congr 1
          omega
      _ ≤ (m : ℚ) * (2 : ℚ) ^ (fl - ((p : Int) - 1)) :=
          mul_le_mul_of_nonneg_right hm1' hepos.le
  have hV3 : (m : ℚ) * (2 : ℚ) ^ (fl - ((p : Int) - 1)) ≤ (2 : ℚ) ^ hi := by
    have hm2' : (m : ℚ) ≤ ((2 ^ p : Nat) : ℚ) := by exact_mod_cast hm2
    calc (m : ℚ) * (2 : ℚ) ^ (fl - ((p : Int) - 1))
        ≤ ((2 ^ p : Nat) : ℚ) * (2 : ℚ) ^ (fl - ((p : Int) - 1)) :=
          mul_le_mul_of_nonneg_right hm2' hepos.le
      _ = (2 : ℚ) ^ (fl + 1) := by
          push_cast
          rw [← zpow_natCast, ← zpow_add₀ two]
          congr 1
          omega
      _ ≤ (2 : ℚ) ^ hi := zpow_le_zpow_right₀ one2.le (by omega)
  have hmpos : 0 < m := lt_of_lt_of_le (by positivity) hm1
  by_cases hc : m = 2 ^ p
  · refine ⟨2 ^ (p - 1), fl - ((p : Int) - 1) + 1, ?_, ?_⟩
    · unfold roundBinary
      simp only [hfl, hedef, hmdef]
      rw [if_neg (by omega), if_pos hc, if_neg (by omega)]
    · have e : ((2 ^ (p - 1) : Nat) : ℚ) * (2 : ℚ) ^ (fl - ((p : Int) - 1) + 1)
          = (m : ℚ) * (2 : ℚ) ^ (fl - ((p : Int) - 1)) := by
        rw [hc]
        push_cast
        rw [← zpow_natCast, ← zpow_natCast, ← zpow_add₀ two, ← zpow_add₀ two]
        congr 1
        omega
      rw [e]
      exact ⟨hV1, hV2, hV3, by positivity⟩
  · refine ⟨m, fl - ((p : Int) - 1), ?_, hV1, hV2, hV3, hmpos⟩
    unfold roundBinary
    simp only [hfl, hedef, hmdef]
    rw [if_neg (by omega), if_neg hc, if_neg (by omega)]

/-! ### The stored value -/

theorem ZValue.ofBinary_spec (neg : Prop) [Decidable neg] (m : Nat) (e : Int) :
    (ZValue.ofBinary neg m e).cls = FloatClass.finite ∧
    (ZValue.ofBinary neg m e).value = (if neg then -1 else 1) * ((m : ℚ) * (2 : ℚ) ^ e) := by
  have hsign : (((if neg then - (m : Int) else (m : Int)) : Int) : ℚ)
      = (if neg then -1 else 1) * (m : ℚ) := by
    split_ifs <;> simp
  by_cases h0 : m = 0
  · subst h0
    unfold ZValue.ofBinary ZValue.value
    simp
  · by_cases he : 0 ≤ e
    · have hd : ZValue.ofBinary neg m e
          = ⟨(if neg then - (m : Int) else (m : Int)) * 2 ^ e.toNat, 0, .finite⟩ := by
        unfold ZValue.ofBinary
        simp only [h0, he, if_true, if_false]
      rw [hd]
      refine ⟨rfl, ?_⟩
      unfold ZValue.value
      simp only []
      rw [Int.cast_mul, hsign]
      have e1 : (2 : ℚ) ^ e = (2 : ℚ) ^ e.toNat := by
        rw [← zpow_natCast, Int.toNat_of_nonneg he]
      rw [e1]
      push_cast
      ring
    · have hd : ZValue.ofBinary neg m e
          = ⟨(if neg then - (m : Int) else (m : Int)) * 5 ^ (-e).toNat, (-e).toNat, .finite⟩ := by
        unfold ZValue.ofBinary
        simp only [h0, he, if_false]
      rw [hd]
      refine ⟨rfl, ?_⟩
      unfold ZValue.value
      simp only []
      rw [Int.cast_mul, hsign]
      have e1 : (2 : ℚ) ^ e = ((2 : ℚ) ^ (-e).toNat)⁻¹ := by
        rw [← zpow_natCast, Int.toNat_of_nonneg (by omega), zpow_neg, inv_inv]
      have h10 : (10 : ℚ) ^ (-e).toNat = (2 : ℚ) ^ (-e).toNat * (5 : ℚ) ^ (-e).toNat := by
        rw [← mul_pow]; norm_num
      rw [e1, h10]
      push_cast
      field_simp
      ring_nf

/-- The value of the fraction the conversion to `float` starts from. -/
theorem shiftFraction_binary (m : Nat) (e : Int) :
    ((shiftFraction m 1 (-e)).1 : ℚ) / ((shiftFraction m 1 (-e)).2 : ℚ)
      = (m : ℚ) * (2 : ℚ) ^ e := by
  rw [shiftFraction_value m 1 (-e) Nat.one_pos]
  simp

theorem shiftFraction_binary_pos (m : Nat) (e : Int) (hm : 0 < m) :
    0 < (shiftFraction m 1 (-e)).1 := by
  unfold shiftFraction
  split_ifs
  · exact hm
  · exact Nat.mul_pos hm (by positivity)

theorem storeFloat_zero (neg : Prop) [Decidable neg] (b : Nat) :
    storeFloat neg 0 b = ⟨0, 0, .finite⟩ := by
  have h1 : roundBinary 53 (-1074) 971 0 b = some (0, 0) := by
    unfold roundBinary; rfl
  have h2 : roundBinary 24 (-149) 104 (shiftFraction 0 1 (-0)).1 (shiftFraction 0 1 (-0)).2
      = some (0, 0) := by
    unfold roundBinary; rfl
  unfold storeFloat
  rw [h1]
  simp only []
  rw [h2]
  simp only []
  unfold ZValue.ofBinary
  simp

/-- A binary32 value is stored exactly. -/
theorem storeFloat_exact (neg : Prop) [Decidable neg] (a b : Nat) (ha : 0 < a) (hb : 0 < b)
    (M : Nat) (E : Int) (hM : M < 2 ^ 24) (hE1 : -149 ≤ E) (hE2 : E ≤ 104)
    (hq : (a : ℚ) / (b : ℚ) = (M : ℚ) * (2 : ℚ) ^ E) :
    (storeFloat neg a b).cls = FloatClass.finite ∧
    (storeFloat neg a b).value = (if neg then -1 else 1) * ((a : ℚ) / (b : ℚ)) := by
  obtain ⟨m, e, r1, v1, p1⟩ := roundBinary_exact 53 (-1074) 971 a b ha hb M E
    (lt_of_lt_of_le hM (by norm_num)) (by omega) (by omega) hq
  have hq2 : ((shiftFraction m 1 (-e)).1 : ℚ) / ((shiftFraction m 1 (-e)).2 : ℚ)
      = (M : ℚ) * (2 : ℚ) ^ E := by
    rw [shiftFraction_binary, v1, hq]
  obtain ⟨m2, e2, r2, v2, _⟩ := roundBinary_exact 24 (-149) 104 _ _
    (shiftFraction_binary_pos m e p1) (shiftFraction_pos m 1 (-e) Nat.one_pos) M E hM hE1 hE2 hq2
  unfold storeFloat
  rw [r1]
  simp only []
  rw [r2]
  simp only []
  obtain ⟨c, v⟩ := ZValue.ofBinary_spec neg m2 e2
  refine ⟨c, ?_⟩
  rw [v, v2, shiftFraction_binary, v1]

/-- Inside the normal range of binary32 the stored value is within `2 ^ (-23)`
of the value, relatively. -/
theorem storeFloat_accurate (neg : Prop) [Decidable neg] (a b : Nat) (ha : 0 < a) (hb : 0 < b)
    (hlo : (2 : ℚ) ^ (-126 : Int) ≤ (a : ℚ) / (b : ℚ))
    (hhi : (a : ℚ) / (b : ℚ) < (2 : ℚ) ^ (126 : Int)) :
    (storeFloat neg a b).cls = FloatClass.finite ∧
    |(storeFloat neg a b).value - (if neg then -1 else 1) * ((a : ℚ) / (b : ℚ))|
      ≤ (a : ℚ) / (b : ℚ) / 2 ^ 23 := by
  obtain ⟨m, e, r1, err1, lo1, hi1, p1⟩ := roundBinary_accurate 53 (by norm_num) (-1074) 971 a b
    ha hb (-126) 126 (by norm_num) (by norm_num) hlo hhi
  have hhi2 : ((shiftFraction m 1 (-e)).1 : ℚ) / ((shiftFraction m 1 (-e)).2 : ℚ)
      < (2 : ℚ) ^ (127 : Int) := by
    rw [shiftFraction_binary]
    exact lt_of_le_of_lt hi1 (zpow_lt_zpow_right₀ (by norm_num) (by norm_num))
  have hlo2 : (2 : ℚ) ^ (-126 : Int)
      ≤ ((shiftFraction m 1 (-e)).1 : ℚ) / ((shiftFraction m 1 (-e)).2 : ℚ) := by
    rw [shiftFraction_binary]
    exact lo1
  obtain ⟨m2, e2, r2, err2, _, _, _⟩ := roundBinary_accurate 24 (by norm_num) (-149) 104 _ _
    (shiftFraction_binary_pos m e p1) (shiftFraction_pos m 1 (-e) Nat.one_pos) (-126) 127
    (by norm_num) (by norm_num) hlo2 hhi2
  rw [shiftFraction_binary] at err2
  unfold storeFloat
  rw [r1]
  simp only []
  rw [r2]
  simp only []
  obtain ⟨c, v⟩ := ZValue.ofBinary_spec neg m2 e2
  refine ⟨c, ?_⟩
  rw [v, ← mul_sub, abs_mul]
  have hs : |(if neg then (-1 : ℚ) else 1)| = 1 := by
    split_ifs <;> simp
  rw [hs, one_mul]
  have hqpos : (0 : ℚ) < (a : ℚ) / (b : ℚ) := by positivity
  generalize (a : ℚ) / (b : ℚ) = q at *
  generalize (m : ℚ) * (2 : ℚ) ^ e = d at *
  generalize (m2 : ℚ) * (2 : ℚ) ^ e2 = f at *
  have t1 : |f - q| ≤ |f - d| + |d - q| := by
    have := abs_add (f - d) (d - q)
    simpa using this
  have hd : d ≤ q + q / 2 ^ 53 := by
    have := (abs_le.1 err1).2
    linarith
  have h3 : d / 2 ^ 24 ≤ (q + q / 2 ^ 53) / 2 ^ 24 := div_le_div_of_nonneg_right hd (by positivity)
  have h4 : (q + q / 2 ^ 53) / 2 ^ 24 + q / 2 ^ 53 ≤ q / 2 ^ 23 := by
    have : (q + q / 2 ^ 53) / 2 ^ 24 + q / 2 ^ 53 = q * ((1 + 1 / 2 ^ 53) / 2 ^ 24 + 1 / 2 ^ 53) := by
      ring
    rw [this, div_eq_mul_one_div q]
    apply mul_le_mul_of_nonneg_left _ hqpos.le
    norm_num
  linarith

/-- The constant of the test `currentZ < 0.1` is the `double` nearest to one
tenth, 3602879701896397 / 2 ^ 55.  No binary32 value lies between one tenth and
that constant, so on the values a `float` holds `belowTenth` is the comparison
with the constant. -/
theorem ZValue.belowTenth_binary32 (neg : Prop) [Decidable neg] (m : Nat) (e : Int)
    (hm : m < 2 ^ 24) :
    (ZValue.ofBinary neg m e).belowTenth = true ↔
      (ZValue.ofBinary neg m e).value < 3602879701896397 / 2 ^ 55 := by
  obtain ⟨c, v⟩ := ZValue.ofBinary_spec neg m e
  have hb : (ZValue.ofBinary neg m e).belowTenth = true ↔
      (ZValue.ofBinary neg m e).value < 1 / 10 := ZValue.belowTenth_iff _ c
  rw [hb, v]
  have two : (2 : ℚ) ≠ 0 := by norm_num
  have hpos : (0 : ℚ) ≤ (m : ℚ) * (2 : ℚ) ^ e := by positivity
  constructor
  · intro h
    exact lt_trans h (by norm_num)
  · intro h
    by_contra hc
    have hge : (1 : ℚ) / 10 ≤ (if neg then -1 else 1) * ((m : ℚ) * (2 : ℚ) ^ e) := not_lt.1 hc
    by_cases hn : neg
    · rw [if_pos hn] at hge
      linarith
    · rw [if_neg hn, one_mul] at hge h
      by_cases he : -55 ≤ e
      · have e1 : (2 : ℚ) ^ e = (2 : ℚ) ^ (e + 55).toNat / 2 ^ 55 := by
          rw [eq_div_iff (by positivity), ← zpow_natCast, ← zpow_natCast, ← zpow_add₀ two,
            Int.toNat_of_nonneg (by omega)]
          rfl
        rw [e1, ← mul_div_assoc] at hge h
        have h1 : ((m * 2 ^ (e + 55).toNat : Nat) : ℚ) < ((3602879701896397 : Nat) : ℚ) := by
          have := (div_lt_div_iff_of_pos_right (by positivity : (0 : ℚ) < 2 ^ 55)).1 h
          push_cast
          exact this
        have h2 : ((2 ^ 55 : Nat) : ℚ) ≤ ((10 * (m * 2 ^ (e + 55).toNat) : Nat) : ℚ) := by
          rw [div_le_div_iff₀ (by norm_num) (by positivity)] at hge
          push_cast
          linarith
        have h1' : m * 2 ^ (e + 55).toNat < 3602879701896397 := by exact_mod_cast h1
        have h2' : 2 ^ 55 ≤ 10 * (m * 2 ^ (e + 55).toNat) := by exact_mod_cast h2
        norm_num at h2'
        omega
      · have hm' : (m : ℚ) < (2 : ℚ) ^ 24 := by exact_mod_cast hm
        have h2e : (2 : ℚ) ^ e ≤ (2 : ℚ) ^ (-56 : Int) :=
          zpow_le_zpow_right₀ (by norm_num) (by omega)
        have hlt : (m : ℚ) * (2 : ℚ) ^ e ≤ (2 : ℚ) ^ 24 * (2 : ℚ) ^ (-56 : Int) :=
          mul_le_mul hm'.le h2e (by positivity) (by positivity)
        have : (2 : ℚ) ^ 24 * (2 : ℚ) ^ (-56 : Int) < 1 / 10 := by
          rw [zpow_neg]
          norm_num
        exact lt_irrefl _ (lt_of_le_of_lt (hge.trans hlt) this)

/-! ### Reading a decimal numeral -/

theorem digitChar_facts : ∀ d : Fin 10,
    (Char.ofNat (48 + d.val)).isDigit = true ∧ (Char.ofNat (48 + d.val)).toNat - 48 = d.val ∧
    isspace (Char.ofNat (48 + d.val)) = false ∧ Char.ofNat (48 + d.val) ≠ '-' ∧
    Char.ofNat (48 + d.val) ≠ '+' ∧ Char.ofNat (48 + d.val) ≠ 'x' ∧
    Char.ofNat (48 + d.val) ≠ 'X' ∧ Char.ofNat (48 + d.val) ≠ '.' ∧
    (Char.ofNat (48 + d.val)).toLower ≠ 'i' ∧ (Char.ofNat (48 + d.val)).toLower ≠ 'n' := by
  decide

theorem digitsValue_cons (d : Fin 10) (ds : List (Fin 10)) :
    digitsValue (d :: ds) = d.val * 10 ^ ds.length + digitsValue ds := by
  unfold digitsValue
  rw [List.reverse_cons, List.map_append, Nat.ofDigits_append]
  simp [Nat.ofDigits_singleton]
  ring

theorem digitsValue_append (xs ys : List (Fin 10)) :
    digitsValue (xs ++ ys) = digitsValue xs * 10 ^ ys.length + digitsValue ys := by
  induction xs with
  | nil => simp [digitsValue]
  | cons d ds ih =>
    rw [List.cons_append, digitsValue_cons, digitsValue_cons, ih, List.length_append]
    ring

/-- Reading a digit sequence that is followed by something else. -/
theorem takeDigits_digitChars (rest : List Char)
    (hrest : ∀ c r, rest = c :: r → c.isDigit = false) :
    ∀ (ds : List (Fin 10)) (acc n : Nat),
      takeDigits (digitChars ds ++ rest) acc n
        = (acc * 10 ^ ds.length + digitsValue ds, n + ds.length, rest) := by
  intro ds
  induction ds with
  | nil =>
    intro acc n
    rcases rest with _ | ⟨c, r⟩
    · simp [digitChars, takeDigits, digitsValue]
    · have := hrest c r rfl
      simp [digitChars, takeDigits, digitsValue, this]
  | cons d ds ih =>
    intro acc n
    obtain ⟨h1, h2, _⟩ := digitChar_facts d
    have e : digitChars (d :: ds) ++ rest = Char.ofNat (48 + d.val) :: (digitChars ds ++ rest) := rfl
    rw [e, takeDigits, if_pos h1, ih, h2, digitsValue_cons, List.length_cons]
    refine Prod.ext ?_ (Prod.ext ?_ rfl)
    · simp only []; ring
    · simp only []; omega

namespace DecimalText

theorem exponentChars_head (t : DecimalText) (c : Char) (r : List Char)
    (h : t.exponentChars = c :: r) : c = 'e' := by
  unfold exponentChars at h
  rcases hx : t.exponentPart with _ | ⟨neg, ds⟩
  · rw [hx] at h
    exact absurd h (by simp)
  · rw [hx] at h
    exact ((List.cons.inj h).1).symm

theorem takeExponent_exponentChars (t : DecimalText) (hwf : t.wellFormed = true) :
    takeExponent 'e' 'E' t.exponentChars = t.exponentValue := by
  unfold wellFormed at hwf
  rcases hx : t.exponentPart with _ | ⟨neg, ds⟩
  · have hc : t.exponentChars = [] := by unfold exponentChars; rw [hx]
    have hv : t.exponentValue = 0 := by unfold exponentValue; rw [hx]
    rw [hc, hv]
    rfl
  · rw [hx] at hwf
    have hds : ds ≠ [] := by
      intro h
      rw [h] at hwf
      simp at hwf
    have hlen : ds.length ≠ 0 := fun h => hds (List.length_eq_zero.1 h)
    have hd := takeDigits_digitChars [] (fun c r h => absurd h (by simp)) ds 0 0
    rw [List.append_nil] at hd
    cases neg with
    | true =>
      have hc : t.exponentChars = 'e' :: '-' :: digitChars ds := by
        unfold exponentChars; rw [hx]; rfl
      have hv : t.exponentValue = - (digitsValue ds : Int) := by
        unfold exponentValue; rw [hx]; rfl
      rw [hc, hv]
      simp only [takeExponent, true_or, if_true, hd]
      simp [hlen]
    | false =>
      rcases ds with _ | ⟨d, ds2⟩
      · exact absurd rfl hds
      · obtain ⟨_, _, _, h1, h2, _⟩ := digitChar_facts d
        have hc : t.exponentChars = 'e' :: Char.ofNat (48 + d.val) :: digitChars ds2 := by
          unfold exponentChars; rw [hx]; rfl
        have hv : t.exponentValue = (digitsValue (d :: ds2) : Int) := by
          unfold exponentValue; rw [hx]; rfl
        have hd2 : takeDigits (Char.ofNat (48 + d.val) :: digitChars ds2) 0 0
            = (0 * 10 ^ (d :: ds2).length + digitsValue (d :: ds2), 0 + (d :: ds2).length, []) := hd
        rw [hc, hv, takeExponent_unsigned 'e' 'E' 'e' _ _ (Or.inl rfl) h1 h2, hd2]
        simp

/-- The decimal numeral `decimalNumeral` reads from the body is the magnitude
of the text. -/
theorem decimalNumeral_body (t : DecimalText) (hwf : t.wellFormed = true) :
    ∃ a b, decimalNumeral t.body = some (a, b) ∧ 0 < b ∧ (a : ℚ) / (b : ℚ) = t.magnitude := by
  have hx := takeExponent_exponentChars t hwf
  have hne : t.integerDigits.length + t.fractionDigits.length ≠ 0 := by
    unfold wellFormed at hwf
    intro h
    have h1 : t.integerDigits = [] := List.length_eq_zero.1 (by omega)
    have h2 : t.fractionDigits = [] := List.length_eq_zero.1 (by omega)
    rw [h1, h2] at hwf
    simp at hwf
  -- the triple read before the exponent
  have hfp : ∃ R, (let ip := takeDigits t.body 0 0
        match ip.2.2 with
        | '.' :: r => takeDigits r ip.1 0
        | r => (ip.1, 0, r)) = R ∧
      (takeDigits t.body 0 0).2.1 = t.integerDigits.length ∧
      R = (digitsValue (t.integerDigits ++ t.fractionDigits), t.fractionDigits.length,
        t.exponentChars) := by
    refine ⟨_, rfl, ?_, ?_⟩
    · unfold body
      rw [takeDigits_digitChars]
      · simp
      · intro c r h
        by_cases hf : t.fractionDigits = []
        · rw [if_pos hf, List.nil_append] at h
          rw [exponentChars_head t c r h]; decide
        · rw [if_neg hf] at h
          rw [← (List.cons.inj h).1]; decide
    · unfold body
      rw [takeDigits_digitChars]
      · by_cases hf : t.fractionDigits = []
        · simp only [hf, if_true, List.nil_append, List.append_nil, List.length_nil]
          rcases he : t.exponentChars with _ | ⟨c, r⟩
          · simp
          · have hc := exponentChars_head t c r he
            subst hc
            simp
        · simp only [if_neg hf, List.cons_append]
          rw [takeDigits_digitChars, digitsValue_append]
          · simp
          · intro c r h
            rw [exponentChars_head t c r h]; decide
      · intro c r h
        by_cases hf : t.fractionDigits = []
        · rw [if_pos hf, List.nil_append] at h
          rw [exponentChars_head t c r h]; decide
        · rw [if_neg hf] at h
          rw [← (List.cons.inj h).1]; decide
  obtain ⟨R, hR, hip, hRv⟩ := hfp
  unfold decimalNumeral
  simp only [] at hR ⊢
  rw [hR, hip, hRv]
  simp only []
  rw [if_neg hne, hx]
  unfold magnitude
  generalize digitsValue (t.integerDigits ++ t.fractionDigits) = N
  generalize t.exponentValue - (t.fractionDigits.length : Int) = x
  by_cases h0 : 0 ≤ x
  · refine ⟨N * 10 ^ x.toNat, 1, by rw [if_pos h0], Nat.one_pos, ?_⟩
    have e1 : (10 : ℚ) ^ x = (10 : ℚ) ^ x.toNat := by
      rw [← zpow_natCast, Int.toNat_of_nonneg h0]
    rw [e1]
    push_cast
    simp
  · refine ⟨N, 10 ^ (-x).toNat, by rw [if_neg h0], by positivity, ?_⟩
    have e1 : (10 : ℚ) ^ x = ((10 : ℚ) ^ (-x).toNat)⁻¹ := by
      rw [← zpow_natCast, Int.toNat_of_nonneg (by omega), zpow_neg, inv_inv]
    rw [e1]
    push_cast
    rfl

end DecimalText

theorem hexNumeral_none (cs : List Char) (h : ∀ c ∈ cs, c ≠ 'x' ∧ c ≠ 'X') :
    hexNumeral cs = none := by
  rcases cs with _ | ⟨c, _ | ⟨x, cs⟩⟩
  · rfl
  · rfl
  · have hx := h x (List.mem_cons_of_mem _ (List.mem_cons_self _ _))
    have : ¬ (c = '0' ∧ (x = 'x' ∨ x = 'X')) := by
      rintro ⟨_, h1 | h1⟩
      · exact hx.1 h1
      · exact hx.2 h1
    simp [hexNumeral, this]

theorem digitChars_no_x (ds : List (Fin 10)) : ∀ c ∈ digitChars ds, c ≠ 'x' ∧ c ≠ 'X' := by
  intro c hc
  unfold digitChars at hc
  obtain ⟨d, _, hd⟩ := List.mem_map.1 hc
  obtain ⟨_, _, _, _, _, h1, h2, _⟩ := digitChar_facts d
  rw [← hd]
  exact ⟨h1, h2⟩

/-- Only the truth value of the sign test matters. -/
theorem toFloatCore_congr (p q : Prop) [Decidable p] [Decidable q] (h : p ↔ q)
    (cs : List Char) : toFloatCore p cs = toFloatCore q cs := by
  by_cases hp : p
  · have hq : q := h.1 hp
    unfold toFloatCore storeFloat ZValue.infinity ZValue.ofBinary
    simp only [hp, hq, if_true]
  · have hq : ¬ q := fun hq => hp (h.2 hq)
    unfold toFloatCore storeFloat ZValue.infinity ZValue.ofBinary
    simp only [hp, hq, if_false]

namespace DecimalText

theorem body_no_x (t : DecimalText) : ∀ c ∈ t.body, c ≠ 'x' ∧ c ≠ 'X' := by
  intro c hc
  unfold body at hc
  rcases List.mem_append.1 hc with h | h
  · exact digitChars_no_x _ c h
  · rcases List.mem_append.1 h with h | h
    · by_cases hf : t.fractionDigits = []
      · rw [if_pos hf] at h
        exact absurd h (List.not_mem_nil _)
      · rw [if_neg hf] at h
        rcases List.mem_cons.1 h with h | h
        · rw [h]; decide
        · exact digitChars_no_x _ c h
    · unfold exponentChars at h
      rcases hx : t.exponentPart with _ | ⟨neg, ds⟩
      · rw [hx] at h
        exact absurd h (List.not_mem_nil _)
      · rw [hx] at h
        rcases List.mem_cons.1 h with h | h
        · rw [h]; decide
        · rcases List.mem_append.1 h with h | h
          · cases neg
            · exact absurd h (List.not_mem_nil _)
            · rw [List.mem_singleton.1 h]; decide
          · exact digitChars_no_x _ c h

/-- The first character after the sign is a digit or the decimal point. -/
theorem body_head (t : DecimalText) (hwf : t.wellFormed = true) :
    ∃ c r, t.body = c :: r ∧ isspace c = false ∧ c ≠ '-' ∧ c ≠ '+' ∧
      c.toLower ≠ 'i' ∧ c.toLower ≠ 'n' := by
  unfold wellFormed at hwf
  unfold body
  rcases hi : t.integerDigits with _ | ⟨d, ds⟩
  · rcases hf : t.fractionDigits with _ | ⟨d, ds⟩
    · rw [hi, hf] at hwf
      simp at hwf
    · refine ⟨'.', digitChars (d :: ds) ++ t.exponentChars, ?_, by decide, by decide, by decide,
        by decide, by decide⟩
      simp [digitChars]
  · obtain ⟨_, _, h1, h2, h3, _, _, _, h4, h5⟩ := digitChar_facts d
    exact ⟨Char.ofNat (48 + d.val), _, rfl, h1, h2, h3, h4, h5⟩

theorem toFloatCore_body (t : DecimalText) (hwf : t.wellFormed = true) (neg : Prop)
    [Decidable neg] :
    ∃ a b, toFloatCore neg t.body = storeFloat neg a b ∧ 0 < b ∧
      (a : ℚ) / (b : ℚ) = t.magnitude := by
  obtain ⟨a, b, hd, hb, hv⟩ := decimalNumeral_body t hwf
  obtain ⟨c, r, hc, _, _, _, h1, h2⟩ := body_head t hwf
  refine ⟨a, b, ?_, hb, hv⟩
  have hinf : startsWithWord ['i', 'n', 'f'] t.body = false := by
    rw [hc]; simp [startsWithWord, h1]
  have hnan : startsWithWord ['n', 'a', 'n'] t.body = false := by
    rw [hc]; simp [startsWithWord, h2]
  unfold toFloatCore
  rw [hinf, hnan, hexNumeral_none _ (body_no_x t), hd]
  simp

/-- Reading a decimal numeral: the sign, and the rounding of its magnitude. -/
theorem toFloat_text (t : DecimalText) (hwf : t.wellFormed = true) :
    ∃ a b, toFloat (String.mk t.text) = storeFloat (t.negative = true) a b ∧ 0 < b ∧
      (a : ℚ) / (b : ℚ) = t.magnitude := by
  obtain ⟨c, r, hc, hs, hm, hp, _, _⟩ := body_head t hwf
  obtain ⟨a, b, h1, h2, h3⟩ := toFloatCore_body t hwf (t.negative = true)
  refine ⟨a, b, ?_, h2, h3⟩
  rw [toFloat_eq_core, ← h1]
  rcases Bool.eq_false_or_eq_true t.negative with hn | hn
  · have hdw : (String.mk t.text).data.dropWhile isspace = '-' :: t.body := by
      unfold text; rw [hn]; rfl
    rw [hdw]
    have hif : (if ('-' :: t.body).head? = some '-' ∨ ('-' :: t.body).head? = some '+'
        then ('-' :: t.body).tail else '-' :: t.body) = t.body := if_pos (Or.inl rfl)
    rw [hif]
    exact toFloatCore_congr _ _ (by simp [hn]) _
  · have hdw : (String.mk t.text).data.dropWhile isspace = c :: r := by
      unfold text
      rw [hn, hc]
      show List.dropWhile isspace (c :: r) = c :: r
      rw [List.dropWhile_cons_of_neg (by rw [hs]; decide)]
    rw [hdw]
    have hsig : ¬ ((c :: r).head? = some '-' ∨ (c :: r).head? = some '+') := by
      rintro (h | h)
      · exact hm (Option.some.inj h)
      · exact hp (Option.some.inj h)
    rw [if_neg hsig, ← hc]
    exact toFloatCore_congr _ _ (by
      rw [hc, hn]
      simp only [List.head?_cons, Option.some.injEq, Bool.false_eq_true, iff_false]
      exact hm) _

end DecimalText

/-- The value `toFloat` gives for a decimal numeral: 0 for a numeral that
denotes 0, the number itself when it is a binary32 value, and otherwise, inside
the normal range, a number within `2 ^ (-23)` of it, relatively. -/
theorem toFloat_decimal (t : DecimalText) (hwf : t.wellFormed = true) :
    (t.magnitude = 0 → toFloat (String.mk t.text) = ⟨0, 0, .finite⟩) ∧
    (∀ (M : Nat) (E : Int), M < 2 ^ 24 → -149 ≤ E → E ≤ 104 →
      t.magnitude = (M : ℚ) * (2 : ℚ) ^ E →
      (toFloat (String.mk t.text)).cls = FloatClass.finite ∧
      (toFloat (String.mk t.text)).value = t.value) ∧
    ((2 : ℚ) ^ (-126 : Int) ≤ t.magnitude → t.magnitude < (2 : ℚ) ^ (126 : Int) →
      (toFloat (String.mk t.text)).cls = FloatClass.finite ∧
      |(toFloat (String.mk t.text)).value - t.value| ≤ t.magnitude / 2 ^ 23) := by
  obtain ⟨a, b, h1, hb, hv⟩ := DecimalText.toFloat_text t hwf
  have hb' : (0 : ℚ) < (b : ℚ) := by exact_mod_cast hb
  have hsign : (if t.negative = true then (-1 : ℚ) else 1) * t.magnitude = t.value := by
    unfold DecimalText.value
    cases t.negative <;> simp
  have hzero : t.magnitude = 0 → a = 0 := by
    intro h0
    rw [← hv, div_eq_zero_iff] at h0
    rcases h0 with h | h
    · exact_mod_cast h
    · exact absurd h hb'.ne'
  refine ⟨?_, ?_, ?_⟩
  · intro h0
    rw [h1, hzero h0]
    exact storeFloat_zero _ b
  · intro M E hM hE1 hE2 hq
    rw [h1]
    rcases Nat.eq_zero_or_pos a with ha | ha
    · rw [ha, storeFloat_zero]
      refine ⟨rfl, ?_⟩
      have : t.magnitude = 0 := by rw [← hv, ha]; simp
      rw [← hsign, this]
      simp [ZValue.value]
    · obtain ⟨c, v⟩ := storeFloat_exact (t.negative = true) a b ha hb M E hM hE1 hE2 (hv.trans hq)
      exact ⟨c, by rw [v, hv, hsign]⟩
  · intro hlo hhi
    rw [h1]
    have ha : 0 < a := by
      rcases Nat.eq_zero_or_pos a with ha | ha
      · have : t.magnitude = 0 := by rw [← hv, ha]; simp
        rw [this] at hlo
        exact absurd hlo (not_le.2 (by positivity))
      · exact ha
    obtain ⟨c, v⟩ := storeFloat_accurate (t.negative = true) a b ha hb (by rw [hv]; exact hlo)
      (by rw [hv]; exact hhi)
    rw [hv, hsign] at v
    exact ⟨c, v⟩

namespace ElegooCC

/-- The height after a status frame is decided by the `CurrenCoord` block. -/
theorem handleStatus_currentZ (env : Env) (st : StatusObj) (mb : String) (s : ElegooCC) :
    (handleStatus env st mb s).currentZ =
      match st.CurrenCoord with
      | some coordsStr => (parseCurrentZ coordsStr s).currentZ
      | none => s.currentZ := by
  have ht := congrArg ElegooCC.currentZ (handleStatus_tail env st mb s)
  have h1 : (handleStatus env st mb s).currentZ = (beforePrintInfo st s).currentZ := by
    refine ht.trans ?_
    cases hp : st.PrintInfo with
    | none => rfl
    | some p =>
      have he := congrArg ElegooCC.currentZ (handlePrintInfo_eq env p (beforePrintInfo st s))
      exact he
  rw [h1]
  unfold beforePrintInfo parseCurrentZ setMachineStatuses
  cases st.CurrentStatus <;> cases st.CurrenCoord <;>
    first | rfl | (simp only []; split_ifs <;> rfl)

/-- With two commas in the coordinate string the height is parsed from the text
after the second one. -/
theorem parseCurrentZ_two_commas (a b c : List Char) (s : ElegooCC)
    (ha : ',' ∉ a) (hb : ',' ∉ b) :
    (parseCurrentZ (String.mk (a ++ ',' :: (b ++ ',' :: c))) s).currentZ
      = toFloat (String.mk c) := by
  have h1 : indexOf (a ++ ',' :: (b ++ ',' :: c)) ',' 0 = (a.length : Int) :=
    indexOf_first ',' a _ ha
  have h2 : indexOf (a ++ ',' :: (b ++ ',' :: c)) ',' (a.length + 1)
      = ((a.length + 1 + b.length : Nat) : Int) := by
    have := indexOf_after ',' (a ++ [',']) b c hb
    simp only [List.append_assoc, List.singleton_append, List.length_append,
      List.length_singleton] at this
    exact this
  unfold parseCurrentZ
  simp only [h1]
  have e1 : ((a.length : Int) + 1).toNat = a.length + 1 := by omega
  rw [e1, h2]
  have e2 : (((a.length + 1 + b.length : Nat) : Int) + 1).toNat = a.length + 1 + b.length + 1 := by
    omega
  have hd : List.drop (a.length + 1 + b.length + 1) (a ++ ',' :: (b ++ ',' :: c)) = c := by
    have : a ++ ',' :: (b ++ ',' :: c) = (a ++ ',' :: (b ++ [','])) ++ c := by simp
    rw [this]
    have hl : (a ++ ',' :: (b ++ [','])).length = a.length + 1 + b.length + 1 := by
      simp; omega
    rw [← hl, List.drop_left]
  have hc : ((a.length : Int) != -1 && ((a.length + 1 + b.length : Nat) : Int) != -1) = true := by
    simp only [Bool.and_eq_true, bne_iff_ne, ne_eq]
    constructor <;> omega
  rw [if_pos hc, e2, hd]

/-- With fewer than two commas the height is left alone. -/
theorem parseCurrentZ_few_commas (str : String) (s : ElegooCC)
    (h : str.data.count ',' < 2) : parseCurrentZ str s = s := by
  unfold parseCurrentZ
  by_cases hm : ',' ∈ str.data
  · obtain ⟨a, r, he, ha⟩ := split_at_first ',' str.data hm
    have hr : ',' ∉ r := by
      rw [he, List.count_append, List.count_cons_self] at h
      have : List.count ',' r = 0 := by omega
      exact List.count_eq_zero.1 this
    have h1 : indexOf str.data ',' 0 = (a.length : Int) := by
      rw [he]; exact indexOf_first ',' a r ha
    have h2 : indexOf str.data ',' (a.length + 1) = -1 := by
      apply indexOf_absent
      rw [he]
      have : a ++ ',' :: r = (a ++ [',']) ++ r := by simp
      rw [this]
      have hl : (a ++ [',']).length = a.length + 1 := by simp
      rw [← hl, List.drop_left]
      exact hr
    have e1 : ((a.length : Int) + 1).toNat = a.length + 1 := by omega
    simp only [h1, e1, h2]
    simp
  · have h1 : indexOf str.data ',' 0 = -1 := indexOf_absent _ _ _ (by simpa using hm)
    simp only [h1]
    simp

end ElegooCC

/-! ### Cells of an array held as a list -/

theorem getD_set_eq {α : Type} (l : List α) (i : Nat) (a d : α) (h : i < l.length) :
    (l.set i a).getD i d = a := by
  simp [List.getD_eq_getElem?_getD, List.getElem?_set_self, h]

theorem getD_set_ne {α : Type} (l : List α) (i j : Nat) (a d : α) (h : i ≠ j) :
    (l.set i a).getD j d = l.getD j d := by
  simp [List.getD_eq_getElem?_getD, List.getElem?_set_ne h]

/-- A list is the listing of its cells. -/
theorem map_getD_range {α : Type} (l : List α) (d : α) :
    (List.range l.length).map (fun i => l.getD i d) = l := by
  apply List.ext_getElem
  · simp
  · intro n h1 h2
    simp [List.getD_eq_getElem?_getD, List.getElem?_eq_getElem h2]

/-- The listing of the cells `off`, `off + 1`, ... is the list from `off` on. -/
theorem map_getD_offset {α : Type} (l : List α) (d : α) (off n : Nat) (h : off + n = l.length) :
    (List.range n).map (fun i => l.getD (off + i) d) = l.drop off := by
  apply List.ext_getElem
  · simp; omega
  · intro k h1 h2
    have hk : off + k < l.length := by
      simp at h1; omega
    simp [List.getD_eq_getElem?_getD, List.getElem?_eq_getElem hk]

namespace PauseAttemptData

/-! ### The pause-attempt buffer filled from empty -/

/-- One call of `addAttempt` keeps the description of the buffer by the list of
the records added so far. -/
theorem addAttempt_inv (p : PauseAttemptPoint) (sz : Nat) (d : PauseAttemptData)
    (rs : List PauseAttemptPoint) (hsz : sz ≤ MAX_DATA_SIZE)
    (h1 : d.dataBuffer.length = 500) (h2 : d.currentIndex = rs.length % 500)
    (h3 : d.totalPoints = min rs.length 500)
    (h4 : d.isCircularBuffer = decide (500 ≤ rs.length))
    (h5 : ∀ i, i < rs.length → rs.length ≤ i + 500 →
      d.dataBuffer.getD (i % 500) outside = rs.getD i outside) :
    (addAttempt p sz d).dataBuffer.length = 500 ∧
    (addAttempt p sz d).currentIndex = (rs ++ [p]).length % 500 ∧
    (addAttempt p sz d).totalPoints = min (rs ++ [p]).length 500 ∧
    (addAttempt p sz d).isCircularBuffer = decide (500 ≤ (rs ++ [p]).length) ∧
    (∀ i, i < (rs ++ [p]).length → (rs ++ [p]).length ≤ i + 500 →
      (addAttempt p sz d).dataBuffer.getD (i % 500) outside = (rs ++ [p]).getD i outside) := by
  have hcells : ∀ i, i < (rs ++ [p]).length → (rs ++ [p]).length ≤ i + 500 →
      (d.dataBuffer.set d.currentIndex p).getD (i % 500) outside
        = (rs ++ [p]).getD i outside := by
    intro i hi hw
    rw [List.length_append, List.length_singleton] at hi hw
    by_cases hik : i = rs.length
    · subst hik
      rw [h2, getD_set_eq _ _ _ _ (by rw [h1]; omega)]
      simp [List.getD_eq_getElem?_getD]
    · have hlt : i < rs.length := by omega
      rw [h2, getD_set_ne _ _ _ _ _ (by omega), h5 i hlt (by omega)]
      simp [List.getD_eq_getElem?_getD, List.getElem?_append_left hlt]
  unfold addAttempt
  simp only [MAX_POINTS_PER_SERIES]
  rw [if_neg (not_lt.mpr hsz)]
  by_cases hk : 500 ≤ rs.length
  · have hc : d.isCircularBuffer = true := by rw [h4]; exact decide_eq_true hk
    simp only [hc, Bool.not_true, Bool.false_eq_true, if_false]
    refine ⟨by rw [List.length_set]; exact h1, ?_, ?_, ?_, hcells⟩
    · rw [h2, List.length_append, List.length_singleton]; omega
    · rw [h3, List.length_append, List.length_singleton]; omega
    · rw [List.length_append, List.length_singleton]
      exact (decide_eq_true (by omega)).symm
  · have hc : d.isCircularBuffer = false := by rw [h4]; exact decide_eq_false hk
    simp only [hc, Bool.not_false, if_true]
    by_cases hk2 : d.totalPoints + 1 ≥ 500
    · rw [if_pos hk2]
      refine ⟨by rw [List.length_set]; exact h1, ?_, ?_, ?_, hcells⟩
      · show (d.currentIndex + 1) % 500 = _
        rw [h2, List.length_append, List.length_singleton]; omega
      · show 500 = _
        rw [List.length_append, List.length_singleton]
        rw [h3] at hk2; omega
      · show true = _
        rw [List.length_append, List.length_singleton]
        rw [h3] at hk2
        exact (decide_eq_true (by omega)).symm
    · rw [if_neg hk2]
      refine ⟨by rw [List.length_set]; exact h1, ?_, ?_, ?_, hcells⟩
      · show (d.currentIndex + 1) % 500 = _
        rw [h2, List.length_append, List.length_singleton]; omega
      · show d.totalPoints + 1 = _
        rw [List.length_append, List.length_singleton]
        rw [h3] at hk2 ⊢; omega
      · show false = _
        rw [List.length_append, List.length_singleton]
        rw [h3] at hk2
        exact (decide_eq_false (by omega)).symm

/-- The buffer after any calls of `addAttempt` on an empty buffer, none of
which rotates: index, count, mode and the cells of the last 500 records. -/
theorem addAttempts_inv (cells : List PauseAttemptPoint) (hcells : cells.length = 500) :
    ∀ calls : List (PauseAttemptPoint × Nat), (∀ c ∈ calls, c.2 ≤ MAX_DATA_SIZE) →
      (addAll calls (init cells)).dataBuffer.length = 500 ∧
      (addAll calls (init cells)).currentIndex = (calls.map Prod.fst).length % 500 ∧
      (addAll calls (init cells)).totalPoints = min (calls.map Prod.fst).length 500 ∧
      (addAll calls (init cells)).isCircularBuffer
        = decide (500 ≤ (calls.map Prod.fst).length) ∧
      (∀ i, i < (calls.map Prod.fst).length → (calls.map Prod.fst).length ≤ i + 500 →
        (addAll calls (init cells)).dataBuffer.getD (i % 500) outside
          = (calls.map Prod.fst).getD i outside) := by
  intro calls
  induction calls using List.reverseRecOn with
  | nil =>
    intro _
    refine ⟨hcells, rfl, rfl, rfl, ?_⟩
    intro i hi
    exact absurd hi (Nat.not_lt_zero _)
  | append_singleton l c ih =>
    intro hall
    have hl : ∀ x ∈ l, x.2 ≤ MAX_DATA_SIZE := fun x hx => hall x (List.mem_append_left _ hx)
    have hc : c.2 ≤ MAX_DATA_SIZE := hall c (List.mem_append_right _ (List.mem_singleton_self _))
    obtain ⟨i1, i2, i3, i4, i5⟩ := ih hl
    have hstep : addAll (l ++ [c]) (init cells) = addAttempt c.1 c.2 (addAll l (init cells)) := by
      unfold addAll
      rw [List.foldl_append]
      rfl
    have hmap : (l ++ [c]).map Prod.fst = l.map Prod.fst ++ [c.1] := by simp
    rw [hstep, hmap]
    exact addAttempt_inv c.1 c.2 _ _ hc i1 i2 i3 i4 i5

/-- What `getDataAsJSON` lists for a buffer described by the records added. -/
theorem getDataAsJSON_of_inv (n : Nat) (d : PauseAttemptData) (rs : List PauseAttemptPoint)
    (h2 : d.currentIndex = rs.length % 500)
    (h3 : d.totalPoints = min rs.length 500)
    (h4 : d.isCircularBuffer = decide (500 ≤ rs.length))
    (h5 : ∀ i, i < rs.length → rs.length ≤ i + 500 →
      d.dataBuffer.getD (i % 500) outside = rs.getD i outside) :
    getDataAsJSON n d = rs.drop (rs.length - min n (min rs.length 500)) := by
  have hidx : ∀ i, i < min n (min rs.length 500) →
      d.dataBuffer.getD
        (if d.isCircularBuffer then
          ((if d.isCircularBuffer then
              usub (d.currentIndex + 500) (min n d.totalPoints) % 500
            else if d.totalPoints > min n d.totalPoints then
              d.totalPoints - min n d.totalPoints else 0) + i) % 500
         else
          (if d.isCircularBuffer then
              usub (d.currentIndex + 500) (min n d.totalPoints) % 500
            else if d.totalPoints > min n d.totalPoints then
              d.totalPoints - min n d.totalPoints else 0) + i) outside
        = rs.getD (rs.length - min n (min rs.length 500) + i) outside := by
    intro i hi
    have hu : usub (d.currentIndex + 500) (min n d.totalPoints)
        = d.currentIndex + 500 - min n d.totalPoints := by
      apply usub_eq_sub
      · rw [h3]; omega
      · rw [h2]; unfold WORD; norm_num; omega
    by_cases hk : 500 ≤ rs.length
    · have hc : d.isCircularBuffer = true := by rw [h4]; exact decide_eq_true hk
      simp only [hc, if_true]
      rw [hu, h2, h3]
      have e : ((rs.length % 500 + 500 - min n (min rs.length 500)) % 500 + i) % 500
          = (rs.length - min n (min rs.length 500) + i) % 500 := by omega
      rw [e]
      exact h5 _ (by omega) (by omega)
    · have hc : d.isCircularBuffer = false := by rw [h4]; exact decide_eq_false hk
      simp only [hc, Bool.false_eq_true, if_false]
      rw [h3]
      have e : (if min rs.length 500 > min n (min rs.length 500) then
            min rs.length 500 - min n (min rs.length 500) else 0) + i
          = (rs.length - min n (min rs.length 500) + i) % 500 := by
        split_ifs <;> omega
      rw [e]
      exact h5 _ (by omega) (by omega)
  unfold getDataAsJSON
  simp only [MAX_POINTS_PER_SERIES]
  apply List.ext_getElem
  · rw [List.length_map, List.length_range, List.length_drop, h3]
    omega
  · intro k hk1 hk2
    rw [List.length_map, List.length_range, h3] at hk1
    rw [List.getElem_map, List.getElem_range, List.getElem_drop]
    have := hidx k hk1
    rw [this]
    have hlt : rs.length - min n (min rs.length 500) + k < rs.length := by omega
    simp [List.getD_eq_getElem?_getD, List.getElem?_eq_getElem hlt]

end PauseAttemptData

namespace PauseAttemptData

/-! ### `rotateData` -/

end PauseAttemptData

namespace TimeSeriesData

/-! ### The time-series buffer -/

theorem writeDataToFile_fields (d : TimeSeriesData) :
    (writeDataToFile d).dataBuffer = d.dataBuffer ∧
    (writeDataToFile d).currentIndex = d.currentIndex ∧
    (writeDataToFile d).totalPoints = d.totalPoints ∧
    (writeDataToFile d).isCircularBuffer = d.isCircularBuffer :=
  ⟨rfl, rfl, rfl, rfl⟩

/-- The call divides by zero exactly when the series is empty or no point is
asked for. -/
theorem readIndices_eq_none_iff (maxPoints : Nat) (d : TimeSeriesData) :
    readIndices maxPoints d = none ↔ d.totalPoints = 0 ∨ maxPoints = 0 := by
  unfold readIndices
  simp only []
  by_cases h : (if d.totalPoints < maxPoints then d.totalPoints else maxPoints) = 0
  · rw [if_pos h]
    simp only [true_iff]
    split_ifs at h with h1
    · exact Or.inl h
    · exact Or.inr h
  · rw [if_neg h]
    have hne : ¬ (d.totalPoints = 0 ∨ maxPoints = 0) := by
      intro hc
      apply h
      rcases hc with hc | hc
      · split_ifs with h1
        · exact hc
        · omega
      · split_ifs with h1
        · omega
        · exact hc
    split_ifs <;> simp [hne]

/-- When the call does not divide by zero it reads at most `maxPoints` cells,
all inside the array (for a linear buffer, given a write position inside it). -/
theorem readIndices_bounds (maxPoints : Nat) (d : TimeSeriesData) (l : List Nat)
    (hci : d.isCircularBuffer = false → d.currentIndex ≤ MAX_POINTS_PER_SERIES)
    (h : readIndices maxPoints d = some l) :
    l.length ≤ maxPoints ∧ ∀ i ∈ l, i < MAX_POINTS_PER_SERIES := by
  unfold readIndices at h
  simp only [] at h
  have hp : (if d.totalPoints < maxPoints then d.totalPoints else maxPoints) ≤ maxPoints := by
    split_ifs <;> omega
  generalize (if d.totalPoints < maxPoints then d.totalPoints else maxPoints) = p at h hp
  by_cases h0 : p = 0
  · rw [if_pos h0] at h
    exact Option.noConfusion h
  · rw [if_neg h0] at h
    generalize (if d.totalPoints / p > 1 then d.totalPoints / p else 1) = step at h
    rcases Bool.eq_false_or_eq_true d.isCircularBuffer with hc | hc
    · rw [if_pos hc] at h
      have hl := Option.some.inj h
      rw [← hl]
      refine ⟨by rw [List.length_map, List.length_range]; exact hp, ?_⟩
      intro i hi
      obtain ⟨k, _, hk⟩ := List.mem_map.1 hi
      rw [← hk]
      exact Nat.mod_lt _ (by decide)
    · rw [if_neg (by rw [hc]; decide)] at h
      generalize (if wrapInt (usub d.currentIndex (p * step) : Nat) > 0
        then usub d.currentIndex (p * step) else 0) = startIndex at h
      have hl := Option.some.inj h
      rw [← hl]
      refine ⟨?_, ?_⟩
      · rw [List.length_map]
        exact le_trans (List.takeWhile_sublist _).length_le
          (by rw [List.length_range]; exact hp)
      · intro i hi
        obtain ⟨k, hk1, hk⟩ := List.mem_map.1 hi
        have hpred := List.mem_takeWhile_imp hk1
        rw [← hk]
        have hlt := of_decide_eq_true hpred
        have := hci hc
        omega

/-- One call of `addDataPoint` keeps the description of the buffer by the list
of the points added so far. -/
theorem addDataPoint_inv (p : DataPoint) (d : TimeSeriesData) (rs : List DataPoint)
    (h1 : d.dataBuffer.length = 1000) (h2 : d.currentIndex = rs.length % 1000)
    (h3 : d.totalPoints = min rs.length 1000)
    (h4 : d.isCircularBuffer = decide (1000 ≤ rs.length))
    (h5 : ∀ i, i < rs.length → rs.length ≤ i + 1000 →
      d.dataBuffer.getD (i % 1000) outside = rs.getD i outside) :
    (addDataPoint p.timestamp p.value d).dataBuffer.length = 1000 ∧
    (addDataPoint p.timestamp p.value d).currentIndex = (rs ++ [p]).length % 1000 ∧
    (addDataPoint p.timestamp p.value d).totalPoints = min (rs ++ [p]).length 1000 ∧
    (addDataPoint p.timestamp p.value d).isCircularBuffer
      = decide (1000 ≤ (rs ++ [p]).length) ∧
    (∀ i, i < (rs ++ [p]).length → (rs ++ [p]).length ≤ i + 1000 →
      (addDataPoint p.timestamp p.value d).dataBuffer.getD (i % 1000) outside
        = (rs ++ [p]).getD i outside) := by
  have hcells : ∀ i, i < (rs ++ [p]).length → (rs ++ [p]).length ≤ i + 1000 →
      (d.dataBuffer.set d.currentIndex ⟨p.timestamp, p.value⟩).getD (i % 1000) outside
        = (rs ++ [p]).getD i outside := by
    intro i hi hw
    rw [List.length_append, List.length_singleton] at hi hw
    by_cases hik : i = rs.length
    · subst hik
      rw [h2, getD_set_eq _ _ _ _ (by rw [h1]; omega)]
      simp [List.getD_eq_getElem?_getD]
    · have hlt : i < rs.length := by omega
      rw [h2, getD_set_ne _ _ _ _ _ (by omega), h5 i hlt (by omega)]
      simp [List.getD_eq_getElem?_getD, List.getElem?_append_left hlt]
  have hw : ∀ t : TimeSeriesData,
      (t.dataBuffer.length = 1000 ∧ t.currentIndex = (rs ++ [p]).length % 1000 ∧
        t.totalPoints = min (rs ++ [p]).length 1000 ∧
        t.isCircularBuffer = decide (1000 ≤ (rs ++ [p]).length) ∧
        (∀ i, i < (rs ++ [p]).length → (rs ++ [p]).length ≤ i + 1000 →
          t.dataBuffer.getD (i % 1000) outside = (rs ++ [p]).getD i outside)) →
      ((if t.totalPoints % 10 == 0 then writeDataToFile t else t).dataBuffer.length = 1000 ∧
        (if t.totalPoints % 10 == 0 then writeDataToFile t else t).currentIndex
          = (rs ++ [p]).length % 1000 ∧
        (if t.totalPoints % 10 == 0 then writeDataToFile t else t).totalPoints
          = min (rs ++ [p]).length 1000 ∧
        (if t.totalPoints % 10 == 0 then writeDataToFile t else t).isCircularBuffer
          = decide (1000 ≤ (rs ++ [p]).length) ∧
        (∀ i, i < (rs ++ [p]).length → (rs ++ [p]).length ≤ i + 1000 →
          (if t.totalPoints % 10 == 0 then writeDataToFile t else t).dataBuffer.getD
            (i % 1000) outside = (rs ++ [p]).getD i outside)) := by
    intro t ht
    split_ifs
    · exact ht
    · exact ht
  unfold addDataPoint
  simp only [MAX_POINTS_PER_SERIES]
  apply hw
  by_cases hk : 1000 ≤ rs.length
  · have hc : d.isCircularBuffer = true := by rw [h4]; exact decide_eq_true hk
    simp only [hc, Bool.not_true, Bool.false_eq_true, if_false]
    refine ⟨by rw [List.length_set]; exact h1, ?_, ?_, ?_, hcells⟩
    · rw [h2, List.length_append, List.length_singleton]; omega
    · rw [h3, List.length_append, List.length_singleton]; omega
    · rw [List.length_append, List.length_singleton]
      exact (decide_eq_true (by omega)).symm
  · have hc : d.isCircularBuffer = false := by rw [h4]; exact decide_eq_false hk
    simp only [hc, Bool.not_false, if_true]
    by_cases hk2 : d.currentIndex + 1 ≥ 1000
    · rw [if_pos hk2]
      refine ⟨by rw [List.length_set]; exact h1, ?_, ?_, ?_, hcells⟩
      · show 0 = _
        rw [List.length_append, List.length_singleton]
        rw [h2] at hk2; omega
      · show 1000 = _
        rw [List.length_append, List.length_singleton]
        rw [h2] at hk2; omega
      · show true = _
        rw [List.length_append, List.length_singleton]
        rw [h2] at hk2
        exact (decide_eq_true (by omega)).symm
    · rw [if_neg hk2]
      refine ⟨by rw [List.length_set]; exact h1, ?_, ?_, ?_, hcells⟩
      · show d.currentIndex + 1 = _
        rw [h2, List.length_append, List.length_singleton]
        rw [h2] at hk2; omega
      · show d.totalPoints + 1 = _
        rw [List.length_append, List.length_singleton]
        rw [h3]; rw [h2] at hk2; omega
      · show false = _
        rw [List.length_append, List.length_singleton]
        rw [h2] at hk2
        exact (decide_eq_false (by omega)).symm

/-- The buffer after any calls of `addDataPoint` on an empty series: index,
count, mode and the cells of the last 1000 points. -/
theorem addDataPoints_inv (cells : List DataPoint) (hcells : cells.length = 1000) :
    ∀ points : List DataPoint,
      (addAll points (init cells none)).dataBuffer.length = 1000 ∧
      (addAll points (init cells none)).currentIndex = points.length % 1000 ∧
      (addAll points (init cells none)).totalPoints = min points.length 1000 ∧
      (addAll points (init cells none)).isCircularBuffer = decide (1000 ≤ points.length) ∧
      (∀ i, i < points.length → points.length ≤ i + 1000 →
        (addAll points (init cells none)).dataBuffer.getD (i % 1000) outside
          = points.getD i outside) := by
  intro points
  induction points using List.reverseRecOn with
  | nil =>
    refine ⟨hcells, rfl, rfl, rfl, ?_⟩
    intro i hi
    exact absurd hi (Nat.not_lt_zero _)
  | append_singleton l c ih =>
    obtain ⟨i1, i2, i3, i4, i5⟩ := ih
    have hstep : addAll (l ++ [c]) (init cells none)
        = addDataPoint c.timestamp c.value (addAll l (init cells none)) := by
      unfold addAll
      rw [List.foldl_append]
      rfl
    rw [hstep]
    exact addDataPoint_inv c _ _ i1 i2 i3 i4 i5

/-- The copy loop of `loadDataFromFile`, cell by cell. -/
theorem loadCells_getD :
    ∀ (data : List DataPoint) (start : Nat) (buf : List DataPoint) (j : Nat),
      start + data.length ≤ 1000 → start + data.length ≤ buf.length →
      (loadCells data start buf).getD j outside =
        if start ≤ j ∧ j < start + data.length then data.getD (j - start) outside
        else buf.getD j outside := by
  intro data
  induction data with
  | nil =>
    intro start buf j _ _
    have : ¬ (start ≤ j ∧ j < start + ([] : List DataPoint).length) := by
      simp only [List.length_nil]; omega
    rw [if_neg this]
    rfl
  | cons p rest ih =>
    intro start buf j h1 h2
    rw [List.length_cons] at h1 h2
    have hlt : ¬ start ≥ MAX_POINTS_PER_SERIES := by unfold MAX_POINTS_PER_SERIES; omega
    unfold loadCells
    rw [if_neg hlt, ih (start + 1) (buf.set start p) j (by omega)
      (by rw [List.length_set]; omega)]
    by_cases hj : j = start
    · subst hj
      have c1 : ¬ (j + 1 ≤ j ∧ j < j + 1 + rest.length) := by omega
      have c2 : j ≤ j ∧ j < j + (p :: rest).length := by
        rw [List.length_cons]; omega
      rw [if_neg c1, if_pos c2, getD_set_eq _ _ _ _ (by omega)]
      simp
    · rw [getD_set_ne _ _ _ _ _ (fun h => hj h.symm)]
      by_cases hin : start + 1 ≤ j ∧ j < start + 1 + rest.length
      · have c2 : start ≤ j ∧ j < start + (p :: rest).length := by
          rw [List.length_cons]; omega
        rw [if_pos hin, if_pos c2]
        have e : j - start = (j - (start + 1)) + 1 := by omega
        rw [e]
        rfl
      · have c2 : ¬ (start ≤ j ∧ j < start + (p :: rest).length) := by
          rw [List.length_cons]; omega
        rw [if_neg hin, if_neg c2]

/-- What a restart loads from the file a wrapped series wrote: the cells hold
the points in chronological order from cell 0 on, and the write position is the
one of the series that wrote the file. -/
theorem reload_circular (d : TimeSeriesData) (cells : List DataPoint)
    (hcells : cells.length = 1000)
    (hcirc : d.isCircularBuffer = true) (hci : d.currentIndex < 1000) :
    (init cells (writeDataToFile d).file).isCircularBuffer = true ∧
    (init cells (writeDataToFile d).file).currentIndex = d.currentIndex ∧
    (init cells (writeDataToFile d).file).totalPoints = d.totalPoints ∧
    (∀ j, j < 1000 →
      (init cells (writeDataToFile d).file).dataBuffer.getD j outside
        = d.dataBuffer.getD ((d.currentIndex + j) % 1000) outside) := by
  have hfile : (writeDataToFile d).file = some
      { circular := true
        currentIndex := d.currentIndex
        totalPoints := d.totalPoints
        data := (List.range' d.currentIndex (1000 - d.currentIndex)).map
            (fun i => d.dataBuffer.getD i outside) ++
          (List.range d.currentIndex).map (fun i => d.dataBuffer.getD i outside) } := by
    unfold writeDataToFile
    simp only [hcirc, if_true, MAX_POINTS_PER_SERIES]
  unfold init loadDataFromFile
  rw [hfile]
  simp only []
  refine ⟨trivial, trivial, trivial, ?_⟩
  intro j hj
  have hdl : ((List.range' d.currentIndex (1000 - d.currentIndex)).map
      (fun i => d.dataBuffer.getD i outside) ++
      (List.range d.currentIndex).map (fun i => d.dataBuffer.getD i outside)).length = 1000 := by
    simp; omega
  rw [loadCells_getD _ 0 cells j (by rw [hdl]) (by rw [hdl, hcells])]
  rw [if_pos ⟨Nat.zero_le _, by rw [hdl]; omega⟩, Nat.sub_zero]
  by_cases hj2 : j < 1000 - d.currentIndex
  · have e : (d.currentIndex + j) % 1000 = d.currentIndex + j := by omega
    rw [e]
    simp [List.getD_eq_getElem?_getD, List.getElem?_append_left, hj2, List.getElem?_range', hj2]
  · have e : (d.currentIndex + j) % 1000 = j - (1000 - d.currentIndex) := by omega
    rw [e]
    have hl1 : ((List.range' d.currentIndex (1000 - d.currentIndex)).map
        (fun i => d.dataBuffer.getD i outside)).length = 1000 - d.currentIndex := by simp
    have hge : ((List.range' d.currentIndex (1000 - d.currentIndex)).map
        (fun i => d.dataBuffer.getD i outside)).length ≤ j := by rw [hl1]; omega
    rw [List.getD_eq_getElem?_getD, List.getElem?_append_right hge, hl1]
    have hlt : j - (1000 - d.currentIndex) < d.currentIndex := by omega
    simp [List.getElem?_range, hlt, List.getD_eq_getElem?_getD]

/-- What a restart loads from the file a linear series wrote: the same write
position and count, and the same points in the cells below the write
position. -/
theorem reload_linear (d : TimeSeriesData) (cells : List DataPoint)
    (hcells : cells.length = 1000)
    (hlin : d.isCircularBuffer = false) (hci : d.currentIndex ≤ 1000) :
    (init cells (writeDataToFile d).file).isCircularBuffer = false ∧
    (init cells (writeDataToFile d).file).currentIndex = d.currentIndex ∧
    (init cells (writeDataToFile d).file).totalPoints = d.totalPoints ∧
    (∀ j, j < d.currentIndex →
      (init cells (writeDataToFile d).file).dataBuffer.getD j outside
        = d.dataBuffer.getD j outside) := by
  have hfile : (writeDataToFile d).file = some
      { circular := false
        currentIndex := d.currentIndex
        totalPoints := d.totalPoints
        data := (List.range d.currentIndex).map (fun i => d.dataBuffer.getD i outside) } := by
    unfold writeDataToFile
    simp only [hlin, Bool.false_eq_true, if_false]
  unfold init loadDataFromFile
  rw [hfile]
  simp only []
  refine ⟨trivial, trivial, trivial, ?_⟩
  intro j hj
  have hdl : ((List.range d.currentIndex).map
      (fun i => d.dataBuffer.getD i outside)).length = d.currentIndex := by simp
  rw [loadCells_getD _ 0 cells j (by rw [hdl]; omega) (by rw [hdl, hcells]; omega)]
  rw [if_pos ⟨Nat.zero_le _, by rw [hdl]; omega⟩, Nat.sub_zero]
  simp [List.getD_eq_getElem?_getD, List.getElem?_range, hj]

/-- With cutoff 0 `getRecentData` lists a circular buffer from the write
position on. -/
theorem getRecentData_circular_all (d : TimeSeriesData) (now minutes : Nat)
    (hcirc : d.isCircularBuffer = true) (hcut : usub now (minutes * 60) = 0) :
    getRecentData now minutes d =
      (List.range 1000).map
        (fun i => d.dataBuffer.getD ((d.currentIndex + i) % 1000) outside) := by
  unfold getRecentData
  simp only [hcirc, if_true, hcut, MAX_POINTS_PER_SERIES]
  apply List.filter_eq_self.2
  intro a _
  exact decide_eq_true (Nat.zero_le _)

/-- What `getDataAsJSON` reads when all 1000 points of a full circular buffer
are asked for. -/
theorem readIndices_circular_all (d : TimeSeriesData) (hcirc : d.isCircularBuffer = true)
    (htot : d.totalPoints = 1000) (hci : d.currentIndex < 1000) :
    readIndices 1000 d =
      some ((List.range 1000).map (fun i => (d.currentIndex + i) % 1000)) := by
  have hu : usub (d.currentIndex + 1000) (1000 * 1) = d.currentIndex := by
    rw [usub_eq_sub _ _ (by omega) (by unfold WORD; omega)]
    omega
  unfold readIndices
  simp only [htot, hcirc, MAX_POINTS_PER_SERIES, lt_irrefl, if_false, if_true]
  rw [hu]
  refine congrArg some (List.map_congr_left ?_)
  intro i hi
  have hi2 : i < 1000 := List.mem_range.1 hi
  have hw : d.currentIndex % 1000 + i * 1 < WORD := by
    unfold WORD
    norm_num
    omega
  have e : (d.currentIndex % 1000 + i * 1) % WORD = d.currentIndex + i := by
    rw [Nat.mod_eq_of_lt hw]
    omega
  rw [e]

end TimeSeriesData

/-- The content of the scenario series that has just wrapped. -/
theorem wrappedSeries_inv :
    wrappedSeries.dataBuffer.length = 1000 ∧
    wrappedSeries.currentIndex = 1 ∧
    wrappedSeries.totalPoints = 1000 ∧
    wrappedSeries.isCircularBuffer = true ∧
    (∀ i, 1 ≤ i → i < 1001 →
      wrappedSeries.dataBuffer.getD (i % 1000) TimeSeriesData.outside = sample i) := by
  have hlen : ((List.range 1001).map sample).length = 1001 := by simp
  have h := TimeSeriesData.addDataPoints_inv (List.replicate 1000 TimeSeriesData.outside)
    (List.length_replicate _ _) ((List.range 1001).map sample)
  rw [hlen] at h
  obtain ⟨i1, i2, i3, i4, i5⟩ := h
  have j1 : wrappedSeries.dataBuffer.length = 1000 := i1
  have j2 : wrappedSeries.currentIndex = 1001 % 1000 := i2
  have j3 : wrappedSeries.totalPoints = min 1001 1000 := i3
  have j4 : wrappedSeries.isCircularBuffer = decide (1000 ≤ 1001) := i4
  have j5 : ∀ i, i < 1001 → 1001 ≤ i + 1000 →
      wrappedSeries.dataBuffer.getD (i % 1000) TimeSeriesData.outside
        = ((List.range 1001).map sample).getD i TimeSeriesData.outside := i5
  refine ⟨j1, j2.trans (by decide), j3.trans (by decide), j4.trans (by decide), ?_⟩
  intro i hlo hhi
  have hcell : wrappedSeries.dataBuffer.getD (i % 1000) TimeSeriesData.outside
      = ((List.range 1001).map sample).getD i TimeSeriesData.outside := j5 i hhi (by omega)
  rw [hcell]
  simp [List.getD_eq_getElem?_getD, List.getElem?_eq_getElem, hhi]

/-- The content of the series reloaded from the file of the wrapped one: the
cell `j` holds the sample `j + 1`, and the write position is 1. -/
theorem reloadedSeries_inv :
    reloadedSeries.isCircularBuffer = true ∧
    reloadedSeries.currentIndex = 1 ∧
    reloadedSeries.totalPoints = 1000 ∧
    (∀ j, j < 1000 →
      reloadedSeries.dataBuffer.getD j TimeSeriesData.outside = sample (j + 1)) := by
  obtain ⟨_, w2, w3, w4, w5⟩ := wrappedSeries_inv
  have h := TimeSeriesData.reload_circular wrappedSeries
    (List.replicate 1000 TimeSeriesData.outside) (List.length_replicate _ _) w4
    (by rw [w2]; decide)
  rw [w2, w3] at h
  refine ⟨h.1, h.2.1, h.2.2.1, ?_⟩
  intro j hj
  have hc : reloadedSeries.dataBuffer.getD j TimeSeriesData.outside
      = wrappedSeries.dataBuffer.getD ((1 + j) % 1000) TimeSeriesData.outside := h.2.2.2 j hj
  rw [hc, w5 (1 + j) (by omega) (by omega), Nat.add_comm]

/-! ## Properties -/

/-- C1, the code on the scenario. Budget 2, pause dispatched at 30 s, transport
connected, filament stopped and print status "printing" throughout, every
pending ack timed out before the verification timeout: by 78 s the recorded
attempts are initial(0), retry(1), initial(0), retry(1), initial(0), retry(1),
initial(0). No retry(2) and no max-exceeded is recorded, and the tick at
78 s still transmits a pause command. -/
theorem retry_budget_two_never_exhausted :
    (envAt 2 0).settings.max_pause_retries = 2 ∧
    attemptKinds (pauseDispatched 2) = [(PAUSE_ATTEMPT_INITIAL, 0)] ∧
    attemptKinds (run (stillPrinting 2) (pauseDispatched 2)) =
      [(PAUSE_ATTEMPT_INITIAL, 0), (PAUSE_ATTEMPT_RETRY, 1), (PAUSE_ATTEMPT_INITIAL, 0),
        (PAUSE_ATTEMPT_RETRY, 1), (PAUSE_ATTEMPT_INITIAL, 0), (PAUSE_ATTEMPT_RETRY, 1),
        (PAUSE_ATTEMPT_INITIAL, 0)] ∧
    (run (stillPrinting 2) (pauseDispatched 2)).sent =
      (run (stillPrinting 2).dropLast (pauseDispatched 2)).sent ++
        [ElegooCC.jsonPayload (ElegooCC.requestId (envAt 2 78000).uuid) SDCP_COMMAND_PAUSE_PRINT
          "ABCD1234" (envAt 2 78000).getTime] ∧
    (run (stillPrinting 2) (pauseDispatched 2)).pauseRetryCount = 0 := by
  decide

/-- C2. The retry count has reached the configured maximum (budget 0) and the
tick at 46 s records max-exceeded; with no disconnect and no status frame
afterwards, that same tick and the later tick at 62 s (after its keepalive)
each transmit a pause command: giving up is not latched. -/
theorem pause_sent_after_max_exceeded :
    (envAt 0 0).settings.max_pause_retries = 0 ∧
    aboutToExhaust.pauseRetryCount = 0 ∧
    attemptKinds aboutToExhaust = [(PAUSE_ATTEMPT_INITIAL, 0)] ∧
    attemptKinds exhaustedState =
      [(PAUSE_ATTEMPT_INITIAL, 0), (PAUSE_ATTEMPT_MAX_EXCEEDED, 0), (PAUSE_ATTEMPT_INITIAL, 0)] ∧
    exhaustedState.sent = aboutToExhaust.sent ++
      [ElegooCC.jsonPayload (ElegooCC.requestId (envAt 0 46000).uuid) SDCP_COMMAND_PAUSE_PRINT
        "ABCD1234" (envAt 0 46000).getTime] ∧
    (run [.tick (envAt 0 52000), .tick (envAt 0 62000)] exhaustedState).sent =
      (run [.tick (envAt 0 52000)] exhaustedState).sent ++
        ["ping", ElegooCC.jsonPayload (ElegooCC.requestId (envAt 0 62000).uuid) SDCP_COMMAND_PAUSE_PRINT
          "ABCD1234" (envAt 0 62000).getTime] := by
  decide

/-- C3. For a configuration whose retry budget `M` is non-negative, in every
state reached from the constructor's state by any sequence of calls (setup,
ticks, transport events, `pausePrint`, `continuePrint`, the diagnostic
trigger), the retry counter satisfies `0 ≤ pauseRetryCount ≤ M`. -/
theorem pauseRetryCount_bounded (M : Int) (hM : 0 ≤ M)
    (sink : Option (List PauseAttemptPoint)) (steps : List Step)
    (hcfg : ∀ st ∈ steps, st.env.settings.max_pause_retries = M) :
    0 ≤ (run steps (ElegooCC.init sink)).pauseRetryCount ∧
      (run steps (ElegooCC.init sink)).pauseRetryCount ≤ M := by
  have gen : ∀ (l : List Step) (s : ElegooCC),
      (∀ st ∈ l, st.env.settings.max_pause_retries = M) →
      0 ≤ s.pauseRetryCount → s.pauseRetryCount ≤ M →
      0 ≤ (run l s).pauseRetryCount ∧ (run l s).pauseRetryCount ≤ M := by
    intro l
    induction l with
    | nil => intro s _ h0 h1; exact ⟨h0, h1⟩
    | cons st rest ih =>
      intro s hl h0 h1
      have hst : st.env.settings.max_pause_retries = M := hl st (List.mem_cons_self _ _)
      have hb := Step.apply_bounded st s h0 (hst ▸ h1)
      rw [hst] at hb
      exact ih (st.apply s) (fun x hx => hl x (List.mem_cons_of_mem _ hx)) hb.1 hb.2
  exact gen steps (ElegooCC.init sink) hcfg (le_refl _) hM

/-- Witness for C3: the stalled print with budget 2, through three
verification timeouts. -/
theorem pauseRetryCount_bounded_witness :
    (0 : Int) ≤ 2 ∧
    (∀ st ∈ printStarted (envAt 2) ++ [Step.tick (envAt 2 30000)] ++ stillPrinting 2,
      st.env.settings.max_pause_retries = 2) ∧
    0 ≤ (run (printStarted (envAt 2) ++ [Step.tick (envAt 2 30000)] ++ stillPrinting 2)
      (ElegooCC.init (some []))).pauseRetryCount ∧
    (run (printStarted (envAt 2) ++ [Step.tick (envAt 2 30000)] ++ stillPrinting 2)
      (ElegooCC.init (some []))).pauseRetryCount ≤ 2 :=
  ⟨by decide, by decide,
    pauseRetryCount_bounded 2 (by decide) (some [])
      (printStarted (envAt 2) ++ [Step.tick (envAt 2 30000)] ++ stillPrinting 2) (by decide)⟩

/-- C4, the code on the scenario. A pause is in verification since 30 s
(timeout 15 s). A status frame at 33 s reports "paused": the pause state is
cleared, but neither the frame nor the following tick records a "success"
attempt. Had the frame reported "pausing", the tick would have recorded it. -/
theorem paused_frame_records_no_success :
    (pauseDispatched 2).pauseCommandSent = true ∧
    attemptKinds (pauseDispatched 2) = [(PAUSE_ATTEMPT_INITIAL, 0)] ∧
    attemptKinds (run
      [.event (envAt 2 33000) WStype_TEXT (some (statusFrame SDCP_PRINT_STATUS_PAUSED)),
        .tick (envAt 2 36000)] (pauseDispatched 2)) = [(PAUSE_ATTEMPT_INITIAL, 0)] ∧
    (run
      [.event (envAt 2 33000) WStype_TEXT (some (statusFrame SDCP_PRINT_STATUS_PAUSED)),
        .tick (envAt 2 36000)] (pauseDispatched 2)).pauseCommandSent = false ∧
    attemptKinds (run
      [.event (envAt 2 33000) WStype_TEXT (some (statusFrame SDCP_PRINT_STATUS_PAUSING)),
        .tick (envAt 2 36000)] (pauseDispatched 2)) =
      [(PAUSE_ATTEMPT_INITIAL, 0), (PAUSE_ATTEMPT_SUCCESS, 0)] := by
  decide

/-- C5, counterexample. 30 s into a print with the runout switch open and
pause-on-runout disabled: every gate holds and `filamentStopped` is true at
decision time, yet the tick dispatches nothing. -/
theorem stopped_filament_vetoed_by_runout :
    (envWith (settingsWith 5 false) 0 30000).settings.enabled = true ∧
    usub 30000 (ElegooCC.beforePauseDecision (envWith (settingsWith 5 false) 0 30000)
        runoutIgnoredState).startedAt
      ≥ toULong (envWith (settingsWith 5 false) 0 30000).settings.start_print_timeout ∧
    (ElegooCC.beforePauseDecision (envWith (settingsWith 5 false) 0 30000)
      runoutIgnoredState).webSocketConnected = true ∧
    (ElegooCC.beforePauseDecision (envWith (settingsWith 5 false) 0 30000)
      runoutIgnoredState).waitingForAck = false ∧
    (ElegooCC.beforePauseDecision (envWith (settingsWith 5 false) 0 30000)
      runoutIgnoredState).isPrinting = true ∧
    wrapInt ((ElegooCC.beforePauseDecision (envWith (settingsWith 5 false) 0 30000)
        runoutIgnoredState).totalTicks
      - (ElegooCC.beforePauseDecision (envWith (settingsWith 5 false) 0 30000)
        runoutIgnoredState).currentTicks) ≥ 100 ∧
    (ElegooCC.beforePauseDecision (envWith (settingsWith 5 false) 0 30000)
      runoutIgnoredState).pauseCommandSent = false ∧
    (ElegooCC.beforePauseDecision (envWith (settingsWith 5 false) 0 30000)
      runoutIgnoredState).filamentStopped = true ∧
    (ElegooCC.beforePauseDecision (envWith (settingsWith 5 false) 0 30000)
      runoutIgnoredState).filamentRunout = true ∧
    (envWith (settingsWith 5 false) 0 30000).settings.pause_on_runout = false ∧
    ElegooCC.loop (envWith (settingsWith 5 false) 0 30000) runoutIgnoredState =
      ElegooCC.beforePauseDecision (envWith (settingsWith 5 false) 0 30000) runoutIgnoredState ∧
    (ElegooCC.loop (envWith (settingsWith 5 false) 0 30000) runoutIgnoredState).sent =
      runoutIgnoredState.sent ++ ["ping"] ∧
    (ElegooCC.loop (envWith (settingsWith 5 false) 0 30000) runoutIgnoredState).pauseAttemptData =
      some [] := by
  decide

/-- C5, amended. On a tick where the feature is enabled, the grace period has
elapsed, the transport is connected, no ack is pending, the printer is actively
printing, at least 100 ticks remain, no pause is in verification and
`filamentStopped` is true, a pause is dispatched unless `filamentRunout` is
true while pause-on-runout is disabled; in that case the tick dispatches
nothing. -/
theorem stopped_filament_dispatch (env : Env) (s : ElegooCC)
    (henabled : env.settings.enabled = true)
    (hgrace : usub env.millis (ElegooCC.beforePauseDecision env s).startedAt
      ≥ toULong env.settings.start_print_timeout)
    (hconn : (ElegooCC.beforePauseDecision env s).webSocketConnected = true)
    (hack : (ElegooCC.beforePauseDecision env s).waitingForAck = false)
    (hprint : (ElegooCC.beforePauseDecision env s).isPrinting = true)
    (hticks : wrapInt ((ElegooCC.beforePauseDecision env s).totalTicks
      - (ElegooCC.beforePauseDecision env s).currentTicks) ≥ 100)
    (hidle : (ElegooCC.beforePauseDecision env s).pauseCommandSent = false)
    (hstopped : (ElegooCC.beforePauseDecision env s).filamentStopped = true) :
    (¬ ((ElegooCC.beforePauseDecision env s).filamentRunout = true ∧
          env.settings.pause_on_runout = false) →
      ElegooCC.loop env s = ElegooCC.pausePrint env (ElegooCC.beforePauseDecision env s) ∧
      (ElegooCC.loop env s).sent = (ElegooCC.beforePauseDecision env s).sent ++
        [ElegooCC.jsonPayload (ElegooCC.requestId env.uuid) SDCP_COMMAND_PAUSE_PRINT
          (ElegooCC.beforePauseDecision env s).mainboardID env.getTime] ∧
      (ElegooCC.loop env s).pauseAttemptData =
        (ElegooCC.beforePauseDecision env s).pauseAttemptData.map
          (fun l => l ++ [⟨env.getTime, PAUSE_ATTEMPT_INITIAL, 0,
            (ElegooCC.beforePauseDecision env s).printStatus⟩]) ∧
      (ElegooCC.loop env s).pauseCommandSent = true ∧
      (ElegooCC.loop env s).pauseRetryCount = 0) ∧
    (((ElegooCC.beforePauseDecision env s).filamentRunout = true ∧
          env.settings.pause_on_runout = false) →
      ElegooCC.loop env s = ElegooCC.beforePauseDecision env s) := by
  constructor
  · intro hveto
    have hst := ElegooCC.status_of_isPrinting _ hprint
    have hl := ElegooCC.loop_dispatch env s henabled hgrace hconn hack hprint hticks hidle
      (Or.inl hstopped) hveto
    refine ⟨?_, ?_, ?_, ?_, ?_⟩
    · rw [hl]
      exact (ElegooCC.pausePrint_eq_dispatch env _ hconn hack hst.1 hst.2.1 hst.2.2).symm
    all_goals rw [hl]
  · intro hveto
    apply ElegooCC.loop_eq_before
    have hsh : ElegooCC.shouldPausePrint env env.millis (ElegooCC.beforePauseDecision env s)
        = false := by
      cases hb : ElegooCC.shouldPausePrint env env.millis (ElegooCC.beforePauseDecision env s)
      · rfl
      · exact absurd hveto ((ElegooCC.shouldPausePrint_eq_true_iff _ _ _).1 hb).2.1
    rw [hsh, Bool.and_false]

/-- Witness for the amended C5: the tick at 30 s of the stalled print. -/
theorem stopped_filament_dispatch_witness :
    (ElegooCC.loop (envAt 2 30000) (printingState 2)).pauseCommandSent = true ∧
    (ElegooCC.loop (envAt 2 30000) (printingState 2)).pauseRetryCount = 0 :=
  ((stopped_filament_dispatch (envAt 2 30000) (printingState 2)
    (by decide) (by decide) (by decide) (by decide) (by decide) (by decide) (by decide)
    (by decide)).1 (by decide)).2.2.2

/-- C6, counterexample. Pause-on-runout disabled; a pause dispatched at 30 s
for a stall is in verification. On the tick at 46 s the runout switch reports
no filament and the movement pin has changed, so after the sensor checks
`filamentRunout` is true and `filamentStopped` is false; the verification of
that tick finds its timeout elapsed, records retry(1), clears
`pauseCommandSent` and raises the retry count: an attempt is recorded and the
pause-verification state changes, although no frame is transmitted. -/
theorem runout_disabled_tick_records_retry :
    (ElegooCC.afterSensorChecks envRunoutAfterStall stallDispatched).filamentRunout = true ∧
    envRunoutAfterStall.settings.pause_on_runout = false ∧
    (ElegooCC.afterSensorChecks envRunoutAfterStall stallDispatched).filamentStopped = false ∧
    attemptKinds stallDispatched = [(PAUSE_ATTEMPT_INITIAL, 0)] ∧
    attemptKinds (ElegooCC.loop envRunoutAfterStall stallDispatched) =
      [(PAUSE_ATTEMPT_INITIAL, 0), (PAUSE_ATTEMPT_RETRY, 1)] ∧
    stallDispatched.pauseCommandSent = true ∧
    stallDispatched.pauseRetryCount = 0 ∧
    (ElegooCC.loop envRunoutAfterStall stallDispatched).pauseCommandSent = false ∧
    (ElegooCC.loop envRunoutAfterStall stallDispatched).pauseRetryCount = 1 ∧
    (ElegooCC.loop envRunoutAfterStall stallDispatched).sent = stallDispatched.sent := by
  decide

/-- C6, amended. When, after the sensor checks of a tick, `filamentRunout` is
true, pause-on-runout is disabled and `filamentStopped` is false, the tick
dispatches no pause: it ends in the state `checkPauseVerification` produced, so
no pause frame is transmitted and no initial attempt is recorded; the only
frame the whole tick can transmit is the keepalive. With no pause in
verification the tick records nothing and changes nothing after the sensor
checks; a pause already in verification is still verified, which records at
most one attempt, of kind success, retry or max-exceeded. -/
theorem runout_disabled_no_dispatch (env : Env) (s : ElegooCC)
    (hrunout : (ElegooCC.afterSensorChecks env s).filamentRunout = true)
    (hpor : env.settings.pause_on_runout = false)
    (hstopped : (ElegooCC.afterSensorChecks env s).filamentStopped = false) :
    ElegooCC.loop env s = ElegooCC.beforePauseDecision env s ∧
    (ElegooCC.loop env s).sent = (ElegooCC.afterSensorChecks env s).sent ∧
    ((ElegooCC.loop env s).sent = s.sent ∨ (ElegooCC.loop env s).sent = s.sent ++ ["ping"]) ∧
    ((ElegooCC.afterSensorChecks env s).pauseCommandSent = false →
      ElegooCC.loop env s = ElegooCC.afterSensorChecks env s) ∧
    (∃ added : List PauseAttemptPoint,
      (ElegooCC.loop env s).pauseAttemptData = s.pauseAttemptData.map (fun l => l ++ added) ∧
      added.length ≤ 1 ∧
      (∀ p ∈ added, p.type = PAUSE_ATTEMPT_SUCCESS ∨ p.type = PAUSE_ATTEMPT_RETRY ∨
        p.type = PAUSE_ATTEMPT_MAX_EXCEEDED) ∧
      ((ElegooCC.afterSensorChecks env s).pauseCommandSent = false → added = [])) := by
  have hd : (ElegooCC.pauseCondition env (ElegooCC.beforePauseDecision env s) &&
      ElegooCC.shouldPausePrint env env.millis (ElegooCC.beforePauseDecision env s)) = false := by
    unfold ElegooCC.pauseCondition ElegooCC.beforePauseDecision
    rw [ElegooCC.checkPauseVerification_filamentRunout,
      ElegooCC.checkPauseVerification_filamentStopped, hrunout, hpor, hstopped]
    rfl
  have he := ElegooCC.loop_eq_before env s hd
  have hs : (ElegooCC.loop env s).sent = (ElegooCC.afterSensorChecks env s).sent := by
    rw [he]
    exact ElegooCC.checkPauseVerification_sent _ _ _
  refine ⟨he, hs, ?_, ?_, ?_⟩
  · rw [hs]
    exact ElegooCC.afterSensorChecks_sent env s
  · intro hidle
    rw [he]
    exact ElegooCC.checkPauseVerification_idle _ _ _ hidle
  · by_cases hidle : (ElegooCC.afterSensorChecks env s).pauseCommandSent = false
    · refine ⟨[], ?_, by simp, by simp, fun _ => rfl⟩
      rw [he]
      unfold ElegooCC.beforePauseDecision
      rw [ElegooCC.checkPauseVerification_idle _ _ _ hidle,
        ElegooCC.afterSensorChecks_pauseAttemptData]
      cases s.pauseAttemptData <;> simp
    · obtain ⟨added, h1, h2, h3⟩ := ElegooCC.checkPauseVerification_records env env.millis
        (ElegooCC.afterSensorChecks env s)
      refine ⟨added, ?_, h2, h3, fun h => absurd h hidle⟩
      rw [he]
      unfold ElegooCC.beforePauseDecision
      rw [h1, ElegooCC.afterSensorChecks_pauseAttemptData]

/-- Witness for the amended C6: 3 s into a print with the runout switch open
and pause-on-runout disabled. -/
theorem runout_disabled_no_dispatch_witness :
    (ElegooCC.afterSensorChecks (envWith (settingsWith 5 false) 0 3000)
      runoutIgnoredState).filamentRunout = true ∧
    (envWith (settingsWith 5 false) 0 3000).settings.pause_on_runout = false ∧
    (ElegooCC.afterSensorChecks (envWith (settingsWith 5 false) 0 3000)
      runoutIgnoredState).filamentStopped = false ∧
    ElegooCC.loop (envWith (settingsWith 5 false) 0 3000) runoutIgnoredState =
      ElegooCC.beforePauseDecision (envWith (settingsWith 5 false) 0 3000) runoutIgnoredState :=
  ⟨by decide, by decide, by decide,
    (runout_disabled_no_dispatch (envWith (settingsWith 5 false) 0 3000) runoutIgnoredState
      (by decide) (by decide) (by decide)).1⟩

/-- C7. Whenever the dispatch step of a tick transmits a frame (the pause
command), every gate held in the state the tick decided on: the feature is
enabled, the time since `startedAt` has reached the start-print grace period
(32-bit unsigned arithmetic), the transport is connected, no ack is pending,
`isPrinting` holds, at least 100 ticks remain and no pause is in verification. -/
theorem loop_dispatch_requires_gates (env : Env) (s : ElegooCC)
    (h : (ElegooCC.loop env s).sent ≠ (ElegooCC.beforePauseDecision env s).sent) :
    env.settings.enabled = true ∧
    usub env.millis (ElegooCC.beforePauseDecision env s).startedAt
      ≥ toULong env.settings.start_print_timeout ∧
    (ElegooCC.beforePauseDecision env s).webSocketConnected = true ∧
    (ElegooCC.beforePauseDecision env s).waitingForAck = false ∧
    (ElegooCC.beforePauseDecision env s).isPrinting = true ∧
    wrapInt ((ElegooCC.beforePauseDecision env s).totalTicks
      - (ElegooCC.beforePauseDecision env s).currentTicks) ≥ 100 ∧
    (ElegooCC.beforePauseDecision env s).pauseCommandSent = false := by
  cases hd : (ElegooCC.pauseCondition env (ElegooCC.beforePauseDecision env s) &&
      ElegooCC.shouldPausePrint env env.millis (ElegooCC.beforePauseDecision env s)) with
  | false => exact absurd (congrArg ElegooCC.sent (ElegooCC.loop_eq_before env s hd)) h
  | true =>
    rw [Bool.and_eq_true] at hd
    obtain ⟨h1, -, h3, h4, h5, h6, h7, -, h9⟩ :=
      (ElegooCC.shouldPausePrint_eq_true_iff _ _ _).1 hd.2
    exact ⟨h1, h3, h4, h5, h6, h7, h9⟩

/-- Witness for C7: the tick at 30 s of the stalled print transmits the pause
command. -/
theorem loop_dispatch_requires_gates_witness :
    (ElegooCC.loop (envAt 2 30000) (printingState 2)).sent
        ≠ (ElegooCC.beforePauseDecision (envAt 2 30000) (printingState 2)).sent ∧
    ((envAt 2 30000).settings.enabled = true ∧
    usub (envAt 2 30000).millis
        (ElegooCC.beforePauseDecision (envAt 2 30000) (printingState 2)).startedAt
      ≥ toULong (envAt 2 30000).settings.start_print_timeout ∧
    (ElegooCC.beforePauseDecision (envAt 2 30000) (printingState 2)).webSocketConnected = true ∧
    (ElegooCC.beforePauseDecision (envAt 2 30000) (printingState 2)).waitingForAck = false ∧
    (ElegooCC.beforePauseDecision (envAt 2 30000) (printingState 2)).isPrinting = true ∧
    wrapInt ((ElegooCC.beforePauseDecision (envAt 2 30000) (printingState 2)).totalTicks
      - (ElegooCC.beforePauseDecision (envAt 2 30000) (printingState 2)).currentTicks) ≥ 100 ∧
    (ElegooCC.beforePauseDecision (envAt 2 30000) (printingState 2)).pauseCommandSent = false) :=
  ⟨by decide, loop_dispatch_requires_gates (envAt 2 30000) (printingState 2) (by decide)⟩

/-- C8. `isPrinting` holds exactly when the print status is one of printing,
heating, bed-leveling, homing and the "printing" bit of the machine-status
mask is set; either condition alone gives false. -/
theorem isPrinting_iff (s : ElegooCC) :
    s.isPrinting = true ↔
      (s.printStatus = SDCP_PRINT_STATUS_PRINTING ∨ s.printStatus = SDCP_PRINT_STATUS_HEATING ∨
        s.printStatus = SDCP_PRINT_STATUS_BED_LEVELING ∨
        s.printStatus = SDCP_PRINT_STATUS_HOMING) ∧
      s.machineStatusMask.testBit SDCP_MACHINE_STATUS_PRINTING = true := by
  unfold ElegooCC.isPrinting
  rw [ElegooCC.hasMachineStatus_eq_testBit]
  simp [Bool.and_eq_true, Bool.or_eq_true, beq_iff_eq, or_assoc]

/-- C9. When `pausePrint` runs while the print status is paused, pausing or
idle, the only effect is one "already paused" record handed to the sink
(appended to the records when a sink is installed): no frame is transmitted
and the retry counter, `pauseCommandSent`, the dispatch time and the pending
ack are unchanged. -/
theorem pausePrint_already_paused (env : Env) (s : ElegooCC)
    (h : s.printStatus = SDCP_PRINT_STATUS_PAUSED ∨ s.printStatus = SDCP_PRINT_STATUS_PAUSING ∨
      s.printStatus = SDCP_PRINT_STATUS_IDLE) :
    ElegooCC.pausePrint env s =
        { s with pauseAttemptData := (s.pauseAttemptData.map
            (fun l => l ++ [⟨env.getTime, PAUSE_ATTEMPT_ALREADY_PAUSED, 0, s.printStatus⟩])) } ∧
      (∀ l, s.pauseAttemptData = some l →
        (ElegooCC.pausePrint env s).pauseAttemptData =
          some (l ++ [⟨env.getTime, PAUSE_ATTEMPT_ALREADY_PAUSED, 0, s.printStatus⟩])) ∧
      (ElegooCC.pausePrint env s).sent = s.sent ∧
      (ElegooCC.pausePrint env s).pauseRetryCount = s.pauseRetryCount ∧
      (ElegooCC.pausePrint env s).pauseCommandSent = s.pauseCommandSent ∧
      (ElegooCC.pausePrint env s).pauseCommandSentTime = s.pauseCommandSentTime ∧
      (ElegooCC.pausePrint env s).waitingForAck = s.waitingForAck ∧
      (ElegooCC.pausePrint env s).pendingAckCommand = s.pendingAckCommand ∧
      (ElegooCC.pausePrint env s).pendingAckRequestId = s.pendingAckRequestId ∧
      (ElegooCC.pausePrint env s).ackWaitStartTime = s.ackWaitStartTime := by
  have hc : (s.printStatus == SDCP_PRINT_STATUS_PAUSED ||
      s.printStatus == SDCP_PRINT_STATUS_PAUSING ||
      s.printStatus == SDCP_PRINT_STATUS_IDLE) = true := by
    rcases h with h | h | h <;> simp [h]
  have he : ElegooCC.pausePrint env s =
      { s with pauseAttemptData := (s.pauseAttemptData.map
          (fun l => l ++ [⟨env.getTime, PAUSE_ATTEMPT_ALREADY_PAUSED, 0, s.printStatus⟩])) } := by
    unfold ElegooCC.pausePrint
    rw [if_pos hc]
    rfl
  refine ⟨he, ?_, ?_, ?_, ?_, ?_, ?_, ?_, ?_, ?_⟩
  · intro l hl
    rw [he]
    simp [hl]
  all_goals rw [he]

/-- Witness for C9 at the constructor's state (print status idle). -/
theorem pausePrint_already_paused_witness :
    ((ElegooCC.init (some [])).printStatus = SDCP_PRINT_STATUS_PAUSED ∨
      (ElegooCC.init (some [])).printStatus = SDCP_PRINT_STATUS_PAUSING ∨
      (ElegooCC.init (some [])).printStatus = SDCP_PRINT_STATUS_IDLE) ∧
    (ElegooCC.pausePrint (envAt 5 0) (ElegooCC.init (some []))).pauseAttemptData =
      some [⟨1700000000, PAUSE_ATTEMPT_ALREADY_PAUSED, 0, SDCP_PRINT_STATUS_IDLE⟩] ∧
    (ElegooCC.pausePrint (envAt 5 0) (ElegooCC.init (some []))).sent = [] :=
  ⟨Or.inr (Or.inr rfl),
   (pausePrint_already_paused (envAt 5 0) (ElegooCC.init (some []))
      (Or.inr (Or.inr rfl))).2.1 [] rfl,
   (pausePrint_already_paused (envAt 5 0) (ElegooCC.init (some []))
      (Or.inr (Or.inr rfl))).2.2.1⟩

/-- C12. `sendCommand` with `waitForAck = true`, called while an ack is
pending, is a no-op whatever the command: the state is returned unchanged, so
no frame is transmitted and the pending command id, request id and start time
stay as they were. -/
theorem sendCommand_while_pending (env : Env) (command : Int) (s : ElegooCC)
    (h : s.waitingForAck = true) :
    ElegooCC.sendCommand env command true s = s ∧
    (ElegooCC.sendCommand env command true s).sent = s.sent ∧
    (ElegooCC.sendCommand env command true s).waitingForAck = true ∧
    (ElegooCC.sendCommand env command true s).pendingAckCommand = s.pendingAckCommand ∧
    (ElegooCC.sendCommand env command true s).pendingAckRequestId = s.pendingAckRequestId ∧
    (ElegooCC.sendCommand env command true s).ackWaitStartTime = s.ackWaitStartTime := by
  have he : ElegooCC.sendCommand env command true s = s := by
    unfold ElegooCC.sendCommand
    cases hc : s.webSocketConnected <;> simp [h]
  refine ⟨he, ?_, ?_, ?_, ?_, ?_⟩
  · rw [he]
  · rw [he]; exact h
  · rw [he]
  · rw [he]
  · rw [he]

/-- Witness for C12: a second `continue-print` while the first awaits its ack. -/
theorem sendCommand_while_pending_witness :
    awaitingContinueAck.waitingForAck = true ∧
    ElegooCC.sendCommand (envAt 5 2000) SDCP_COMMAND_PAUSE_PRINT true awaitingContinueAck =
      awaitingContinueAck :=
  ⟨by decide,
    (sendCommand_while_pending (envAt 5 2000) SDCP_COMMAND_PAUSE_PRINT awaitingContinueAck
      (by decide)).1⟩

/-- C13. Ack matching is exact. Handling an ack frame that carries `Cmd` and
`RequestID`: if an ack is pending and both the command id and the request id
equal the pending ones, the pending ack is cleared (flag false, command id -1,
request id empty, start time 0); in every other case the flag, command id,
request id and start time are unchanged. So the flag goes from set to clear
exactly on a full match. -/
theorem handleCommandResponse_exact_match (data : DataObj) (cmd : Int) (reqId : String)
    (s : ElegooCC) (hcmd : data.Cmd = some cmd) (hreq : data.RequestID = some reqId) :
    ((s.waitingForAck = true ∧ cmd = s.pendingAckCommand ∧ reqId = s.pendingAckRequestId) →
      (ElegooCC.handleCommandResponse data s).waitingForAck = false ∧
      (ElegooCC.handleCommandResponse data s).pendingAckCommand = -1 ∧
      (ElegooCC.handleCommandResponse data s).pendingAckRequestId = "" ∧
      (ElegooCC.handleCommandResponse data s).ackWaitStartTime = 0) ∧
    (¬ (s.waitingForAck = true ∧ cmd = s.pendingAckCommand ∧ reqId = s.pendingAckRequestId) →
      (ElegooCC.handleCommandResponse data s).waitingForAck = s.waitingForAck ∧
      (ElegooCC.handleCommandResponse data s).pendingAckCommand = s.pendingAckCommand ∧
      (ElegooCC.handleCommandResponse data s).pendingAckRequestId = s.pendingAckRequestId ∧
      (ElegooCC.handleCommandResponse data s).ackWaitStartTime = s.ackWaitStartTime) ∧
    ((s.waitingForAck = true ∧ (ElegooCC.handleCommandResponse data s).waitingForAck = false) ↔
      (s.waitingForAck = true ∧ cmd = s.pendingAckCommand ∧ reqId = s.pendingAckRequestId)) := by
  have hyes : (s.waitingForAck = true ∧ cmd = s.pendingAckCommand ∧
        reqId = s.pendingAckRequestId) →
      (ElegooCC.handleCommandResponse data s).waitingForAck = false ∧
      (ElegooCC.handleCommandResponse data s).pendingAckCommand = -1 ∧
      (ElegooCC.handleCommandResponse data s).pendingAckRequestId = "" ∧
      (ElegooCC.handleCommandResponse data s).ackWaitStartTime = 0 := by
    rintro ⟨hw, hc, hr⟩
    unfold ElegooCC.handleCommandResponse
    simp only [hcmd, hreq, hw, hc, hr, beq_self_eq_true, Bool.and_self, if_true]
    split_ifs <;> exact ⟨rfl, rfl, rfl, rfl⟩
  have hno : ¬ (s.waitingForAck = true ∧ cmd = s.pendingAckCommand ∧
        reqId = s.pendingAckRequestId) →
      (ElegooCC.handleCommandResponse data s).waitingForAck = s.waitingForAck ∧
      (ElegooCC.handleCommandResponse data s).pendingAckCommand = s.pendingAckCommand ∧
      (ElegooCC.handleCommandResponse data s).pendingAckRequestId = s.pendingAckRequestId ∧
      (ElegooCC.handleCommandResponse data s).ackWaitStartTime = s.ackWaitStartTime := by
    intro hn
    have hb : (s.waitingForAck && cmd == s.pendingAckCommand &&
        reqId == s.pendingAckRequestId) = false := by
      rw [Bool.eq_false_iff]
      intro hb
      simp only [Bool.and_eq_true, beq_iff_eq] at hb
      exact hn ⟨hb.1.1, hb.1.2, hb.2⟩
    unfold ElegooCC.handleCommandResponse
    simp only [hcmd, hreq, hb, Bool.false_eq_true, if_false]
    split_ifs <;> exact ⟨rfl, rfl, rfl, rfl⟩
  refine ⟨hyes, hno, ?_⟩
  constructor
  · rintro ⟨hw, hafter⟩
    by_contra hn
    rw [(hno hn).1, hw] at hafter
    exact Bool.noConfusion hafter
  · intro hm
    exact ⟨hm.1, (hyes hm).1⟩

/-- Witness for C13: the ack of the pending `continue-print` clears it, an ack
with another request id does not. -/
theorem handleCommandResponse_exact_match_witness :
    (ElegooCC.handleCommandResponse
        (ackData SDCP_COMMAND_CONTINUE_PRINT "0f8fad5bd9cb469fa16570867728950e")
        awaitingContinueAck).waitingForAck = false ∧
    (ElegooCC.handleCommandResponse
        (ackData SDCP_COMMAND_CONTINUE_PRINT "ffffffffffffffffffffffffffffffff")
        awaitingContinueAck).pendingAckRequestId = "0f8fad5bd9cb469fa16570867728950e" :=
  ⟨((handleCommandResponse_exact_match
        (ackData SDCP_COMMAND_CONTINUE_PRINT "0f8fad5bd9cb469fa16570867728950e")
        SDCP_COMMAND_CONTINUE_PRINT "0f8fad5bd9cb469fa16570867728950e" awaitingContinueAck
        rfl rfl).1 (by decide)).1,
   ((handleCommandResponse_exact_match
        (ackData SDCP_COMMAND_CONTINUE_PRINT "ffffffffffffffffffffffffffffffff")
        SDCP_COMMAND_CONTINUE_PRINT "ffffffffffffffffffffffffffffffff" awaitingContinueAck
        rfl rfl).2.1 (by decide)).2.2.1.trans (by decide)⟩

/-- C14. A disconnect event, in any state, leaves no pending ack (flag false,
command id -1, request id empty, start time 0) and resets the pause state
(`pauseCommandSent` false, dispatch time 0, retry count 0); the same holds when
the event is delivered by the transport, and nothing is transmitted. -/
theorem disconnect_clears_ack_and_pause (env : Env) (payload : Option JsonDocument)
    (s : ElegooCC) :
    ((ElegooCC.webSocketEvent env WStype_DISCONNECTED payload s).waitingForAck = false ∧
      (ElegooCC.webSocketEvent env WStype_DISCONNECTED payload s).pendingAckCommand = -1 ∧
      (ElegooCC.webSocketEvent env WStype_DISCONNECTED payload s).pendingAckRequestId = "" ∧
      (ElegooCC.webSocketEvent env WStype_DISCONNECTED payload s).ackWaitStartTime = 0 ∧
      (ElegooCC.webSocketEvent env WStype_DISCONNECTED payload s).pauseCommandSent = false ∧
      (ElegooCC.webSocketEvent env WStype_DISCONNECTED payload s).pauseCommandSentTime = 0 ∧
      (ElegooCC.webSocketEvent env WStype_DISCONNECTED payload s).pauseRetryCount = 0 ∧
      (ElegooCC.webSocketEvent env WStype_DISCONNECTED payload s).sent = s.sent) ∧
    ((ElegooCC.transportEvent env WStype_DISCONNECTED payload s).waitingForAck = false ∧
      (ElegooCC.transportEvent env WStype_DISCONNECTED payload s).pendingAckCommand = -1 ∧
      (ElegooCC.transportEvent env WStype_DISCONNECTED payload s).pendingAckRequestId = "" ∧
      (ElegooCC.transportEvent env WStype_DISCONNECTED payload s).ackWaitStartTime = 0 ∧
      (ElegooCC.transportEvent env WStype_DISCONNECTED payload s).pauseCommandSent = false ∧
      (ElegooCC.transportEvent env WStype_DISCONNECTED payload s).pauseCommandSentTime = 0 ∧
      (ElegooCC.transportEvent env WStype_DISCONNECTED payload s).pauseRetryCount = 0 ∧
      (ElegooCC.transportEvent env WStype_DISCONNECTED payload s).sent = s.sent) :=
  ⟨⟨rfl, rfl, rfl, rfl, rfl, rfl, rfl, rfl⟩, ⟨rfl, rfl, rfl, rfl, rfl, rfl, rfl, rfl⟩⟩

/-- C15. `sendCommand` called while the transport is not connected, for every
command and either value of `waitForAck`, returns the state unchanged: no frame
is transmitted and the pending ack is neither created nor altered. -/
theorem sendCommand_not_connected (env : Env) (command : Int) (waitForAck : Bool)
    (s : ElegooCC) (h : s.webSocketConnected = false) :
    ElegooCC.sendCommand env command waitForAck s = s ∧
    (ElegooCC.sendCommand env command waitForAck s).sent = s.sent ∧
    (ElegooCC.sendCommand env command waitForAck s).waitingForAck = s.waitingForAck ∧
    (ElegooCC.sendCommand env command waitForAck s).pendingAckCommand = s.pendingAckCommand ∧
    (ElegooCC.sendCommand env command waitForAck s).pendingAckRequestId
      = s.pendingAckRequestId ∧
    (ElegooCC.sendCommand env command waitForAck s).ackWaitStartTime = s.ackWaitStartTime := by
  have he : ElegooCC.sendCommand env command waitForAck s = s := by
    unfold ElegooCC.sendCommand
    simp [h]
  refine ⟨he, ?_, ?_, ?_, ?_, ?_⟩ <;> rw [he]

/-- Witness for C15: a pause command before the transport has connected. -/
theorem sendCommand_not_connected_witness :
    (ElegooCC.init (some [])).webSocketConnected = false ∧
    ElegooCC.sendCommand (envAt 5 0) SDCP_COMMAND_PAUSE_PRINT true (ElegooCC.init (some [])) =
      ElegooCC.init (some []) :=
  ⟨rfl,
    (sendCommand_not_connected (envAt 5 0) SDCP_COMMAND_PAUSE_PRINT true
      (ElegooCC.init (some [])) rfl).1⟩

/-- C16. When `sendCommand` transmits (connected, and not an ack-requiring
command blocked by a pending ack) it hands exactly one frame to the transport:
the envelope with the keys `Id`, `Data` (`Cmd`, `Data`, `RequestID`,
`MainboardID`, `TimeStamp`, `From`) in this order, where `Id` and `RequestID`
are the same string, the generated identifier with every dash removed (the 32
other characters, in order, for a canonical 8-4-4-4-12 identifier). With
`waitForAck` the pending ack holds that identifier and the command, with the
send time; without it the pending ack is untouched. -/
theorem sendCommand_frame_format (env : Env) (command : Int) (waitForAck : Bool)
    (s : ElegooCC) (hconn : s.webSocketConnected = true)
    (hfree : ¬ (waitForAck = true ∧ s.waitingForAck = true)) :
    (ElegooCC.sendCommand env command waitForAck s).sent = s.sent ++
      ["\x7b\"Id\":\"" ++ ElegooCC.requestId env.uuid ++ "\",\"Data\":\x7b\"Cmd\":" ++
        toString command ++ ",\"Data\":\x7b\x7d,\"RequestID\":\"" ++
        ElegooCC.requestId env.uuid ++ "\",\"MainboardID\":\"" ++ s.mainboardID ++
        "\",\"TimeStamp\":" ++ toString env.getTime ++ ",\"From\":2\x7d\x7d"] ∧
    '-' ∉ (ElegooCC.requestId env.uuid).data ∧
    (ElegooCC.requestId env.uuid).data.Sublist env.uuid.data ∧
    (∀ ch : Char, ch ≠ '-' →
      (ElegooCC.requestId env.uuid).data.count ch = env.uuid.data.count ch) ∧
    (∀ a b c d e : List Char,
      env.uuid.data = a ++ '-' :: (b ++ '-' :: (c ++ '-' :: (d ++ '-' :: e))) →
      a.length = 8 → b.length = 4 → c.length = 4 → d.length = 4 → e.length = 12 →
      '-' ∉ a → '-' ∉ b → '-' ∉ c → '-' ∉ d → '-' ∉ e →
      (ElegooCC.requestId env.uuid).data = a ++ (b ++ (c ++ (d ++ e))) ∧
      (ElegooCC.requestId env.uuid).length = 32) ∧
    (waitForAck = true →
      (ElegooCC.sendCommand env command waitForAck s).waitingForAck = true ∧
      (ElegooCC.sendCommand env command waitForAck s).pendingAckCommand = command ∧
      (ElegooCC.sendCommand env command waitForAck s).pendingAckRequestId
        = ElegooCC.requestId env.uuid ∧
      (ElegooCC.sendCommand env command waitForAck s).ackWaitStartTime = env.millisAtAck) ∧
    (waitForAck = false →
      (ElegooCC.sendCommand env command waitForAck s).waitingForAck = s.waitingForAck ∧
      (ElegooCC.sendCommand env command waitForAck s).pendingAckCommand = s.pendingAckCommand ∧
      (ElegooCC.sendCommand env command waitForAck s).pendingAckRequestId
        = s.pendingAckRequestId ∧
      (ElegooCC.sendCommand env command waitForAck s).ackWaitStartTime = s.ackWaitStartTime) := by
  have he := ElegooCC.sendCommand_transmit env command waitForAck s hconn hfree
  refine ⟨?_, ElegooCC.requestId_no_dash env.uuid, ?_, ?_, ?_, ?_, ?_⟩
  · rw [he, ← ElegooCC.jsonPayload_eq]
  · unfold ElegooCC.requestId
    exact List.filter_sublist _
  · intro ch hch
    unfold ElegooCC.requestId
    rw [List.count_filter]
    simpa using hch
  · intro a b c d e hu ha hb hc hd hl na nb nc nd ne
    have hdata := ElegooCC.requestId_canonical env.uuid a b c d e hu na nb nc nd ne
    refine ⟨hdata, ?_⟩
    show (ElegooCC.requestId env.uuid).data.length = 32
    rw [hdata]
    simp [ha, hb, hc, hd, hl]
  · intro hw
    rw [he, hw]
    exact ⟨rfl, rfl, rfl, rfl⟩
  · intro hw
    rw [he, hw]
    exact ⟨rfl, rfl, rfl, rfl⟩

/-- Witness for C16: the status request sent on connection. -/
theorem sendCommand_frame_format_witness :
    ({ ElegooCC.init (some []) with webSocketConnected := true }).webSocketConnected = true ∧
    ¬ (false = true ∧
      ({ ElegooCC.init (some []) with webSocketConnected := true }).waitingForAck = true) ∧
    (ElegooCC.sendCommand (envAt 5 500) SDCP_COMMAND_STATUS false
        { ElegooCC.init (some []) with webSocketConnected := true }).sent =
      ["\x7b\"Id\":\"0f8fad5bd9cb469fa16570867728950e\",\"Data\":\x7b\"Cmd\":0,\"Data\":\x7b\x7d,\"RequestID\":\"0f8fad5bd9cb469fa16570867728950e\",\"MainboardID\":\"\",\"TimeStamp\":1700000000,\"From\":2\x7d\x7d"] ∧
    (ElegooCC.requestId (envAt 5 500).uuid).length = 32 :=
  ⟨rfl, by decide,
    (sendCommand_frame_format (envAt 5 500) SDCP_COMMAND_STATUS false
      { ElegooCC.init (some []) with webSocketConnected := true } rfl (by decide)).1.trans
      (by decide),
    by decide⟩

/-- C17. The ack-timeout check of a tick, reached while connected with an ack
pending: once the ack is at least 5000 ms old (in particular older than
5000 ms) the check clears it (flag false, command id -1, request id empty,
start time 0) and transmits nothing; while it is younger than 5000 ms the check
leaves the flag, command id, request id and start time unchanged. At the level
of the tick: an ack that has timed out is gone after the sensor checks with no
frame transmitted for it, and an ack pending at the end of that tick is a new
one, armed by the tick's own pause dispatch. -/
theorem ack_timeout_check (env : Env) (s : ElegooCC)
    (hconn : s.webSocketConnected = true) (hw : s.waitingForAck = true) :
    (usub env.millis s.ackWaitStartTime ≥ ACK_TIMEOUT_MS →
      ((ElegooCC.ackTimeoutAndPing env.millis s).waitingForAck = false ∧
        (ElegooCC.ackTimeoutAndPing env.millis s).pendingAckCommand = -1 ∧
        (ElegooCC.ackTimeoutAndPing env.millis s).pendingAckRequestId = "" ∧
        (ElegooCC.ackTimeoutAndPing env.millis s).ackWaitStartTime = 0 ∧
        (ElegooCC.ackTimeoutAndPing env.millis s).sent = s.sent) ∧
      ((ElegooCC.afterSensorChecks env s).waitingForAck = false ∧
        (ElegooCC.afterSensorChecks env s).pendingAckCommand = -1 ∧
        (ElegooCC.afterSensorChecks env s).pendingAckRequestId = "" ∧
        (ElegooCC.afterSensorChecks env s).ackWaitStartTime = 0 ∧
        (ElegooCC.afterSensorChecks env s).sent = s.sent) ∧
      ((ElegooCC.loop env s).waitingForAck = true →
        (ElegooCC.loop env s).pendingAckCommand = SDCP_COMMAND_PAUSE_PRINT ∧
        (ElegooCC.loop env s).pendingAckRequestId = ElegooCC.requestId env.uuid ∧
        (ElegooCC.loop env s).ackWaitStartTime = env.millisAtAck)) ∧
    (usub env.millis s.ackWaitStartTime < ACK_TIMEOUT_MS →
      (ElegooCC.ackTimeoutAndPing env.millis s).waitingForAck = true ∧
      (ElegooCC.ackTimeoutAndPing env.millis s).pendingAckCommand = s.pendingAckCommand ∧
      (ElegooCC.ackTimeoutAndPing env.millis s).pendingAckRequestId = s.pendingAckRequestId ∧
      (ElegooCC.ackTimeoutAndPing env.millis s).ackWaitStartTime = s.ackWaitStartTime) := by
  constructor
  · intro ht
    have hblock := ElegooCC.ackTimeoutAndPing_timeout env.millis s hconn hw ht
    have hafter := ElegooCC.afterSensorChecks_ack_timeout env s hconn hw ht
    refine ⟨?_, hafter, ?_⟩
    · rw [hblock]
      exact ⟨rfl, rfl, rfl, rfl, rfl⟩
    · intro hl
      exact ElegooCC.loop_new_ack env s
        ((ElegooCC.checkPauseVerification_waitingForAck _ _ _).trans hafter.1) hl
  · intro ht
    have hnt : ¬ (s.waitingForAck = true ∧ usub env.millis s.ackWaitStartTime ≥ ACK_TIMEOUT_MS) :=
      fun h => absurd h.2 (not_le.mpr ht)
    by_cases hp : usub env.millis s.lastPing > 29900
    · rw [ElegooCC.ackTimeoutAndPing_ping env.millis s hconn hnt hp]
      exact ⟨hw, rfl, rfl, rfl⟩
    · rw [ElegooCC.ackTimeoutAndPing_idle env.millis s (Or.inr ⟨hnt, not_lt.mp hp⟩)]
      exact ⟨hw, rfl, rfl, rfl⟩

/-- Witness for C17: the `continue-print` sent at 1 s is cleared by the tick at
40 s and still pending after the tick at 3 s. -/
theorem ack_timeout_check_witness :
    awaitingContinueAck.webSocketConnected = true ∧
    awaitingContinueAck.waitingForAck = true ∧
    usub 40000 awaitingContinueAck.ackWaitStartTime ≥ ACK_TIMEOUT_MS ∧
    (ElegooCC.afterSensorChecks (envAt 5 40000) awaitingContinueAck).waitingForAck = false ∧
    usub 3000 awaitingContinueAck.ackWaitStartTime < ACK_TIMEOUT_MS ∧
    (ElegooCC.ackTimeoutAndPing 3000 awaitingContinueAck).pendingAckCommand =
      awaitingContinueAck.pendingAckCommand :=
  ⟨by decide, by decide, by decide,
    ((ack_timeout_check (envAt 5 40000) awaitingContinueAck (by decide) (by decide)).1
      (by decide)).2.1.1,
    by decide,
    ((ack_timeout_check (envAt 5 3000) awaitingContinueAck (by decide) (by decide)).2
      (by decide)).2.1⟩

/-- C18, counterexample. Connected, the last keepalive 40 s ago, and a
`continue-print` ack pending since 1 s: the tick at 40 s runs the ack timeout
instead of the keepalive, so no ping is sent and the keepalive time stays 0. -/
theorem no_ping_on_ack_timeout_tick :
    awaitingContinueAck.webSocketConnected = true ∧
    awaitingContinueAck.ipAddress = (envAt 5 40000).settings.elegooip ∧
    usub (envAt 5 40000).millis awaitingContinueAck.lastPing > 29900 ∧
    (ElegooCC.loop (envAt 5 40000) awaitingContinueAck).sent = awaitingContinueAck.sent ∧
    (ElegooCC.loop (envAt 5 40000) awaitingContinueAck).lastPing = 0 ∧
    (ElegooCC.loop (envAt 5 40000) awaitingContinueAck).webSocketConnected = true := by
  decide

/-- C18, amended. The keepalive of a tick is the alternative of the ack
timeout: while connected, when the ack-timeout check does not fire (no ack
pending, or one younger than 5000 ms) and more than 29900 ms have elapsed since
the last keepalive, a "ping" frame is sent and the keepalive time becomes the
tick time; when the ack-timeout check fires, or 29900 ms or less have elapsed,
or the transport is not connected, no ping is sent and the keepalive time is
unchanged. With the endpoint address unchanged this is the state after the
sensor checks; afterwards the tick keeps the keepalive time and transmits at
most its pause command. -/
theorem keepalive_check (env : Env) (s : ElegooCC) :
    ((s.webSocketConnected = true ∧
        ¬ (s.waitingForAck = true ∧ usub env.millis s.ackWaitStartTime ≥ ACK_TIMEOUT_MS) ∧
        usub env.millis s.lastPing > 29900) →
      (ElegooCC.ackTimeoutAndPing env.millis s).sent = s.sent ++ ["ping"] ∧
      (ElegooCC.ackTimeoutAndPing env.millis s).lastPing = env.millis) ∧
    ((s.webSocketConnected = false ∨
        (s.waitingForAck = true ∧ usub env.millis s.ackWaitStartTime ≥ ACK_TIMEOUT_MS) ∨
        usub env.millis s.lastPing ≤ 29900) →
      (ElegooCC.ackTimeoutAndPing env.millis s).sent = s.sent ∧
      (ElegooCC.ackTimeoutAndPing env.millis s).lastPing = s.lastPing) ∧
    (s.ipAddress = env.settings.elegooip →
      (ElegooCC.afterSensorChecks env s).sent = (ElegooCC.ackTimeoutAndPing env.millis s).sent ∧
      (ElegooCC.afterSensorChecks env s).lastPing
        = (ElegooCC.ackTimeoutAndPing env.millis s).lastPing) ∧
    (ElegooCC.loop env s).lastPing = (ElegooCC.afterSensorChecks env s).lastPing ∧
    ((ElegooCC.loop env s).sent = (ElegooCC.afterSensorChecks env s).sent ∨
      (ElegooCC.loop env s).sent = (ElegooCC.afterSensorChecks env s).sent ++
        [ElegooCC.jsonPayload (ElegooCC.requestId env.uuid) SDCP_COMMAND_PAUSE_PRINT
          (ElegooCC.afterSensorChecks env s).mainboardID env.getTime]) := by
  refine ⟨?_, ?_, ?_, ElegooCC.loop_lastPing env s, ElegooCC.loop_sent env s⟩
  · rintro ⟨hconn, hnt, hp⟩
    rw [ElegooCC.ackTimeoutAndPing_ping env.millis s hconn hnt hp]
    exact ⟨rfl, rfl⟩
  · intro h
    rcases h with h | h | h
    · rw [ElegooCC.ackTimeoutAndPing_idle env.millis s (Or.inl h)]
      exact ⟨rfl, rfl⟩
    · rcases Bool.eq_false_or_eq_true s.webSocketConnected with hc | hc
      · rw [ElegooCC.ackTimeoutAndPing_timeout env.millis s hc h.1 h.2]
        exact ⟨rfl, rfl⟩
      · rw [ElegooCC.ackTimeoutAndPing_idle env.millis s (Or.inl hc)]
        exact ⟨rfl, rfl⟩
    · by_cases hto : s.waitingForAck = true ∧
          usub env.millis s.ackWaitStartTime ≥ ACK_TIMEOUT_MS
      · rcases Bool.eq_false_or_eq_true s.webSocketConnected with hc | hc
        · rw [ElegooCC.ackTimeoutAndPing_timeout env.millis s hc hto.1 hto.2]
          exact ⟨rfl, rfl⟩
        · rw [ElegooCC.ackTimeoutAndPing_idle env.millis s (Or.inl hc)]
          exact ⟨rfl, rfl⟩
      · rw [ElegooCC.ackTimeoutAndPing_idle env.millis s (Or.inr ⟨hto, h⟩)]
        exact ⟨rfl, rfl⟩
  · intro hip
    have hf := ElegooCC.afterSensorChecks_frame env s hip
    have e1 := congrArg ElegooCC.sent hf
    have e2 := congrArg ElegooCC.lastPing hf
    exact ⟨e1, e2⟩

/-- Witness for the amended C18: the tick at 30 s of the stalled print sends the
keepalive. -/
theorem keepalive_check_witness :
    ((printingState 2).webSocketConnected = true ∧
      ¬ ((printingState 2).waitingForAck = true ∧
        usub (envAt 2 30000).millis (printingState 2).ackWaitStartTime ≥ ACK_TIMEOUT_MS) ∧
      usub (envAt 2 30000).millis (printingState 2).lastPing > 29900) ∧
    (ElegooCC.ackTimeoutAndPing (envAt 2 30000).millis (printingState 2)).sent =
      (printingState 2).sent ++ ["ping"] ∧
    (ElegooCC.ackTimeoutAndPing (envAt 2 30000).millis (printingState 2)).lastPing = 30000 :=
  ⟨by decide, (keepalive_check (envAt 2 30000) (printingState 2)).1 (by decide)⟩

/-- C19. From the constructor's state (any sink, any nozzle height), for every
sequence of ticks of `checkFilamentMovement` with a non-decreasing 32-bit
clock and a constant positive timeout `T`, after the last tick `e` of the
sequence (so after each tick, taking prefixes) `filamentStopped` is true
exactly when `e.millis` minus the time of the most recent tick on which the
reading differed from the previously observed value is at least `T`; it is
false after a tick on which the reading changed. -/
theorem stopped_iff_unchanged_for_timeout (sink : Option (List PauseAttemptPoint))
    (z : ZValue) (T : Nat) (ticks : List Env) (e : Env) (hT : 0 < T)
    (htimeout : ∀ x ∈ ticks ++ [e],
      toULong (if z.belowTenth then x.settings.first_layer_timeout
        else x.settings.timeout) = T)
    (hrange : ∀ x ∈ ticks ++ [e], x.millis < WORD)
    (hclock : List.Pairwise (fun a b => a ≤ b) ((ticks ++ [e]).map Env.millis)) :
    ((runMovement (ticks ++ [e]) { ElegooCC.init sink with currentZ := z }).filamentStopped = true
      ↔ e.millis - specLastChangeTime (ticks ++ [e]) (-1) 0 ≥ T) ∧
    (e.movementPin ≠ lastReading ticks (-1) →
      (runMovement (ticks ++ [e]) { ElegooCC.init sink with currentZ := z }).filamentStopped
        = false) := by
  have hchain : List.Chain (fun a b => a ≤ b) 0 ((ticks ++ [e]).map Env.millis) := by
    cases hl : (ticks ++ [e]).map Env.millis with
    | nil => exact List.Chain.nil
    | cons x xs =>
      have hc := hclock.chain'
      rw [hl] at hc
      exact List.Chain.cons (Nat.zero_le x) hc
  have hinit : (({ ElegooCC.init sink with currentZ := z } : ElegooCC).filamentStopped = true ↔
      0 - ({ ElegooCC.init sink with currentZ := z } : ElegooCC).lastChangeTime ≥ T) := by
    show (false = true ↔ 0 - 0 ≥ T)
    constructor
    · intro h; exact Bool.noConfusion h
    · intro h; omega
  have hall := runMovement_tracks T hT z (ticks ++ [e])
    { ElegooCC.init sink with currentZ := z } 0 rfl rfl (le_refl _) hinit htimeout hrange hchain
  obtain ⟨-, a2, a3⟩ := hall
  rw [lastMillis_append_singleton, a2] at a3
  have a4 : ((runMovement (ticks ++ [e])
      { ElegooCC.init sink with currentZ := z }).filamentStopped = true
      ↔ e.millis - specLastChangeTime (ticks ++ [e]) (-1) 0 ≥ T) := a3
  refine ⟨a4, ?_⟩
  intro hchange
  cases hb : (runMovement (ticks ++ [e]) { ElegooCC.init sink with currentZ := z }).filamentStopped
  · rfl
  · have h := a4.1 hb
    rw [specLastChangeTime_append_singleton, if_pos hchange] at h
    omega

/-- Witness for C19: the pin reads 1 from the first tick at 5 s on, first-layer
timeout 8 s: not stopped at 10 s, stopped at 15 s and later. -/
theorem stopped_iff_unchanged_for_timeout_witness :
    specLastChangeTime steadyTicks (-1) 0 = 5000 ∧
    (runMovement (steadyTicks.take 2) (ElegooCC.init (some []))).filamentStopped = false ∧
    ((runMovement (steadyTicks.take 2 ++ [envAt 5 15000])
        { ElegooCC.init (some []) with currentZ := ⟨0, 0, .finite⟩ }).filamentStopped = true
      ↔ (envAt 5 15000).millis
          - specLastChangeTime (steadyTicks.take 2 ++ [envAt 5 15000]) (-1) 0 ≥ 8000) :=
  ⟨by decide, by decide,
    (stopped_iff_unchanged_for_timeout (some []) ⟨0, 0, .finite⟩ 8000 (steadyTicks.take 2)
      (envAt 5 15000) (by decide) (by decide) (by decide) (by decide)).1⟩

/-- C20. For every status frame that carries a machine-status array and every
previous state: bit `k` of the new mask is set exactly when `0 ≤ k ≤ 4` and `k`
occurs among the first five entries of the array. Out-of-range entries and
entries beyond the fifth contribute nothing, the previous mask has no
influence, the mask is below 32, and `[0, 2, 4]` gives the mask with exactly
the bits 0, 2 and 4 (the number 21). -/
theorem machine_status_mask_bits (env : Env) (st : StatusObj) (mb : String)
    (arr : List Int) (s : ElegooCC) (h : st.CurrentStatus = some arr) :
    (∀ k : Nat, (ElegooCC.handleStatus env st mb s).machineStatusMask.testBit k = true ↔
      (k ≤ 4 ∧ (k : Int) ∈ arr.take 5)) ∧
    (∀ s2 : ElegooCC, (ElegooCC.handleStatus env st mb s2).machineStatusMask =
      (ElegooCC.handleStatus env st mb s).machineStatusMask) ∧
    (ElegooCC.handleStatus env st mb s).machineStatusMask < 32 ∧
    (arr = [0, 2, 4] → (ElegooCC.handleStatus env st mb s).machineStatusMask = 21) := by
  have hm : ∀ u : ElegooCC, (ElegooCC.handleStatus env st mb u).machineStatusMask =
      (ElegooCC.setMachineStatuses (arr.take 5) u).machineStatusMask := by
    intro u
    rw [ElegooCC.handleStatus_machineStatusMask, h]
  have hbits : ∀ k : Nat,
      (ElegooCC.handleStatus env st mb s).machineStatusMask.testBit k = true ↔
        (k ≤ 4 ∧ (k : Int) ∈ arr.take 5) := by
    intro k
    rw [hm]
    exact ElegooCC.setMachineStatuses_testBit _ _ _
  refine ⟨hbits, ?_, ?_, ?_⟩
  · intro s2
    rw [hm, hm]
    rfl
  · have : (ElegooCC.handleStatus env st mb s).machineStatusMask < 2 ^ 5 := by
      apply Nat.lt_pow_two_of_testBit
      intro i hi
      cases hb : (ElegooCC.handleStatus env st mb s).machineStatusMask.testBit i
      · rfl
      · have := ((hbits i).1 hb).1
        omega
    simpa using this
  · intro harr
    rw [hm, harr]
    rfl

/-- Witness for C20: the array `[0, 2, 4, 7, -1, 3]` sets bits 0, 2 and 4 only
(7 and -1 are out of range, 3 is the sixth entry). -/
theorem machine_status_mask_bits_witness :
    (ElegooCC.handleStatus (envAt 5 1000)
        { CurrentStatus := some [0, 2, 4, 7, -1, 3], CurrenCoord := none, PrintInfo := none }
        "" (printingState 2)).machineStatusMask < 32 ∧
    (ElegooCC.handleStatus (envAt 5 1000)
        { CurrentStatus := some [0, 2, 4, 7, -1, 3], CurrenCoord := none, PrintInfo := none }
        "" (printingState 2)).machineStatusMask = 21 :=
  ⟨(machine_status_mask_bits (envAt 5 1000)
      { CurrentStatus := some [0, 2, 4, 7, -1, 3], CurrenCoord := none, PrintInfo := none }
      "" [0, 2, 4, 7, -1, 3] (printingState 2) rfl).2.2.1,
   by decide⟩

/-- C21. A status frame carrying `PrintInfo`, with new status `n` (the frame's
`Status`, idle when absent). If `n` differs from the current print status and
is "printing", `startedAt` becomes the current time and the pause state is
reset (`pauseCommandSent` false, dispatch time 0, retry count 0); if it differs
and is "paused", the pause state is reset and `startedAt` is unchanged; if `n`
equals the current status, or is neither "printing" nor "paused", `startedAt`
and the pause state are unchanged. -/
theorem handleStatus_status_transition (env : Env) (st : StatusObj) (mb : String)
    (p : PrintInfoObj) (s : ElegooCC) (hp : st.PrintInfo = some p) :
    ((p.Status.getD SDCP_PRINT_STATUS_IDLE ≠ s.printStatus ∧
        p.Status.getD SDCP_PRINT_STATUS_IDLE = SDCP_PRINT_STATUS_PRINTING) →
      (ElegooCC.handleStatus env st mb s).startedAt = env.millis ∧
      (ElegooCC.handleStatus env st mb s).pauseCommandSent = false ∧
      (ElegooCC.handleStatus env st mb s).pauseCommandSentTime = 0 ∧
      (ElegooCC.handleStatus env st mb s).pauseRetryCount = 0) ∧
    ((p.Status.getD SDCP_PRINT_STATUS_IDLE ≠ s.printStatus ∧
        p.Status.getD SDCP_PRINT_STATUS_IDLE = SDCP_PRINT_STATUS_PAUSED) →
      (ElegooCC.handleStatus env st mb s).startedAt = s.startedAt ∧
      (ElegooCC.handleStatus env st mb s).pauseCommandSent = false ∧
      (ElegooCC.handleStatus env st mb s).pauseCommandSentTime = 0 ∧
      (ElegooCC.handleStatus env st mb s).pauseRetryCount = 0) ∧
    ((p.Status.getD SDCP_PRINT_STATUS_IDLE = s.printStatus ∨
        (p.Status.getD SDCP_PRINT_STATUS_IDLE ≠ SDCP_PRINT_STATUS_PRINTING ∧
          p.Status.getD SDCP_PRINT_STATUS_IDLE ≠ SDCP_PRINT_STATUS_PAUSED)) →
      (ElegooCC.handleStatus env st mb s).startedAt = s.startedAt ∧
      (ElegooCC.handleStatus env st mb s).pauseCommandSent = s.pauseCommandSent ∧
      (ElegooCC.handleStatus env st mb s).pauseCommandSentTime = s.pauseCommandSentTime ∧
      (ElegooCC.handleStatus env st mb s).pauseRetryCount = s.pauseRetryCount) := by
  have hs := ElegooCC.handleStatus_of_printInfo env st mb s p hp
  have hb := ElegooCC.beforePrintInfo_frame st s
  have b1 := congrArg ElegooCC.printStatus hb
  have b2 := congrArg ElegooCC.startedAt hb
  have b3 := congrArg ElegooCC.pauseCommandSent hb
  have b4 := congrArg ElegooCC.pauseCommandSentTime hb
  have b5 := congrArg ElegooCC.pauseRetryCount hb
  have c1 : (ElegooCC.beforePrintInfo st s).printStatus = s.printStatus := b1
  have c2 : (ElegooCC.beforePrintInfo st s).startedAt = s.startedAt := b2
  have c3 : (ElegooCC.beforePrintInfo st s).pauseCommandSent = s.pauseCommandSent := b3
  have c4 : (ElegooCC.beforePrintInfo st s).pauseCommandSentTime = s.pauseCommandSentTime := b4
  have c5 : (ElegooCC.beforePrintInfo st s).pauseRetryCount = s.pauseRetryCount := b5
  have he := ElegooCC.handlePrintInfo_eq env p (ElegooCC.beforePrintInfo st s)
  rw [he, c1, c2, c3, c4, c5] at hs
  have f1 := congrArg ElegooCC.startedAt hs
  have f2 := congrArg ElegooCC.pauseCommandSent hs
  have f3 := congrArg ElegooCC.pauseCommandSentTime hs
  have f4 := congrArg ElegooCC.pauseRetryCount hs
  simp only [] at f1 f2 f3 f4
  refine ⟨?_, ?_, ?_⟩
  · rintro ⟨hne, hpr⟩
    rw [f1, f2, f3, f4, if_pos ⟨hne, hpr⟩, if_pos ⟨hne, Or.inl hpr⟩, if_pos ⟨hne, Or.inl hpr⟩,
      if_pos ⟨hne, Or.inl hpr⟩]
    exact ⟨rfl, rfl, rfl, rfl⟩
  · rintro ⟨hne, hpa⟩
    have hnp : p.Status.getD SDCP_PRINT_STATUS_IDLE ≠ SDCP_PRINT_STATUS_PRINTING := by
      rw [hpa]; decide
    rw [f1, f2, f3, f4, if_neg (fun c => hnp c.2), if_pos ⟨hne, Or.inr hpa⟩,
      if_pos ⟨hne, Or.inr hpa⟩, if_pos ⟨hne, Or.inr hpa⟩]
    exact ⟨rfl, rfl, rfl, rfl⟩
  · intro h
    have n1 : ¬(p.Status.getD SDCP_PRINT_STATUS_IDLE ≠ s.printStatus ∧
        p.Status.getD SDCP_PRINT_STATUS_IDLE = SDCP_PRINT_STATUS_PRINTING) := by
      rcases h with h | ⟨h1, _⟩
      · exact fun c => c.1 h
      · exact fun c => h1 c.2
    have n2 : ¬(p.Status.getD SDCP_PRINT_STATUS_IDLE ≠ s.printStatus ∧
        (p.Status.getD SDCP_PRINT_STATUS_IDLE = SDCP_PRINT_STATUS_PRINTING ∨
          p.Status.getD SDCP_PRINT_STATUS_IDLE = SDCP_PRINT_STATUS_PAUSED)) := by
      rcases h with h | ⟨h1, h2⟩
      · exact fun c => c.1 h
      · exact fun c => c.2.elim h1 h2
    rw [f1, f2, f3, f4, if_neg n1, if_neg n2, if_neg n2, if_neg n2]
    exact ⟨rfl, rfl, rfl, rfl⟩

/-- Witness for C21: from idle, a frame reporting "printing" at 1 s stamps
`startedAt`. -/
theorem handleStatus_status_transition_witness :
    (ElegooCC.handleStatus (envAt 5 1000) (bareStatusFrame SDCP_PRINT_STATUS_PRINTING) ""
      (ElegooCC.init (some []))).startedAt = 1000 :=
  ((handleStatus_status_transition (envAt 5 1000) (bareStatusFrame SDCP_PRINT_STATUS_PRINTING)
    "" _ (ElegooCC.init (some [])) rfl).1 (by decide)).1

/-- C22. The mainboard identifier is set once. In a state where it is
non-empty, no call changes it: no inbound event (ack or status frame whatever
`MainboardID` it carries, connect, disconnect), tick, pause or continue
request, hence no sequence of them. While it is empty, an ack frame (with `Cmd`
and `RequestID`) carrying a non-empty `MainboardID` sets it to that value,
whether or not the ack matches the pending one, and so does a status frame
carrying a non-empty `MainboardID`. -/
theorem mainboardID_set_once (s : ElegooCC) :
    (s.mainboardID ≠ "" →
      (∀ step : Step, (step.apply s).mainboardID = s.mainboardID) ∧
      (∀ steps : List Step, (run steps s).mainboardID = s.mainboardID)) ∧
    (s.mainboardID = "" →
      (∀ (env : Env) (doc : JsonDocument) (id : String) (data : DataObj) (cmd : Int)
          (reqId : String),
        doc.Id = some id → doc.Data = some data →
        data.Cmd = some cmd → data.RequestID = some reqId → data.MainboardID ≠ "" →
        (ElegooCC.transportEvent env WStype_TEXT (some doc) s).mainboardID
          = data.MainboardID) ∧
      (∀ (env : Env) (doc : JsonDocument) (status : StatusObj),
        ¬ (doc.Id.isSome = true ∧ doc.Data.isSome = true) → doc.Status = some status →
        doc.MainboardID ≠ "" →
        (ElegooCC.transportEvent env WStype_TEXT (some doc) s).mainboardID
          = doc.MainboardID)) := by
  refine ⟨fun h => ⟨fun step => Step.apply_mainboardID step s h,
    fun steps => run_mainboardID steps s h⟩, fun h => ⟨?_, ?_⟩⟩
  · intro env doc id data cmd reqId hid hdata hcmd hreq hmb
    have hne : data.MainboardID.isEmpty = false := by
      cases hb : data.MainboardID.isEmpty
      · rfl
      · exact absurd ((String.isEmpty_iff _).1 hb) hmb
    have he : ElegooCC.transportEvent env WStype_TEXT (some doc) s
        = ElegooCC.handleCommandResponse data s := by
      unfold ElegooCC.transportEvent ElegooCC.webSocketEvent
      simp only [hid, hdata]
    rw [he, ElegooCC.handleCommandResponse_mainboardID, hcmd, hreq, hne, h]
    rfl
  · intro env doc status hshape hst hmb
    have hne : doc.MainboardID.isEmpty = false := by
      cases hb : doc.MainboardID.isEmpty
      · rfl
      · exact absurd ((String.isEmpty_iff _).1 hb) hmb
    have he : ElegooCC.transportEvent env WStype_TEXT (some doc) s
        = ElegooCC.handleStatus env status doc.MainboardID s := by
      unfold ElegooCC.transportEvent ElegooCC.webSocketEvent
      cases hi : doc.Id <;> cases hd : doc.Data <;>
        first
          | (exfalso; apply hshape; rw [hi, hd]; exact ⟨rfl, rfl⟩)
          | (simp only [hst, hi, hd])
    rw [he, ElegooCC.handleStatus_mainboardID, hne, h]
    rfl

/-- Witness for C22: the identifier captured from the first status frame
survives a status frame that carries another one, and an unmatched ack sets it
on a fresh controller. -/
theorem mainboardID_set_once_witness :
    (printingState 5).mainboardID = "ABCD1234" ∧
    (run [.event (envAt 5 3000) WStype_TEXT
        (some { statusFrame SDCP_PRINT_STATUS_PRINTING with MainboardID := "ZZZZ" }),
      .event (envAt 5 4000) WStype_DISCONNECTED none,
      .tick (envAt 5 5000)] (printingState 5)).mainboardID = "ABCD1234" ∧
    (ElegooCC.transportEvent (envAt 5 600) WStype_TEXT 
      (some { Id := some "other", Data := some (ackData 7 "other"), Status := none,
              MainboardID := "" })
      (ElegooCC.init (some []))).mainboardID = "ABCD1234" :=
  ⟨by decide,
    (((mainboardID_set_once (printingState 5)).1 (by decide)).2 _).trans (by decide),
    ((mainboardID_set_once (ElegooCC.init (some []))).2 rfl).1 (envAt 5 600)
      { Id := some "other", Data := some (ackData 7 "other"), Status := none, MainboardID := "" }
      "other" (ackData 7 "other") 7 "other" rfl rfl rfl rfl (by decide)⟩

/-- C23. `triggerTestMovementStop` activates the diagnostic override and stamps
its start. While the override is active and fewer than 600000 ms have passed
since then, a tick of `checkFilamentMovement` leaves the stopped flag true
whatever the movement pin reads, leaves the last observed pin value and the
last-change time unchanged and keeps the override (and its start time), so the
same holds on every tick of the window. On a tick at which 600000 ms or more
have passed the override is deactivated and the tick is the normal debounce
step on its reading. -/
theorem diagnostic_override_window (env : Env) (ct : Nat) (s : ElegooCC) :
    (∀ e : Env,
      (ElegooCC.triggerTestMovementStop e s).testMovementStopActive = true ∧
      (ElegooCC.triggerTestMovementStop e s).testMovementStopStartTime = e.millis) ∧
    (s.testMovementStopActive = true → usub ct s.testMovementStopStartTime < 600000 →
      (ElegooCC.checkFilamentMovement env ct s).filamentStopped = true ∧
      (ElegooCC.checkFilamentMovement env ct s).lastMovementValue = s.lastMovementValue ∧
      (ElegooCC.checkFilamentMovement env ct s).lastChangeTime = s.lastChangeTime ∧
      (ElegooCC.checkFilamentMovement env ct s).testMovementStopActive = true ∧
      (ElegooCC.checkFilamentMovement env ct s).testMovementStopStartTime
        = s.testMovementStopStartTime) ∧
    (s.testMovementStopActive = true → usub ct s.testMovementStopStartTime ≥ 600000 →
      ElegooCC.checkFilamentMovement env ct s =
        ElegooCC.checkFilamentMovement env ct { s with testMovementStopActive := false } ∧
      (ElegooCC.checkFilamentMovement env ct s).testMovementStopActive = false ∧
      (ElegooCC.checkFilamentMovement env ct s).lastMovementValue = env.movementPin ∧
      (ElegooCC.checkFilamentMovement env ct s).lastChangeTime =
        (if env.movementPin ≠ s.lastMovementValue then ct else s.lastChangeTime) ∧
      (ElegooCC.checkFilamentMovement env ct s).filamentStopped =
        (if env.movementPin ≠ s.lastMovementValue then false
         else if usub ct s.lastChangeTime ≥ toULong (ElegooCC.movementTimeout env s) then true
         else s.filamentStopped)) := by
  refine ⟨fun e => ⟨rfl, rfl⟩, ?_, ?_⟩
  · intro hact hlt
    rw [ElegooCC.checkFilamentMovement_override env ct s hact hlt]
    exact ⟨rfl, rfl, rfl, hact, rfl⟩
  · intro _ hge
    have he := ElegooCC.checkFilamentMovement_override_expired env ct s hge
    have hn := ElegooCC.checkFilamentMovement_normal env ct
      { s with testMovementStopActive := false } rfl
    rw [← he] at hn
    exact ⟨he, hn⟩

/-- Witness for C23: one second after the trigger the pin changes and the
stopped flag is forced all the same; 600 s after the trigger the override is
gone and the changed reading clears the flag. -/
theorem diagnostic_override_window_witness :
    overrideActive.testMovementStopActive = true ∧
    (envPinLow 4000).movementPin ≠ overrideActive.lastMovementValue ∧
    (ElegooCC.checkFilamentMovement (envPinLow 4000) 4000 overrideActive).filamentStopped
      = true ∧
    (ElegooCC.checkFilamentMovement (envPinLow 603000) 603000 overrideActive)
      = ElegooCC.checkFilamentMovement (envPinLow 603000) 603000
          { overrideActive with testMovementStopActive := false } :=
  ⟨by decide, by decide,
    ((diagnostic_override_window (envPinLow 4000) 4000 overrideActive).2.1
      (by decide) (by decide)).1,
    ((diagnostic_override_window (envPinLow 603000) 603000 overrideActive).2.2
      (by decide) (by decide)).1⟩

/-- C24. After a call of `checkFilamentRunout` the runout flag says whether the
runout pin reads LOW, whatever the flag was before, and the call emits a log
line exactly when the new flag differs from the previous one. -/
theorem runout_flag_instantaneous (env : Env) (ct : Nat) (s : ElegooCC) :
    (ElegooCC.checkFilamentRunout env ct s).filamentRunout = (env.runoutPin == 0) ∧
    (∀ s2 : ElegooCC, (ElegooCC.checkFilamentRunout env ct s2).filamentRunout
      = (ElegooCC.checkFilamentRunout env ct s).filamentRunout) ∧
    ((ElegooCC.checkFilamentRunoutLog env s).isSome = true ↔
      (ElegooCC.checkFilamentRunout env ct s).filamentRunout ≠ s.filamentRunout) := by
  refine ⟨rfl, fun _ => rfl, ?_⟩
  unfold ElegooCC.checkFilamentRunoutLog ElegooCC.checkFilamentRunout
  simp only []
  by_cases h : (env.runoutPin == 0) = s.filamentRunout
  · simp [h]
  · simp [h]

/-- Witness for C24: the runout pin reads LOW while the flag is clear; the flag
is set and a line is logged. -/
theorem runout_flag_instantaneous_witness :
    (printingState 5).filamentRunout = false ∧
    (ElegooCC.checkFilamentRunout (envWith (settingsWith 5 true) 0 3000) 3000
      (printingState 5)).filamentRunout = true ∧
    (ElegooCC.checkFilamentRunoutLog (envWith (settingsWith 5 true) 0 3000)
      (printingState 5)).isSome = true :=
  ⟨by decide,
    (runout_flag_instantaneous (envWith (settingsWith 5 true) 0 3000) 3000
      (printingState 5)).1.trans (by decide),
    (runout_flag_instantaneous (envWith (settingsWith 5 true) 0 3000) 3000
      (printingState 5)).2.2.2 (by decide)⟩

/-- C25. A text frame that fails to parse, or that parses but has neither both
`Id` and `Data` nor `Status` at the top level, changes nothing: the whole
controller state (printer model, pending ack, pause verification, mainboard
identifier, transmitted frames, telemetry) is the same after the event. -/
theorem unrecognised_text_frame_ignored (env : Env) (s : ElegooCC) :
    ElegooCC.transportEvent env WStype_TEXT none s = s ∧
    (∀ doc : JsonDocument, ¬ (doc.Id.isSome = true ∧ doc.Data.isSome = true) →
      doc.Status = none →
      ElegooCC.transportEvent env WStype_TEXT (some doc) s = s) := by
  refine ⟨rfl, ?_⟩
  intro doc hshape hst
  unfold ElegooCC.transportEvent ElegooCC.webSocketEvent
  cases hi : doc.Id <;> cases hd : doc.Data <;>
    first
      | (exfalso; apply hshape; rw [hi, hd]; exact ⟨rfl, rfl⟩)
      | (simp only [hst, hi, hd])

/-- Witness for C25: a frame with `Id` only, during a pending ack. -/
theorem unrecognised_text_frame_ignored_witness :
    ElegooCC.transportEvent (envAt 5 2000) WStype_TEXT (some strayFrame) awaitingContinueAck
      = awaitingContinueAck :=
  (unrecognised_text_frame_ignored (envAt 5 2000) awaitingContinueAck).2 strayFrame
    (by decide) rfl

/-- C26. While a pause is in verification, `checkPauseVerification` on a tick
where the print status is paused, pausing or idle appends to the telemetry
sink one "success" record carrying the current retry count and print status
and resets the pause state (`pauseCommandSent` false, dispatch time 0, retry
count 0), changing nothing else; when no pause is in verification it changes
nothing and records nothing. -/
theorem pause_verification_success (env : Env) (ct : Nat) (s : ElegooCC) :
    (s.pauseCommandSent = true →
      (s.printStatus = SDCP_PRINT_STATUS_PAUSED ∨ s.printStatus = SDCP_PRINT_STATUS_PAUSING ∨
        s.printStatus = SDCP_PRINT_STATUS_IDLE) →
      ElegooCC.checkPauseVerification env ct s =
        { s with
          pauseCommandSent := false
          pauseCommandSentTime := 0
          pauseRetryCount := 0
          pauseAttemptData := s.pauseAttemptData.map (fun l =>
            l ++ [⟨env.getTime, PAUSE_ATTEMPT_SUCCESS, s.pauseRetryCount, s.printStatus⟩]) }) ∧
    (s.pauseCommandSent = false → ElegooCC.checkPauseVerification env ct s = s) := by
  refine ⟨?_, ?_⟩
  · intro hsent hst
    have hc : (s.printStatus == SDCP_PRINT_STATUS_PAUSED ||
        s.printStatus == SDCP_PRINT_STATUS_PAUSING ||
        s.printStatus == SDCP_PRINT_STATUS_IDLE) = true := by
      rcases hst with h | h | h <;> rw [h] <;> rfl
    unfold ElegooCC.checkPauseVerification
    rw [if_neg (by rw [hsent]; decide), if_pos hc]
    rfl
  · intro hsent
    unfold ElegooCC.checkPauseVerification
    rw [if_pos (by rw [hsent]; rfl)]

/-- Witness for C26: the printer reports "pausing" 3 s after the dispatch; the
next verification records the success with retry count 0. -/
theorem pause_verification_success_witness :
    pausingReported.pauseCommandSent = true ∧
    attemptKinds pausingReported = [(PAUSE_ATTEMPT_INITIAL, 0)] ∧
    attemptKinds (ElegooCC.checkPauseVerification (envAt 5 36000) 36000 pausingReported)
      = [(PAUSE_ATTEMPT_INITIAL, 0), (PAUSE_ATTEMPT_SUCCESS, 0)] ∧
    (ElegooCC.checkPauseVerification (envAt 5 36000) 36000 pausingReported).pauseCommandSent
      = false :=
  ⟨by decide, by decide,
    (congrArg attemptKinds ((pause_verification_success (envAt 5 36000) 36000
      pausingReported).1 (by decide) (by decide))).trans (by decide),
    by decide⟩

/-- C27. While a pause is in verification and the print status is not paused,
pausing or idle: if the time since dispatch (the 32-bit difference of the tick
time and the dispatch time) is below the verification timeout,
`checkPauseVerification` changes nothing and records nothing. Once it has
reached the timeout: if the retry count is below the maximum, the retry count
is incremented by one, one "retry" record with the incremented count is
appended, `pauseCommandSent` becomes false and the incremented count and the
dispatch time are kept; otherwise one "max-exceeded" record with the current
count is appended and the pause state is reset with retry count 0. -/
theorem pause_verification_timeout (env : Env) (ct : Nat) (s : ElegooCC)
    (hsent : s.pauseCommandSent = true)
    (hst : s.printStatus ≠ SDCP_PRINT_STATUS_PAUSED ∧
      s.printStatus ≠ SDCP_PRINT_STATUS_PAUSING ∧ s.printStatus ≠ SDCP_PRINT_STATUS_IDLE) :
    (usub ct s.pauseCommandSentTime < toULong env.settings.pause_verification_timeout_ms →
      ElegooCC.checkPauseVerification env ct s = s) ∧
    (usub ct s.pauseCommandSentTime ≥ toULong env.settings.pause_verification_timeout_ms →
      s.pauseRetryCount < env.settings.max_pause_retries →
      ElegooCC.checkPauseVerification env ct s =
        { s with
          pauseCommandSent := false
          pauseRetryCount := s.pauseRetryCount + 1
          pauseAttemptData := s.pauseAttemptData.map (fun l =>
            l ++ [⟨env.getTime, PAUSE_ATTEMPT_RETRY, s.pauseRetryCount + 1, s.printStatus⟩]) }) ∧
    (usub ct s.pauseCommandSentTime ≥ toULong env.settings.pause_verification_timeout_ms →
      ¬ s.pauseRetryCount < env.settings.max_pause_retries →
      ElegooCC.checkPauseVerification env ct s =
        { s with
          pauseCommandSent := false
          pauseCommandSentTime := 0
          pauseRetryCount := 0
          pauseAttemptData := s.pauseAttemptData.map (fun l =>
            l ++ [⟨env.getTime, PAUSE_ATTEMPT_MAX_EXCEEDED, s.pauseRetryCount,
              s.printStatus⟩]) }) := by
  have hc : ¬ ((s.printStatus == SDCP_PRINT_STATUS_PAUSED ||
      s.printStatus == SDCP_PRINT_STATUS_PAUSING ||
      s.printStatus == SDCP_PRINT_STATUS_IDLE) = true) := by
    simp [hst.1, hst.2.1, hst.2.2]
  have h0 : ¬ ((!s.pauseCommandSent) = true) := by rw [hsent]; decide
  refine ⟨?_, ?_, ?_⟩
  · intro hlt
    unfold ElegooCC.checkPauseVerification
    rw [if_neg h0, if_neg hc, if_neg (not_le.mpr hlt)]
  · intro hge hlt
    unfold ElegooCC.checkPauseVerification
    rw [if_neg h0, if_neg hc, if_pos hge, if_pos hlt]
    rfl
  · intro hge hlt
    unfold ElegooCC.checkPauseVerification
    rw [if_neg h0, if_neg hc, if_pos hge, if_neg hlt]
    rfl

/-- Witness for C27: after the dispatch at 30 s nothing happens at 36 s, the
verification at 46 s records the first retry, and with a retry budget of 0 it
records "max-exceeded". -/
theorem pause_verification_timeout_witness :
    ElegooCC.checkPauseVerification (envAt 5 36000) 36000 (pauseDispatched 5)
      = pauseDispatched 5 ∧
    attemptKinds (ElegooCC.checkPauseVerification (envAt 5 46000) 46000 (pauseDispatched 5))
      = [(PAUSE_ATTEMPT_INITIAL, 0), (PAUSE_ATTEMPT_RETRY, 1)] ∧
    attemptKinds (ElegooCC.checkPauseVerification (envAt 0 46000) 46000 (pauseDispatched 0))
      = [(PAUSE_ATTEMPT_INITIAL, 0), (PAUSE_ATTEMPT_MAX_EXCEEDED, 0)] :=
  ⟨(pause_verification_timeout (envAt 5 36000) 36000 (pauseDispatched 5) (by decide)
      (by decide)).1 (by decide),
    (congrArg attemptKinds ((pause_verification_timeout (envAt 5 46000) 46000
      (pauseDispatched 5) (by decide) (by decide)).2.1 (by decide) (by decide))).trans
      (by decide),
    (congrArg attemptKinds ((pause_verification_timeout (envAt 0 46000) 46000
      (pauseDispatched 0) (by decide) (by decide)).2.2 (by decide) (by decide))).trans
      (by decide)⟩

/-- C28. The movement timeout a tick of `checkFilamentMovement` uses is the
first-layer timeout when the stored `currentZ` is below 0.1 and the standard
timeout otherwise, in particular when `currentZ` is exactly 0.1; before any
status frame has been received `currentZ` is 0 and the first-layer timeout
applies. A stored value that is not finite is compared as C compares it:
negative infinity is below 0.1, positive infinity and a NaN are not. On a tick
with no override in force, an unchanged reading and the stopped flag clear, the
flag is set exactly when the time since the last change has reached that
timeout. -/
theorem movement_timeout_selection (env : Env) (ct : Nat) (s : ElegooCC) :
    (s.currentZ.cls = FloatClass.finite →
      ElegooCC.movementTimeout env s =
        if (s.currentZ.num : ℚ) / (10 : ℚ) ^ s.currentZ.scale < 1 / 10
        then env.settings.first_layer_timeout else env.settings.timeout) ∧
    (s.currentZ.cls = FloatClass.finite →
      (s.currentZ.num : ℚ) / (10 : ℚ) ^ s.currentZ.scale = 1 / 10 →
      ElegooCC.movementTimeout env s = env.settings.timeout) ∧
    (s.currentZ.cls = FloatClass.negInf →
      ElegooCC.movementTimeout env s = env.settings.first_layer_timeout) ∧
    (s.currentZ.cls = FloatClass.posInf ∨ s.currentZ.cls = FloatClass.nan →
      ElegooCC.movementTimeout env s = env.settings.timeout) ∧
    (∀ sink, ElegooCC.movementTimeout env (ElegooCC.init sink)
      = env.settings.first_layer_timeout) ∧
    ((s.testMovementStopActive = false ∨ usub ct s.testMovementStopStartTime ≥ 600000) →
      env.movementPin = s.lastMovementValue → s.filamentStopped = false →
      ((ElegooCC.checkFilamentMovement env ct s).filamentStopped = true ↔
        usub ct s.lastChangeTime ≥ toULong (ElegooCC.movementTimeout env s))) := by
  have h1 : s.currentZ.cls = FloatClass.finite → ElegooCC.movementTimeout env s =
      if (s.currentZ.num : ℚ) / (10 : ℚ) ^ s.currentZ.scale < 1 / 10
      then env.settings.first_layer_timeout else env.settings.timeout := by
    intro hfin
    unfold ElegooCC.movementTimeout
    by_cases hb : s.currentZ.belowTenth = true
    · rw [if_pos hb, if_pos ((ZValue.belowTenth_iff _ hfin).1 hb)]
    · rw [if_neg hb, if_neg (fun h => hb ((ZValue.belowTenth_iff _ hfin).2 h))]
  refine ⟨h1, ?_, ?_, ?_, fun _ => rfl, ?_⟩
  · intro hfin he
    rw [h1 hfin, if_neg (by rw [he]; exact lt_irrefl _)]
  · intro hc
    unfold ElegooCC.movementTimeout ZValue.belowTenth
    rw [hc]
    rfl
  · intro hc
    unfold ElegooCC.movementTimeout ZValue.belowTenth
    rcases hc with hc | hc <;> rw [hc] <;> rfl
  · intro hov hpin hst
    have hn := ElegooCC.checkFilamentMovement_normal env ct
      { s with testMovementStopActive := false } rfl
    have he : ElegooCC.checkFilamentMovement env ct s =
        ElegooCC.checkFilamentMovement env ct { s with testMovementStopActive := false } := by
      rcases hov with h | h
      · have e : s = { s with testMovementStopActive := false } := by
          cases s; simp_all
        rw [← e]
      · exact ElegooCC.checkFilamentMovement_override_expired env ct s h
    rw [← he] at hn
    have h4 : (ElegooCC.checkFilamentMovement env ct s).filamentStopped =
        (if env.movementPin ≠ s.lastMovementValue then false
         else if usub ct s.lastChangeTime ≥ toULong (ElegooCC.movementTimeout env s) then true
         else s.filamentStopped) := hn.2.2.2
    rw [h4, if_neg (not_not.mpr hpin), hst]
    constructor
    · intro h
      by_contra hc
      rw [if_neg hc] at h
      exact Bool.false_ne_true h
    · intro h
      rw [if_pos h]

/-- Witness for C28: at z = 1.2 the standard timeout of 20 s applies, so 28 s
without a change sets the flag and 7 s (beyond the first-layer timeout 8 s
minus one) does not; a frame whose height field reads 0.1 selects the
standard timeout, one that reads 0.09 the first-layer timeout. -/
theorem movement_timeout_selection_witness :
    (ElegooCC.checkFilamentMovement (envAt 5 30000) 30000 (printingState 5)).filamentStopped
      = true ∧
    ElegooCC.movementTimeout (envAt 5 3000)
      (ElegooCC.parseCurrentZ "10.00,20.00,0.1" (printingState 5)) = 20000 ∧
    ElegooCC.movementTimeout (envAt 5 3000)
      (ElegooCC.parseCurrentZ "10.00,20.00,0.09" (printingState 5)) = 8000 :=
  ⟨((movement_timeout_selection (envAt 5 30000) 30000 (printingState 5)).2.2.2.2.2
      (Or.inl (by decide)) (by decide) (by decide)).2 (by decide),
    by decide, by decide⟩

/-- C29. The stopped flag is latched: once it is true it stays true on a tick
whose pin reading equals the last observed value, whatever the settings and
the nozzle height of that tick (so also when the applicable timeout is now
larger than the time since the last change), and on every sequence of such
ticks; a tick that clears it has observed a changed reading. -/
theorem stopped_flag_latched (env : Env) (ct : Nat) (s : ElegooCC)
    (hst : s.filamentStopped = true) :
    (env.movementPin = s.lastMovementValue →
      (ElegooCC.checkFilamentMovement env ct s).filamentStopped = true) ∧
    ((ElegooCC.checkFilamentMovement env ct s).filamentStopped = false →
      env.movementPin ≠ s.lastMovementValue) ∧
    (∀ ticks : List Env, (∀ e ∈ ticks, e.movementPin = s.lastMovementValue) →
      (runMovement ticks s).filamentStopped = true) := by
  refine ⟨fun hpin => (ElegooCC.checkFilamentMovement_latched env ct s hst hpin).1, ?_,
    fun ticks hall => runMovement_latched ticks s hst hall⟩
  intro hf hpin
  rw [(ElegooCC.checkFilamentMovement_latched env ct s hst hpin).1] at hf
  exact Bool.noConfusion hf

/-- Witness for C29: the flag set at 30 s (28 s unchanged, timeout 20 s) stays
set at 31 s although the standard timeout is then 60 s and only 29 s have
passed since the last change. -/
theorem stopped_flag_latched_witness :
    stalledState.filamentStopped = true ∧
    usub 31000 stalledState.lastChangeTime
      < toULong (ElegooCC.movementTimeout (envSlowTimeout 31000) stalledState) ∧
    (ElegooCC.checkFilamentMovement (envSlowTimeout 31000) 31000 stalledState).filamentStopped
      = true :=
  ⟨by decide, by decide,
    (stopped_flag_latched (envSlowTimeout 31000) 31000 stalledState (by decide)).1 (by decide)⟩

/-- C30. After a status frame that contains `PrintInfo`, the print status, the
current and total layer, the progress, the current and total ticks and the
print speed are the values of that frame's `PrintInfo`, a missing member giving
0 (idle for the status) whatever the previous state was; a status frame
without `PrintInfo` leaves the seven members unchanged, and a status frame
without the machine-status array leaves the mask unchanged. -/
theorem handleStatus_printInfo_overwrites (env : Env) (st : StatusObj) (mb : String)
    (s : ElegooCC) :
    (∀ p : PrintInfoObj, st.PrintInfo = some p →
      (ElegooCC.handleStatus env st mb s).printStatus = p.Status.getD SDCP_PRINT_STATUS_IDLE ∧
      (ElegooCC.handleStatus env st mb s).currentLayer = p.CurrentLayer.getD 0 ∧
      (ElegooCC.handleStatus env st mb s).totalLayer = p.TotalLayer.getD 0 ∧
      (ElegooCC.handleStatus env st mb s).progress = p.Progress.getD 0 ∧
      (ElegooCC.handleStatus env st mb s).currentTicks = p.CurrentTicks.getD 0 ∧
      (ElegooCC.handleStatus env st mb s).totalTicks = p.TotalTicks.getD 0 ∧
      (ElegooCC.handleStatus env st mb s).PrintSpeedPct = p.PrintSpeedPct.getD 0) ∧
    (st.PrintInfo = none →
      (ElegooCC.handleStatus env st mb s).printStatus = s.printStatus ∧
      (ElegooCC.handleStatus env st mb s).currentLayer = s.currentLayer ∧
      (ElegooCC.handleStatus env st mb s).totalLayer = s.totalLayer ∧
      (ElegooCC.handleStatus env st mb s).progress = s.progress ∧
      (ElegooCC.handleStatus env st mb s).currentTicks = s.currentTicks ∧
      (ElegooCC.handleStatus env st mb s).totalTicks = s.totalTicks ∧
      (ElegooCC.handleStatus env st mb s).PrintSpeedPct = s.PrintSpeedPct) ∧
    (st.CurrentStatus = none →
      (ElegooCC.handleStatus env st mb s).machineStatusMask = s.machineStatusMask) := by
  refine ⟨?_, ?_, ?_⟩
  · intro p hp
    have hs := ElegooCC.handleStatus_of_printInfo env st mb s p hp
    rw [ElegooCC.handlePrintInfo_eq] at hs
    have f1 := congrArg ElegooCC.printStatus hs
    have f2 := congrArg ElegooCC.currentLayer hs
    have f3 := congrArg ElegooCC.totalLayer hs
    have f4 := congrArg ElegooCC.progress hs
    have f5 := congrArg ElegooCC.currentTicks hs
    have f6 := congrArg ElegooCC.totalTicks hs
    have f7 := congrArg ElegooCC.PrintSpeedPct hs
    exact ⟨f1, f2, f3, f4, f5, f6, f7⟩
  · intro hp
    have hs := ElegooCC.handleStatus_of_no_printInfo env st mb s hp
    rw [ElegooCC.beforePrintInfo_frame] at hs
    have f1 := congrArg ElegooCC.printStatus hs
    have f2 := congrArg ElegooCC.currentLayer hs
    have f3 := congrArg ElegooCC.totalLayer hs
    have f4 := congrArg ElegooCC.progress hs
    have f5 := congrArg ElegooCC.currentTicks hs
    have f6 := congrArg ElegooCC.totalTicks hs
    have f7 := congrArg ElegooCC.PrintSpeedPct hs
    exact ⟨f1, f2, f3, f4, f5, f6, f7⟩
  · intro hc
    rw [ElegooCC.handleStatus_machineStatusMask, hc]

/-- Witness for C30: a `PrintInfo` with only `Status` zeroes the six numbers of
a running print. -/
theorem handleStatus_printInfo_overwrites_witness :
    (printingState 5).totalTicks = 100000 ∧
    (ElegooCC.handleStatus (envAt 5 3000) (bareStatusFrame SDCP_PRINT_STATUS_PRINTING) ""
      (printingState 5)).totalTicks = 0 ∧
    (ElegooCC.handleStatus (envAt 5 3000) (bareStatusFrame SDCP_PRINT_STATUS_PRINTING) ""
      (printingState 5)).machineStatusMask = (printingState 5).machineStatusMask :=
  ⟨by decide,
    ((handleStatus_printInfo_overwrites (envAt 5 3000)
      (bareStatusFrame SDCP_PRINT_STATUS_PRINTING) "" (printingState 5)).1 _ rfl).2.2.2.2.2.1,
    (handleStatus_printInfo_overwrites (envAt 5 3000)
      (bareStatusFrame SDCP_PRINT_STATUS_PRINTING) "" (printingState 5)).2.2 rfl⟩

/-- C31. After a status frame whose coordinate string has at least two commas,
`currentZ` is the value `toFloat` gives for the third comma-delimited field:
the text after the second comma, up to the next comma if there is one. When
that field is a decimal numeral (sign, digits, fraction, exponent), the value
stored is the number the numeral denotes, as a `float` holds it: 0 for a
numeral that denotes 0, the number itself when it is a binary32 value, and
otherwise, for a magnitude from `2 ^ (-126)` up to `2 ^ 126`, a finite value
within `2 ^ (-23)` of the number, relatively. For a coordinate string with
fewer than two commas, and for a status frame without the coordinate member,
`currentZ` is unchanged. -/
theorem currentZ_from_third_field (env : Env) (st : StatusObj) (mb : String) (s : ElegooCC) :
    (∀ a b c t : List Char,
      st.CurrenCoord = some (String.mk (a ++ ',' :: (b ++ ',' :: (c ++ t)))) →
      ',' ∉ a → ',' ∉ b → ',' ∉ c → (t = [] ∨ ∃ r, t = ',' :: r) →
      (ElegooCC.handleStatus env st mb s).currentZ = toFloat (String.mk c)) ∧
    (∀ (a b r : List Char) (t : DecimalText),
      st.CurrenCoord = some (String.mk (a ++ ',' :: (b ++ ',' :: (t.text ++ r)))) →
      ',' ∉ a → ',' ∉ b → (r = [] ∨ ∃ q, r = ',' :: q) → t.wellFormed = true →
      (t.magnitude = 0 →
        (ElegooCC.handleStatus env st mb s).currentZ = ⟨0, 0, .finite⟩) ∧
      (∀ (M : Nat) (E : Int), M < 2 ^ 24 → -149 ≤ E → E ≤ 104 →
        t.magnitude = (M : ℚ) * (2 : ℚ) ^ E →
        (ElegooCC.handleStatus env st mb s).currentZ.cls = FloatClass.finite ∧
        (ElegooCC.handleStatus env st mb s).currentZ.value = t.value) ∧
      ((2 : ℚ) ^ (-126 : Int) ≤ t.magnitude → t.magnitude < (2 : ℚ) ^ (126 : Int) →
        (ElegooCC.handleStatus env st mb s).currentZ.cls = FloatClass.finite ∧
        |(ElegooCC.handleStatus env st mb s).currentZ.value - t.value|
          ≤ t.magnitude / 2 ^ 23)) ∧
    (∀ str : String, st.CurrenCoord = some str → str.data.count ',' < 2 →
      (ElegooCC.handleStatus env st mb s).currentZ = s.currentZ) ∧
    (st.CurrenCoord = none → (ElegooCC.handleStatus env st mb s).currentZ = s.currentZ) := by
  have hfield : ∀ a b c t : List Char,
      st.CurrenCoord = some (String.mk (a ++ ',' :: (b ++ ',' :: (c ++ t)))) →
      ',' ∉ a → ',' ∉ b → (t = [] ∨ ∃ r, t = ',' :: r) →
      (ElegooCC.handleStatus env st mb s).currentZ = toFloat (String.mk c) := by
    intro a b c t hst ha hb ht
    rw [ElegooCC.handleStatus_currentZ, hst]
    simp only []
    rw [ElegooCC.parseCurrentZ_two_commas a b (c ++ t) s ha hb]
    rcases ht with h | ⟨r, h⟩
    · rw [h, List.append_nil]
    · rw [h]
      exact toFloat_append_comma c r
  refine ⟨fun a b c t hst ha hb _ ht => hfield a b c t hst ha hb ht, ?_, ?_, ?_⟩
  · intro a b r t hst ha hb hr hwf
    rw [hfield a b t.text r hst ha hb hr]
    exact toFloat_decimal t hwf
  · intro str hst hc
    rw [ElegooCC.handleStatus_currentZ, hst]
    simp only []
    rw [ElegooCC.parseCurrentZ_few_commas str s hc]
  · intro hst
    rw [ElegooCC.handleStatus_currentZ, hst]

/-- Witness for C31: the frame of the scenario carries "10.00,20.00,1.20" and
the height becomes the `float` nearest to 1.2, which is 10066330 / 2 ^ 23, within
`2 ^ (-23)` of 6 / 5; a fourth field does not change the result; the field
"1.5e1" gives 15; with one comma the height is kept. -/
theorem currentZ_from_third_field_witness :
    (ElegooCC.handleStatus (envAt 5 1000)
      { CurrentStatus := none, CurrenCoord := some "10.00,20.00,1.20", PrintInfo := none } ""
      (ElegooCC.init (some []))).currentZ = ⟨10066330 * 5 ^ 23, 23, .finite⟩ ∧
    (ElegooCC.handleStatus (envAt 5 1000)
      { CurrentStatus := none, CurrenCoord := some "10.00,20.00,1.20,7", PrintInfo := none } ""
      (ElegooCC.init (some []))).currentZ = ⟨10066330 * 5 ^ 23, 23, .finite⟩ ∧
    |(ElegooCC.handleStatus (envAt 5 1000)
      { CurrentStatus := none, CurrenCoord := some "10.00,20.00,1.20", PrintInfo := none } ""
      (ElegooCC.init (some []))).currentZ.value - 6 / 5| ≤ 6 / 5 / 2 ^ 23 ∧
    (ElegooCC.handleStatus (envAt 5 1000)
      { CurrentStatus := none, CurrenCoord := some "10.00,20.00,1.5e1", PrintInfo := none } ""
      (ElegooCC.init (some []))).currentZ.value = 15 ∧
    (ElegooCC.handleStatus (envAt 5 1000)
      { CurrentStatus := none, CurrenCoord := some "10.00;20.00,1.20", PrintInfo := none } ""
      (printingState 5)).currentZ = (printingState 5).currentZ :=
  ⟨((currentZ_from_third_field (envAt 5 1000)
      { CurrentStatus := none, CurrenCoord := some "10.00,20.00,1.20", PrintInfo := none } ""
      (ElegooCC.init (some []))).1 "10.00".data "20.00".data "1.20".data [] rfl
      (by decide) (by decide) (by decide) (Or.inl rfl)).trans (by decide),
    ((currentZ_from_third_field (envAt 5 1000)
      { CurrentStatus := none, CurrenCoord := some "10.00,20.00,1.20,7", PrintInfo := none } ""
      (ElegooCC.init (some []))).1 "10.00".data "20.00".data "1.20".data ",7".data rfl
      (by decide) (by decide) (by decide) (Or.inr ⟨"7".data, rfl⟩)).trans (by decide),
    by
      have h := (((currentZ_from_third_field (envAt 5 1000)
        { CurrentStatus := none, CurrenCoord := some "10.00,20.00,1.20", PrintInfo := none } ""
        (ElegooCC.init (some []))).2.1 "10.00".data "20.00".data []
        ⟨false, [1], [2, 0], none⟩ rfl (by decide) (by decide) (Or.inl rfl) rfl).2.2
        (by norm_num [DecimalText.magnitude, DecimalText.exponentValue, digitsValue,
          Nat.ofDigits, Fin.coe_ofNat_eq_mod])
        (by norm_num [DecimalText.magnitude, DecimalText.exponentValue, digitsValue,
          Nat.ofDigits, Fin.coe_ofNat_eq_mod])).2
      norm_num [DecimalText.value, DecimalText.magnitude, DecimalText.exponentValue,
        digitsValue, Nat.ofDigits, Fin.coe_ofNat_eq_mod] at h
      norm_num
      exact h,
    by
      have h := (((currentZ_from_third_field (envAt 5 1000)
        { CurrentStatus := none, CurrenCoord := some "10.00,20.00,1.5e1", PrintInfo := none } ""
        (ElegooCC.init (some []))).2.1 "10.00".data "20.00".data []
        ⟨false, [1], [5], some (false, [1])⟩ rfl (by decide) (by decide) (Or.inl rfl) rfl).2.1
        15 0 (by norm_num) (by norm_num) (by norm_num)
        (by norm_num [DecimalText.magnitude, DecimalText.exponentValue, digitsValue,
          Nat.ofDigits, Fin.coe_ofNat_eq_mod])).2
      norm_num [DecimalText.value, DecimalText.magnitude, DecimalText.exponentValue,
        digitsValue, Nat.ofDigits, Fin.coe_ofNat_eq_mod] at h
      exact h,
    (currentZ_from_third_field (envAt 5 1000)
      { CurrentStatus := none, CurrenCoord := some "10.00;20.00,1.20", PrintInfo := none } ""
      (printingState 5)).2.2.1 _ rfl (by decide)⟩

/-- C32. A tick reaches `pausePrint` only when `isPrinting` holds at the
decision, and the records a tick appends to the telemetry sink are at most one
of kind success, retry or max-exceeded (from the verification) followed by at
most one of kind initial (from the dispatch): none is of kind
already-paused-or-idle. -/
theorem loop_records_no_already_paused (env : Env) (s : ElegooCC) :
    (ElegooCC.loop env s =
      if (ElegooCC.pauseCondition env (ElegooCC.beforePauseDecision env s) &&
          ElegooCC.shouldPausePrint env env.millis (ElegooCC.beforePauseDecision env s)) = true
      then ElegooCC.pausePrint env (ElegooCC.beforePauseDecision env s)
      else ElegooCC.beforePauseDecision env s) ∧
    ((ElegooCC.pauseCondition env (ElegooCC.beforePauseDecision env s) &&
        ElegooCC.shouldPausePrint env env.millis (ElegooCC.beforePauseDecision env s)) = true →
      (ElegooCC.beforePauseDecision env s).isPrinting = true) ∧
    (∃ added : List PauseAttemptPoint,
      (ElegooCC.loop env s).pauseAttemptData = s.pauseAttemptData.map (fun l => l ++ added) ∧
      ∀ p ∈ added, p.type ≠ PAUSE_ATTEMPT_ALREADY_PAUSED) := by
  have hprint : (ElegooCC.pauseCondition env (ElegooCC.beforePauseDecision env s) &&
        ElegooCC.shouldPausePrint env env.millis (ElegooCC.beforePauseDecision env s)) = true →
      (ElegooCC.beforePauseDecision env s).isPrinting = true := by
    intro h
    rw [Bool.and_eq_true] at h
    exact ((ElegooCC.shouldPausePrint_eq_true_iff _ _ _).1 h.2).2.2.2.2.2.1
  refine ⟨rfl, hprint, ?_⟩
  obtain ⟨a, ha, _, hk⟩ := ElegooCC.checkPauseVerification_records env env.millis
    (ElegooCC.afterSensorChecks env s)
  rw [ElegooCC.afterSensorChecks_pauseAttemptData] at ha
  have hb : (ElegooCC.beforePauseDecision env s).pauseAttemptData
      = s.pauseAttemptData.map (fun l => l ++ a) := ha
  have hka : ∀ p ∈ a, p.type ≠ PAUSE_ATTEMPT_ALREADY_PAUSED := by
    intro p hp
    rcases hk p hp with h | h | h <;> rw [h] <;> decide
  rcases Bool.eq_false_or_eq_true
    (ElegooCC.pauseCondition env (ElegooCC.beforePauseDecision env s) &&
      ElegooCC.shouldPausePrint env env.millis (ElegooCC.beforePauseDecision env s)) with h | h
  · have hst := ElegooCC.status_of_isPrinting _ (hprint h)
    have hp := (ElegooCC.pausePrint_enters_verification env
      (ElegooCC.beforePauseDecision env s) hst.1 hst.2.1 hst.2.2).1
    refine ⟨a ++ [⟨env.getTime, PAUSE_ATTEMPT_INITIAL, 0,
      (ElegooCC.beforePauseDecision env s).printStatus⟩], ?_, ?_⟩
    · rw [ElegooCC.loop_eq_pausePrint env s h, hp, hb]
      cases s.pauseAttemptData <;> simp
    · intro p hp2
      rcases List.mem_append.1 hp2 with h1 | h1
      · exact hka p h1
      · rw [List.mem_singleton.1 h1]
        exact fun hc => PauseAttemptType.noConfusion hc
  · exact ⟨a, by rw [ElegooCC.loop_eq_before env s h, hb], hka⟩

/-- Witness for C32: the tick at 30 s dispatches the pause; the print is active
and the only record is the initial attempt. -/
theorem loop_records_no_already_paused_witness :
    (ElegooCC.beforePauseDecision (envAt 5 30000) (printingState 5)).isPrinting = true ∧
    attemptKinds (ElegooCC.loop (envAt 5 30000) (printingState 5))
      = [(PAUSE_ATTEMPT_INITIAL, 0)] :=
  ⟨(loop_records_no_already_paused (envAt 5 30000) (printingState 5)).2.1 (by decide),
    by decide⟩

/-- C33. For a print status other than paused, pausing or idle, `pausePrint`
records an "initial" attempt with retry count 0 and enters verification
(`pauseCommandSent` true, dispatch time stamped) in every state; when the
transport is disconnected or an ack is already pending it does so although no
frame is transmitted and the pending ack is left as it was. -/
theorem pausePrint_enters_verification_unsent (env : Env) (s : ElegooCC)
    (hst : s.printStatus ≠ SDCP_PRINT_STATUS_PAUSED ∧
      s.printStatus ≠ SDCP_PRINT_STATUS_PAUSING ∧ s.printStatus ≠ SDCP_PRINT_STATUS_IDLE) :
    (ElegooCC.pausePrint env s).pauseAttemptData = s.pauseAttemptData.map
        (fun l => l ++ [⟨env.getTime, PAUSE_ATTEMPT_INITIAL, 0, s.printStatus⟩]) ∧
    (ElegooCC.pausePrint env s).pauseCommandSent = true ∧
    (ElegooCC.pausePrint env s).pauseCommandSentTime = env.millisAtPause ∧
    ((s.webSocketConnected = false ∨ s.waitingForAck = true) →
      (ElegooCC.pausePrint env s).sent = s.sent ∧
      (ElegooCC.pausePrint env s).waitingForAck = s.waitingForAck ∧
      (ElegooCC.pausePrint env s).pendingAckCommand = s.pendingAckCommand ∧
      (ElegooCC.pausePrint env s).pendingAckRequestId = s.pendingAckRequestId) := by
  have h := ElegooCC.pausePrint_enters_verification env s hst.1 hst.2.1 hst.2.2
  refine ⟨h.1, h.2.1, h.2.2.1, ?_⟩
  intro hb
  rw [ElegooCC.pausePrint_eq_blocked env s hb hst.1 hst.2.1 hst.2.2]
  exact ⟨rfl, rfl, rfl, rfl⟩

/-- Witness for C33: a pause requested during a print while the transport is
down sends nothing and is in verification. -/
theorem pausePrint_enters_verification_unsent_witness :
    (ElegooCC.pausePrint (envAt 5 30000)
      { printingState 5 with webSocketConnected := false }).pauseCommandSent = true ∧
    attemptKinds (ElegooCC.pausePrint (envAt 5 30000)
      { printingState 5 with webSocketConnected := false }) = [(PAUSE_ATTEMPT_INITIAL, 0)] ∧
    (ElegooCC.pausePrint (envAt 5 30000)
      { printingState 5 with webSocketConnected := false }).sent
      = ({ printingState 5 with webSocketConnected := false } : ElegooCC).sent :=
  ⟨(pausePrint_enters_verification_unsent (envAt 5 30000)
      { printingState 5 with webSocketConnected := false } (by decide)).2.1,
    by decide,
    ((pausePrint_enters_verification_unsent (envAt 5 30000)
      { printingState 5 with webSocketConnected := false } (by decide)).2.2.2
      (Or.inl rfl)).1⟩

/-- C34. The code logs the message of the state before the edge: on a tick
where the runout flag goes from false to true (pin reads LOW) the line is
"Filament has been detected", and on a tick where it goes from true to false
the line is "Filament has run out". -/
theorem runout_log_names_previous_state :
    (printingState 5).filamentRunout = false ∧
    (ElegooCC.checkFilamentRunout (envWith (settingsWith 5 true) 0 3000) 3000
      (printingState 5)).filamentRunout = true ∧
    ElegooCC.checkFilamentRunoutLog (envWith (settingsWith 5 true) 0 3000) (printingState 5)
      = some "Filament has been detected" ∧
    runoutIgnoredState.filamentRunout = true ∧
    (ElegooCC.checkFilamentRunout (envAt 5 3000) 3000 runoutIgnoredState).filamentRunout
      = false ∧
    ElegooCC.checkFilamentRunoutLog (envAt 5 3000) runoutIgnoredState
      = some "Filament has run out" := by
  refine ⟨by decide, by decide, ?_, by decide, by decide, ?_⟩
  · exact (ElegooCC.checkFilamentRunoutLog_edge _ _).1 (by decide) (by decide)
  · exact (ElegooCC.checkFilamentRunoutLog_edge _ _).2 (by decide) (by decide)

/-- C35. On an empty series `getDataAsJSON` divides by zero, whatever the
content of the array and whatever number of points is asked for:
`pointsToReturn` is 0 and the next statement computes
`totalPoints / pointsToReturn`. The same happens on any series when 0 points
are asked for. -/
theorem getDataAsJSON_empty_divides_by_zero (cells : List DataPoint) (maxPoints : Nat)
    (d : TimeSeriesData) :
    (TimeSeriesData.init cells none).totalPoints = 0 ∧
    TimeSeriesData.readIndices maxPoints (TimeSeriesData.init cells none) = none ∧
    TimeSeriesData.getDataAsJSON maxPoints (TimeSeriesData.init cells none) = none ∧
    TimeSeriesData.getDataAsJSON 100
      (TimeSeriesData.init (List.replicate 1000 TimeSeriesData.outside) none) = none ∧
    TimeSeriesData.getDataAsJSON 0 d = none := by
  have h1 : TimeSeriesData.readIndices maxPoints (TimeSeriesData.init cells none) = none :=
    (TimeSeriesData.readIndices_eq_none_iff _ _).2 (Or.inl rfl)
  have h2 : TimeSeriesData.readIndices 100
      (TimeSeriesData.init (List.replicate 1000 TimeSeriesData.outside) none) = none :=
    (TimeSeriesData.readIndices_eq_none_iff _ _).2 (Or.inl rfl)
  have h3 : TimeSeriesData.readIndices 0 d = none :=
    (TimeSeriesData.readIndices_eq_none_iff _ _).2 (Or.inr rfl)
  refine ⟨rfl, h1, ?_, ?_, ?_⟩
  · unfold TimeSeriesData.getDataAsJSON
    rw [h1]
    rfl
  · unfold TimeSeriesData.getDataAsJSON
    rw [h2]
    rfl
  · unfold TimeSeriesData.getDataAsJSON
    rw [h3]
    rfl

/-- C36. Starting from an empty buffer, after any calls of `addAttempt` none of
which finds the file above the size limit (so that none rotates),
`getDataAsJSON n` lists the last `min n (min k 500)` of the `k` records added,
oldest first and the last record added last; the point count is `min k 500`
and the write position is `k mod 500`. -/
theorem pauseAttempts_from_empty (cells : List PauseAttemptPoint)
    (calls : List (PauseAttemptPoint × Nat)) (n : Nat)
    (hcells : cells.length = PauseAttemptData.MAX_POINTS_PER_SERIES)
    (hsize : ∀ c ∈ calls, c.2 ≤ PauseAttemptData.MAX_DATA_SIZE) :
    PauseAttemptData.getDataAsJSON n
        (PauseAttemptData.addAll calls (PauseAttemptData.init cells))
      = (calls.map Prod.fst).drop (calls.length - min n (min calls.length 500)) ∧
    (PauseAttemptData.getDataAsJSON n
        (PauseAttemptData.addAll calls (PauseAttemptData.init cells))).length
      = min n (min calls.length 500) ∧
    (PauseAttemptData.addAll calls (PauseAttemptData.init cells)).getPointCount
      = min calls.length 500 ∧
    (PauseAttemptData.addAll calls (PauseAttemptData.init cells)).currentIndex
      = calls.length % 500 := by
  obtain ⟨_, i2, i3, i4, i5⟩ := PauseAttemptData.addAttempts_inv cells hcells calls hsize
  have hl : (calls.map Prod.fst).length = calls.length := List.length_map _ _
  have hj := PauseAttemptData.getDataAsJSON_of_inv n _ _ i2 i3 i4 i5
  rw [hl] at hj i2 i3
  refine ⟨hj, ?_, i3, i2⟩
  rw [hj, List.length_drop, hl]
  omega

/-- Witness for C36: three records into an empty buffer, the last two asked
for. -/
theorem pauseAttempts_from_empty_witness :
    PauseAttemptData.getDataAsJSON 2
        (PauseAttemptData.addAll [(numbered 0, 0), (numbered 1, 0), (numbered 2, 0)]
          (PauseAttemptData.init (List.replicate 500 PauseAttemptData.outside)))
      = [numbered 1, numbered 2] :=
  (pauseAttempts_from_empty (List.replicate 500 PauseAttemptData.outside)
    [(numbered 0, 0), (numbered 1, 0), (numbered 2, 0)] 2 (List.length_replicate _ _)
    (by decide)).1.trans (by decide)

/-- C37. The persistence round trip does not keep the order of a series that
has wrapped. After 1001 samples numbered 0 to 1000 the series holds the samples
1 to 1000 with the write position at cell 1, and `getRecentData` and
`getDataAsJSON` list them from sample 1 to sample 1000. The file holds them in
that order together with the write position 1; the load puts them into the
cells 0 to 999 and restores the write position 1, so the reloaded series
lists the samples 2 to 1000 first and the oldest sample 1 last. -/
theorem timeSeries_reload_shifts_order :
    wrappedSeries.isCircularBuffer = true ∧
    wrappedSeries.currentIndex = 1 ∧
    (TimeSeriesData.getRecentData 60 1 wrappedSeries).getD 0 TimeSeriesData.outside
      = sample 1 ∧
    (TimeSeriesData.getRecentData 60 1 wrappedSeries).getD 999 TimeSeriesData.outside
      = sample 1000 ∧
    (TimeSeriesData.getDataAsJSON 1000 wrappedSeries).map
      (fun l => (l.getD 0 TimeSeriesData.outside, l.getD 999 TimeSeriesData.outside))
      = some (sample 1, sample 1000) ∧
    reloadedSeries.isCircularBuffer = true ∧
    reloadedSeries.currentIndex = 1 ∧
    (TimeSeriesData.getRecentData 60 1 reloadedSeries).getD 0 TimeSeriesData.outside
      = sample 2 ∧
    (TimeSeriesData.getRecentData 60 1 reloadedSeries).getD 999 TimeSeriesData.outside
      = sample 1 ∧
    (TimeSeriesData.getDataAsJSON 1000 reloadedSeries).map
      (fun l => (l.getD 0 TimeSeriesData.outside, l.getD 999 TimeSeriesData.outside))
      = some (sample 2, sample 1) := by
  obtain ⟨_, w2, w3, w4, w5⟩ := wrappedSeries_inv
  obtain ⟨r1, r2, r3, r5⟩ := reloadedSeries_inv
  have hcut : usub 60 (1 * 60) = 0 := by decide
  have hw := TimeSeriesData.getRecentData_circular_all wrappedSeries 60 1 w4 hcut
  have hr := TimeSeriesData.getRecentData_circular_all reloadedSeries 60 1 r1 hcut
  have hjw := TimeSeriesData.readIndices_circular_all wrappedSeries w4 w3 (by rw [w2]; decide)
  have hjr := TimeSeriesData.readIndices_circular_all reloadedSeries r1 r3 (by rw [r2]; decide)
  rw [w2] at hw hjw
  rw [r2] at hr hjr
  have m1 : 1 % 1000 = 1 := by decide
  have m0 : 1000 % 1000 = 0 := by decide
  have c1 : wrappedSeries.dataBuffer.getD 1 TimeSeriesData.outside = sample 1 := by
    have h := w5 1 (by decide) (by decide)
    rw [m1] at h
    exact h
  have c0 : wrappedSeries.dataBuffer.getD 0 TimeSeriesData.outside = sample 1000 := by
    have h := w5 1000 (by decide) (by decide)
    rw [m0] at h
    exact h
  have d1 : reloadedSeries.dataBuffer.getD 1 TimeSeriesData.outside = sample 2 :=
    r5 1 (by decide)
  have d0 : reloadedSeries.dataBuffer.getD 0 TimeSeriesData.outside = sample 1 :=
    r5 0 (by decide)
  have g : ∀ (buf : List DataPoint) (k : Nat), k < 1000 →
      ((List.range 1000).map
        (fun i => buf.getD ((1 + i) % 1000) TimeSeriesData.outside)).getD k
        TimeSeriesData.outside = buf.getD ((1 + k) % 1000) TimeSeriesData.outside := by
    intro buf k hk
    simp [List.getD_eq_getElem?_getD, List.getElem?_range, hk]
  have gi : ∀ (buf : List DataPoint) (k : Nat), k < 1000 →
      (((List.range 1000).map (fun i => (1 + i) % 1000)).map
        (fun i => buf.getD i TimeSeriesData.outside)).getD k
        TimeSeriesData.outside = buf.getD ((1 + k) % 1000) TimeSeriesData.outside := by
    intro buf k hk
    simp [List.getD_eq_getElem?_getD, List.getElem?_range, hk]
  have e0 : (1 + 0) % 1000 = 1 := by decide
  have e9 : (1 + 999) % 1000 = 0 := by decide
  refine ⟨w4, w2, ?_, ?_, ?_, r1, r2, ?_, ?_, ?_⟩
  · rw [hw, g _ 0 (by decide), e0]
    exact c1
  · rw [hw, g _ 999 (by decide), e9]
    exact c0
  · unfold TimeSeriesData.getDataAsJSON
    rw [hjw]
    simp only [Option.map_some']
    rw [gi _ 0 (by decide), gi _ 999 (by decide), e0, e9, c1, c0]
  · rw [hr, g _ 0 (by decide), e0]
    exact d1
  · rw [hr, g _ 999 (by decide), e9]
    exact d0
  · unfold TimeSeriesData.getDataAsJSON
    rw [hjr]
    simp only [Option.map_some']
    rw [gi _ 0 (by decide), gi _ 999 (by decide), e0, e9, d1, d0]

/-- C38. Without the password flag the document `toJson` serialises has no
member `passwd`, and it is the same for two settings that differ only in the
password; with the flag it has the member `passwd` with the stored value. -/
theorem toJson_password_exposure (settings : user_settings) :
    "passwd" ∉ (SettingsManager.toJson settings false).map Prod.fst ∧
    (∀ password : String,
      SettingsManager.toJson { settings with passwd := password } false
        = SettingsManager.toJson settings false) ∧
    (SettingsManager.toJson settings true).lookup "passwd"
      = some (JsonValue.str settings.passwd) ∧
    SettingsManager.toJson settings true
      = SettingsManager.toJson settings false ++ [("passwd", JsonValue.str settings.passwd)] := by
  refine ⟨?_, fun _ => rfl, ?_, rfl⟩
  · simp [SettingsManager.toJson]
  · simp [SettingsManager.toJson, List.lookup]

